import Mathlib

/-!
# kava `x/bep3`: atomic swaps

A shallow embedding of the bep3 module of `huifengking/kava`:

* `types/params.go`  : `Params`, `AssetParam`, `Params.Validate`
* `types/utils.go`   : `CalculateRandomHash`, `CalculateSwapID`
* `keeper/swap.go`   : `CreateAtomicSwap`, `ClaimAtomicSwap`, `RefundAtomicSwap`
* `keeper/htlt.go`   : `DepositHTLT`, `ValidateAsset`

Go values are embedded as follows.  `int64` is `Int`, and the three places where
the source does `int64` arithmetic go through `add64`/`sub64`, which wrap modulo
`2^64`.  `sdk.Int` (a big integer) is `Int`.  `[]byte` is `List Nat`.  A Go
`string` is a `String`.  The key-value stores behind the keeper are association
lists (`kvGet`/`kvSet`), the bank behind `supplyKeeper` is a balance function.
A keeper method, which in Go mutates the store through `ctx` and returns an
`sdk.Error`, is a function from the state before to a `Ret`: the error (`none`
for `nil`) and the state after.  Events are not part of the state.
-/

set_option linter.unusedVariables false
set_option maxRecDepth 100000

namespace Bep3

/-! ## Go values -/

/-- Go `[]byte`. -/
abbrev Bytes := List Nat

/-- The value an `int64` holds after Go computed `x` with wrap-around. -/
def wrap64 (x : Int) : Int := (x + 2 ^ 63) % 2 ^ 64 - 2 ^ 63

/-- Go `a + b` on `int64`. -/
def add64 (a b : Int) : Int := wrap64 (a + b)

/-- Go `a - b` on `int64`. -/
def sub64 (a b : Int) : Int := wrap64 (a - b)

/-- The values of type `int64`. -/
def IsInt64 (x : Int) : Prop := -(2 ^ 63) ≤ x ∧ x < 2 ^ 63

/-- Go `uint64(x)` for an `int64` `x`. -/
def toUint64 (x : Int) : Nat := (x % 2 ^ 64).toNat

/-- Go `len(s)` for a string: its length in bytes. -/
def len (s : String) : Nat := s.utf8ByteSize

/-- Go `[]byte(s)` for a string: its UTF-8 bytes. -/
def strBytes (s : String) : Bytes := (s.data.flatMap String.utf8EncodeChar).map UInt8.toNat

/-- Go `make([]byte, n)`. -/
def makeBytes (n : Nat) : Bytes := List.replicate n 0

/-- Go `copy(dst, src)`, as the content of `dst` afterwards: the first
`min(len(dst), len(src))` bytes come from `src`. -/
def copyBytes (dst src : Bytes) : Bytes := src.take dst.length ++ dst.drop src.length

/-- The eight bytes of `v`, most significant first. -/
def bigEndian64 (v : Nat) : Bytes :=
  [v / 2 ^ 56 % 256, v / 2 ^ 48 % 256, v / 2 ^ 40 % 256, v / 2 ^ 32 % 256,
   v / 2 ^ 24 % 256, v / 2 ^ 16 % 256, v / 2 ^ 8 % 256, v % 256]

/-- Go `binary.BigEndian.PutUint64(b, v)`, as the content of `b` afterwards. -/
def PutUint64 (b : Bytes) (v : Nat) : Bytes := bigEndian64 v ++ b.drop 8

/-- What `types/utils.go` takes from outside the repository and from the constants
of the package that are not among the sources: the hash `tmhash.Sum`,
`strings.ToLower`, and the constant `RandomNumberLength`.  Every theorem below holds
for all of them. -/
structure Deps where
  tmhashSum : Bytes → Bytes
  ToLower : String → String
  RandomNumberLength : Nat

/-- Modelled from the spec: the constant `Int64Size` of package `types` is not among
the sources; the timestamp is encoded as 8 bytes. -/
def Int64Size : Nat := 8

/-! ## `types/params.go` -/

/-- `AbsoluteMaximumBlockLock`. -/
def AbsoluteMaximumBlockLock : Int := 10000

/-- `AbsoluteMinimumBlockLock`. -/
def AbsoluteMinimumBlockLock : Int := 10

/-- `AssetParam`: governance parameters of one asset. -/
structure AssetParam where
  Denom : String
  CoinID : String
  Limit : Int
  Active : Bool
deriving DecidableEq, Repr

/-- `Params`: governance parameters of the module. -/
structure Params where
  BnbDeputyAddress : Bytes
  MinBlockLock : Int
  MaxBlockLock : Int
  SupportedAssets : List AssetParam
deriving DecidableEq, Repr

/-- The errors `Params.Validate` builds with `fmt.Errorf`, one per message. -/
inductive ParamsError where
  | minBlockLockTooShort
  | maxNotGreaterThanMin
  | maxBlockLockTooLong
  | emptyDenom
  | emptyCoinID
  | duplicateCoinID
  | limitNotPositive
deriving DecidableEq, Repr

/-- The loop of `Params.Validate` over `p.SupportedAssets`; `coinIDs` is the Go map
`map[string]bool`, a missing key reading `false`. -/
def validateAssets : List AssetParam → (String → Bool) → Option ParamsError
  | [], _ => none
  | asset :: rest, coinIDs =>
    if len asset.Denom = 0 then some .emptyDenom
    else if len asset.CoinID = 0 then some .emptyCoinID
    else if coinIDs asset.CoinID then some .duplicateCoinID
    else
      let coinIDs1 : String → Bool := fun k => if k = asset.CoinID then true else coinIDs k
      if asset.Limit ≤ 0 then some .limitNotPositive
      else validateAssets rest coinIDs1

/-- `Params.Validate`; `none` is Go's `nil`. -/
def Params.Validate (p : Params) : Option ParamsError :=
  if p.MinBlockLock < AbsoluteMinimumBlockLock then some .minBlockLockTooShort
  else if p.MinBlockLock ≥ p.MaxBlockLock then some .maxNotGreaterThanMin
  else if p.MaxBlockLock > AbsoluteMaximumBlockLock then some .maxBlockLockTooLong
  else validateAssets p.SupportedAssets (fun _ => false)

/-! ## `types/utils.go` -/

/-- `CalculateRandomHash`. -/
def CalculateRandomHash (d : Deps) (randomNumber : Bytes) (timestamp : Int) : Bytes :=
  let data := makeBytes (d.RandomNumberLength + Int64Size)
  let data := copyBytes (data.take d.RandomNumberLength) randomNumber
    ++ data.drop d.RandomNumberLength
  let data := data.take d.RandomNumberLength
    ++ PutUint64 (data.drop d.RandomNumberLength) (toUint64 timestamp)
  d.tmhashSum data

/-- `CalculateSwapID`. -/
def CalculateSwapID (d : Deps) (randomNumberHash : Bytes) (sender : Bytes)
    (senderOtherChain : String) : Bytes :=
  let senderOtherChain := d.ToLower senderOtherChain
  let data := randomNumberHash
  let data := data ++ sender
  let data := data ++ strBytes senderOtherChain
  d.tmhashSum data

/-! ## State: the swap registry, the asset supplies, the bank -/

/-- `sdk.Coin`: a denomination and an `sdk.Int` amount. -/
structure Coin where
  Denom : String
  Amount : Int
deriving DecidableEq, Repr

/-- The status of a swap. -/
inductive SwapStatus where
  | Open
  | Completed
  | Expired
deriving DecidableEq, Repr

/-- `AtomicSwap`, with the fields `NewAtomicSwap` is given in `CreateAtomicSwap`. -/
structure AtomicSwap where
  Amount : List Coin
  RandomNumberHash : Bytes
  ExpireHeight : Int
  Timestamp : Int
  Sender : Bytes
  Recipient : Bytes
  SenderOtherChain : String
  ClosedBlock : Int
  Status : SwapStatus
deriving DecidableEq, Repr

/-- Modelled from the spec: `NewAtomicSwap` of `types/swap.go` is not among the sources;
it builds the record from its arguments, in the order `CreateAtomicSwap` passes them. -/
def NewAtomicSwap (amount : List Coin) (randomNumberHash : Bytes) (expireHeight : Int)
    (timestamp : Int) (sender recipient : Bytes) (senderOtherChain : String)
    (closedBlock : Int) (status : SwapStatus) : AtomicSwap :=
  { Amount := amount, RandomNumberHash := randomNumberHash, ExpireHeight := expireHeight,
    Timestamp := timestamp, Sender := sender, Recipient := recipient,
    SenderOtherChain := senderOtherChain, ClosedBlock := closedBlock, Status := status }

/-- Modelled from the spec: `AtomicSwap.GetSwapID` of `types/swap.go` is not among the
sources; the swap ID is derived, `swapID = H(randomNumberHash ‖ sender ‖
lowercase(senderOtherChain))`. -/
def AtomicSwap.GetSwapID (d : Deps) (a : AtomicSwap) : Bytes :=
  CalculateSwapID d a.RandomNumberHash a.Sender a.SenderOtherChain

/-- Reading a key of a key-value store. -/
def kvGet {κ ν : Type} [DecidableEq κ] : List (κ × ν) → κ → Option ν
  | [], _ => none
  | (k, v) :: rest, key => if k = key then some v else kvGet rest key

/-- Writing a key of a key-value store: the value under an existing key is replaced. -/
def kvSet {κ ν : Type} [DecidableEq κ] : List (κ × ν) → κ → ν → List (κ × ν)
  | [], key, val => [(key, val)]
  | (k, v) :: rest, key, val =>
    if k = key then (key, val) :: rest else (k, v) :: kvSet rest key val

/-- Who holds a balance: an account, or the module account of bep3 (the escrow). -/
inductive Holder where
  | account (addr : Bytes)
  | module
deriving DecidableEq, Repr

/-- The balances of the ledger, per holder and denomination. -/
abbrev Bank := Holder → String → Int

/-- The state the keeper works on. -/
structure State where
  swaps : List (Bytes × AtomicSwap)
  supplies : List (String × Coin)
  bank : Bank

/-- The empty state over the balances `bank`: no swaps and no supply entries. -/
def State.initial (bank : Bank) : State := { swaps := [], supplies := [], bank := bank }

/-- The `sdk.Error`s of the keeper, and the Go run-time panic of an index out of range. -/
inductive Err where
  | AtomicSwapAlreadyExists
  | InvalidHeightSpan
  | InvalidTimestamp
  | InvalidAddress
  | Internal
  | AssetNotSupported
  | AssetNotActive
  | AssetSupplyNotSet
  | AboveAssetSupplyLimit
  | TransferFailed
  | AtomicSwapNotFound
  | SwapNotOpen
  | AtomicSwapHasExpired
  | InvalidClaimSecret
  | SwapNotRefundable
  | PanicIndexOutOfRange
deriving DecidableEq, Repr

/-- What a keeper method leaves: the error it returns (`none` for `nil`) and the state. -/
structure Ret where
  err : Option Err
  st : State

/-! ## The ledger behind `supplyKeeper` -/

/-- Modelled from the spec: the ledger is a collaborator outside the repository. One coin
moves from `src` to `dst`; it fails, changing nothing, if the amount is negative (amounts
are non-negative quantities) or if the source lacks sufficient funds.  A coin of amount zero
moves nothing and is let through; the bank of the sdk refuses such a coin, so the embedding
has the runs of the code and some more. -/
def sendCoin (b : Bank) (src dst : Holder) (c : Coin) : Option Bank :=
  if c.Amount < 0 then none
  else if b src c.Denom < c.Amount then none
  else
    let b1 : Bank := fun w dn => if w = src ∧ dn = c.Denom then b w dn - c.Amount else b w dn
    some (fun w dn => if w = dst ∧ dn = c.Denom then b1 w dn + c.Amount else b1 w dn)

/-- Modelled from the spec: the transfer of a coin list is atomic, it moves every coin or
fails without any balance change. -/
def sendCoins (b : Bank) (src dst : Holder) : List Coin → Option Bank
  | [] => some b
  | c :: rest =>
    match sendCoin b src dst c with
    | none => none
    | some b1 => sendCoins b1 src dst rest

/-- Modelled from the spec: `supplyKeeper.SendCoinsFromAccountToModule`, the escrow
transfer `TransferToEscrow(from, amount)`. -/
def SendCoinsFromAccountToModule (s : State) (sender : Bytes) (amt : List Coin) : Ret :=
  match sendCoins s.bank (.account sender) .module amt with
  | none => { err := some .TransferFailed, st := s }
  | some b => { err := none, st := { s with bank := b } }

/-- Modelled from the spec: `supplyKeeper.SendCoinsFromModuleToAccount`, the escrow
transfer `TransferFromEscrow(to, amount)`. -/
def SendCoinsFromModuleToAccount (s : State) (recipient : Bytes) (amt : List Coin) : Ret :=
  match sendCoins s.bank .module (.account recipient) amt with
  | none => { err := some .TransferFailed, st := s }
  | some b => { err := none, st := { s with bank := b } }

/-! ## Keeper methods that `keeper/swap.go` calls -/

/-- Modelled from the spec: `Keeper.GetAtomicSwap` is not among the sources; the registry
maps `swapID -> AtomicSwap record`. -/
def GetAtomicSwap (s : State) (swapID : Bytes) : Option AtomicSwap := kvGet s.swaps swapID

/-- Modelled from the spec: `Keeper.SetAtomicSwap` is not among the sources; it writes the
record under the given key. -/
def SetAtomicSwap (s : State) (atomicSwap : AtomicSwap) (swapID : Bytes) : State :=
  { s with swaps := kvSet s.swaps swapID atomicSwap }

/-- Modelled from the spec: `Keeper.GetAssetSupply` is not among the sources; the supply
mapping is `denom -> integer`, held as a coin of that denom. -/
def GetAssetSupply (s : State) (denom : String) : Option Coin := kvGet s.supplies denom

/-- Modelled from the spec: `Keeper.SetAssetSupply` is not among the sources. -/
def SetAssetSupply (s : State) (asset : Coin) (denom : String) : State :=
  { s with supplies := kvSet s.supplies denom asset }

/-- Modelled from the spec: the lookup of an asset of `Params.SupportedAssets` by its denom
is not among the sources; the first entry with that denom is the denom's asset. -/
def GetAssetByDenom (p : Params) (denom : String) : Option AssetParam :=
  p.SupportedAssets.find? (fun a => decide (a.Denom = denom))

/-- Modelled from the spec: `Keeper.ValidateActiveAsset` is not among the sources; the
denom must be supported and active. -/
def ValidateActiveAsset (p : Params) (coin : Coin) : Option Err :=
  match GetAssetByDenom p coin.Denom with
  | none => some .AssetNotSupported
  | some asset => if asset.Active then none else some .AssetNotActive

/-- Modelled from the spec: `Keeper.ValidateProposedIncrease` is not among the sources; it
rejects if `currentActiveSupply + proposedAmount > limit`. -/
def ValidateProposedIncrease (p : Params) (s : State) (coin : Coin) : Option Err :=
  match GetAssetSupply s coin.Denom with
  | none => some .AssetSupplyNotSet
  | some currentAssetSupply =>
    match GetAssetByDenom p coin.Denom with
    | none => some .AssetNotSupported
    | some asset =>
      if currentAssetSupply.Amount + coin.Amount > asset.Limit then some .AboveAssetSupplyLimit
      else none

/-- Modelled from the spec: `Keeper.IncrementAssetSupply` is not among the sources; it
increases `currentActiveSupply` by the amount, rejecting if this would exceed the limit. -/
def IncrementAssetSupply (p : Params) (s : State) (coin : Coin) : Ret :=
  match GetAssetSupply s coin.Denom with
  | none => { err := some .AssetSupplyNotSet, st := s }
  | some currentAssetSupply =>
    match ValidateProposedIncrease p s coin with
    | some e => { err := some e, st := s }
    | none =>
      { err := none
        st := SetAssetSupply s
          { Denom := currentAssetSupply.Denom, Amount := currentAssetSupply.Amount + coin.Amount }
          coin.Denom }

/-! ## `keeper/swap.go` -/

/-- `Keeper.CreateAtomicSwap`.  `p` is the parameter set the keeper reads
(`GetMinBlockLock`, `GetMaxBlockLock`, the supported assets), `height` is
`ctx.BlockHeight()`, `s` the state before.  The panic of `sdk.NewInt64Coin` at the first
reference to a denom that the sdk refuses is not embedded: there the embedding goes on where
the code stops. -/
def CreateAtomicSwap (d : Deps) (p : Params) (height : Int) (s : State)
    (randomNumberHash : Bytes) (timestamp : Int) (heightSpan : Int)
    (sender recipient : Bytes) (senderOtherChain recipientOtherChain : String)
    (amount : List Coin) (expectedIncome : String) : Ret :=
  let swapID := CalculateSwapID d randomNumberHash sender senderOtherChain
  match GetAtomicSwap s swapID with
  | some _ => { err := some .AtomicSwapAlreadyExists, st := s }
  | none =>
    if heightSpan < p.MinBlockLock ∨ heightSpan > p.MaxBlockLock then
      { err := some .InvalidHeightSpan, st := s }
    else if (if height > 1800
        then decide (timestamp > sub64 height 1800 ∨ timestamp < add64 height 900)
        else decide (timestamp ≥ 1800)) then
      { err := some .InvalidTimestamp, st := s }
    else if recipient = [] then
      { err := some .InvalidAddress, st := s }
    else
      match amount with
      | [amount0] =>
        match ValidateActiveAsset p amount0 with
        | some e => { err := some e, st := s }
        | none =>
          let s1 := match GetAssetSupply s amount0.Denom with
            | none => SetAssetSupply s { Denom := amount0.Denom, Amount := 0 } amount0.Denom
            | some _ => s
          match ValidateProposedIncrease p s1 amount0 with
          | some e => { err := some e, st := s1 }
          | none =>
            match SendCoinsFromAccountToModule s1 sender amount with
            | { err := some e, st := s2 } => { err := some e, st := s2 }
            | { err := none, st := s2 } =>
              let atomicSwap := NewAtomicSwap amount randomNumberHash
                (add64 height heightSpan) timestamp sender recipient senderOtherChain 0 .Open
              { err := none, st := SetAtomicSwap s2 atomicSwap (atomicSwap.GetSwapID d) }
      | _ => { err := some .Internal, st := s }

/-- `Keeper.ClaimAtomicSwap`. -/
def ClaimAtomicSwap (d : Deps) (p : Params) (height : Int) (s : State)
    (from_ : Bytes) (swapID : Bytes) (randomNumber : Bytes) : Ret :=
  match GetAtomicSwap s swapID with
  | none => { err := some .AtomicSwapNotFound, st := s }
  | some atomicSwap =>
    if atomicSwap.Status ≠ .Open then { err := some .SwapNotOpen, st := s }
    else if height > atomicSwap.ExpireHeight then { err := some .AtomicSwapHasExpired, st := s }
    else
      let hashedSubmittedNumber := CalculateRandomHash d randomNumber atomicSwap.Timestamp
      let hashedSecret :=
        CalculateSwapID d hashedSubmittedNumber atomicSwap.Sender atomicSwap.SenderOtherChain
      if hashedSecret ≠ atomicSwap.GetSwapID d then { err := some .InvalidClaimSecret, st := s }
      else
        match atomicSwap.Amount with
        | [] => { err := some .PanicIndexOutOfRange, st := s }
        | amount0 :: _ =>
          match IncrementAssetSupply p s amount0 with
          | { err := some e, st := s1 } => { err := some e, st := s1 }
          | { err := none, st := s1 } =>
            match SendCoinsFromModuleToAccount s1 atomicSwap.Recipient atomicSwap.Amount with
            | { err := some e, st := s2 } => { err := some e, st := s2 }
            | { err := none, st := s2 } =>
              let atomicSwap := { atomicSwap with Status := .Completed, ClosedBlock := height }
              { err := none, st := SetAtomicSwap s2 atomicSwap (atomicSwap.GetSwapID d) }

/-- `Keeper.RefundAtomicSwap`. -/
def RefundAtomicSwap (d : Deps) (height : Int) (s : State)
    (from_ : Bytes) (swapID : Bytes) : Ret :=
  match GetAtomicSwap s swapID with
  | none => { err := some .AtomicSwapNotFound, st := s }
  | some atomicSwap =>
    if atomicSwap.Status ≠ .Open then { err := some .SwapNotOpen, st := s }
    else if height ≤ atomicSwap.ExpireHeight then { err := some .SwapNotRefundable, st := s }
    else
      match SendCoinsFromModuleToAccount s atomicSwap.Sender atomicSwap.Amount with
      | { err := some e, st := s1 } => { err := some e, st := s1 }
      | { err := none, st := s1 } =>
        let atomicSwap := { atomicSwap with Status := .Expired, ClosedBlock := height }
        { err := none, st := SetAtomicSwap s1 atomicSwap (atomicSwap.GetSwapID d) }

/-! ## Sequences of keeper calls -/

/-- One call of a keeper method of `keeper/swap.go`, with the block height it runs at. -/
inductive Call where
  | create (height : Int) (randomNumberHash : Bytes) (timestamp heightSpan : Int)
      (sender recipient : Bytes) (senderOtherChain recipientOtherChain : String)
      (amount : List Coin) (expectedIncome : String)
  | claim (height : Int) (from_ swapID randomNumber : Bytes)
  | refund (height : Int) (from_ swapID : Bytes)

/-- Running one call on a state. -/
def Call.run (d : Deps) (p : Params) (s : State) : Call → Ret
  | .create height randomNumberHash timestamp heightSpan sender recipient senderOtherChain
      recipientOtherChain amount expectedIncome =>
    CreateAtomicSwap d p height s randomNumberHash timestamp heightSpan sender recipient
      senderOtherChain recipientOtherChain amount expectedIncome
  | .claim height from_ swapID randomNumber => ClaimAtomicSwap d p height s from_ swapID randomNumber
  | .refund height from_ swapID => RefundAtomicSwap d height s from_ swapID

/-- The state after a sequence of calls, each run on the state the one before left. -/
def runCalls (d : Deps) (p : Params) : State → List Call → State
  | s, [] => s
  | s, c :: rest => runCalls d p (c.run d p s).st rest

/-- The states the keeper reaches from an empty state (no swaps, no supply entries, any
balances) under the parameters `p`. -/
def Reachable (d : Deps) (p : Params) (s : State) : Prop :=
  ∃ (bank : Bank) (calls : List Call), s = runCalls d p (State.initial bank) calls

/-- Whether a call is a claim or a refund of the swap `swapID`. -/
def Call.closes (swapID : Bytes) : Call → Bool
  | .create .. => false
  | .claim _ _ id _ => decide (id = swapID)
  | .refund _ _ id => decide (id = swapID)

/-- How many claims and refunds of the swap `swapID` return `nil` in a sequence of calls
run from the state `s`. -/
def closings (d : Deps) (p : Params) (swapID : Bytes) : State → List Call → Nat
  | _, [] => 0
  | s, c :: rest =>
    (if c.closes swapID ∧ (c.run d p s).err = none then 1 else 0)
      + closings d p swapID (c.run d p s).st rest

/-- Every record of the registry is stored under its own swap ID. -/
def KeysMatch (d : Deps) (s : State) : Prop :=
  ∀ (k : Bytes) (r : AtomicSwap), GetAtomicSwap s k = some r → r.GetSwapID d = k

/-- The invariant behind the supply limit: every stored supply is non-negative and at most
the limit of its denom's asset, and every amount of a stored record is non-negative. -/
def SupplyInv (p : Params) (s : State) : Prop :=
  (∀ (dn : String) (c : Coin), GetAssetSupply s dn = some c →
    0 ≤ c.Amount ∧ ∃ a, GetAssetByDenom p dn = some a ∧ c.Amount ≤ a.Limit) ∧
  (∀ (k : Bytes) (r : AtomicSwap), GetAtomicSwap s k = some r → ∀ c ∈ r.Amount, 0 ≤ c.Amount)

/-! ## Example data

The values of the tests: the secret `[15]` with the timestamp `6655443322`
(`keeper/common_test.go`), 50000 `bnb` (`coinsSingle`), the asset table of
`integration_test.go`. -/

/-- Example dependencies: a stand-in for the hash that returns its input, the lowering of
ASCII letters, and a slot of 32 bytes for the secret. -/
def exDeps : Deps :=
  { tmhashSum := fun data => data, ToLower := fun s => String.mk (s.data.map Char.toLower),
    RandomNumberLength := 32 }

/-- Example parameters: the default block locks and the assets of `integration_test.go`. -/
def exParams : Params :=
  { BnbDeputyAddress := [9], MinBlockLock := 20, MaxBlockLock := 200,
    SupportedAssets :=
      [{ Denom := "bnb", CoinID := "714", Limit := 100000000000, Active := true },
       { Denom := "inc", CoinID := "9999", Limit := 100, Active := false }] }

/-- Example parameters that `Validate` refuses: the second asset repeats the coin ID of the
first. -/
def exParamsDuplicate : Params :=
  { BnbDeputyAddress := [9], MinBlockLock := 20, MaxBlockLock := 200,
    SupportedAssets :=
      [{ Denom := "bnb", CoinID := "714", Limit := 100000000000, Active := true },
       { Denom := "inc", CoinID := "714", Limit := 100, Active := false }] }

/-- Example swap: 50000 bnb from the account `[1]` to the account `[2]`, locked under the
secret `[15]` and the timestamp `6655443322`, with an empty `senderOtherChain`. -/
def exSwap : AtomicSwap :=
  { Amount := [{ Denom := "bnb", Amount := 50000 }],
    RandomNumberHash := CalculateRandomHash exDeps [15] 6655443322,
    ExpireHeight := 120, Timestamp := 6655443322, Sender := [1], Recipient := [2],
    SenderOtherChain := "", ClosedBlock := 0, Status := .Open }

/-- Example balances: the module account holds 50000 bnb, the account `[1]` 70000 bnb. -/
def exBank : Bank := fun w dn =>
  if w = .module ∧ dn = "bnb" then 50000
  else if w = .account [1] ∧ dn = "bnb" then 70000 else 0

/-- Example state: the example swap in the registry, a bnb supply of 0, the escrow funded. -/
def exState : State :=
  { swaps := [(exSwap.GetSwapID exDeps, exSwap)],
    supplies := [("bnb", { Denom := "bnb", Amount := 0 })],
    bank := exBank }

/-- Example swap after its claim at height 110. -/
def exSwapCompleted : AtomicSwap := { exSwap with Status := .Completed, ClosedBlock := 110 }

/-- Example state in which the example swap is completed. -/
def exStateCompleted : State :=
  { swaps := [(exSwap.GetSwapID exDeps, exSwapCompleted)],
    supplies := [("bnb", { Denom := "bnb", Amount := 50000 })],
    bank := fun w dn => if w = .account [2] ∧ dn = "bnb" then 50000 else 0 }

/-- Example state in which the escrow does not cover the example swap: the module account
holds nothing. -/
def exStateUnfunded : State :=
  { swaps := [(exSwap.GetSwapID exDeps, exSwap)],
    supplies := [("bnb", { Denom := "bnb", Amount := 0 })],
    bank := fun _ _ => 0 }

/-- Example balances before any swap: the account `[1]` holds 70000 bnb. -/
def exBank0 : Bank := fun w dn => if w = .account [1] ∧ dn = "bnb" then 70000 else 0

/-- Example run: at height 100 the account `[1]` locks 50000 bnb for the account `[2]` under
the secret `[15]` and the timestamp 1000, for 20 blocks; the swap is claimed at height 110,
then a second claim and a refund are tried. -/
def exCalls : List Call :=
  [.create 100 (CalculateRandomHash exDeps [15] 1000) 1000 20 [1] [2] "" ""
      [{ Denom := "bnb", Amount := 50000 }] "bnb50000",
   .claim 110 [2] (CalculateSwapID exDeps (CalculateRandomHash exDeps [15] 1000) [1] "") [15],
   .claim 111 [2] (CalculateSwapID exDeps (CalculateRandomHash exDeps [15] 1000) [1] "") [15],
   .refund 130 [1] (CalculateSwapID exDeps (CalculateRandomHash exDeps [15] 1000) [1] "")]

/-! ## Measures and invariants of the registry -/

/-- The total amount of the denom `dn` in a coin list. -/
def amountOf (dn : String) : List Coin → Int
  | [] => 0
  | c :: rest => (if c.Denom = dn then c.Amount else 0) + amountOf dn rest

/-- What the status of a record says about its `ClosedBlock`: 0 while `Open`, at most
`ExpireHeight` once `Completed`, beyond `ExpireHeight` once `Expired`. -/
def StatusInv (s : State) : Prop :=
  ∀ (k : Bytes) (r : AtomicSwap), GetAtomicSwap s k = some r →
    (r.Status = .Open → r.ClosedBlock = 0) ∧
    (r.Status = .Completed → r.ClosedBlock ≤ r.ExpireHeight) ∧
    (r.Status = .Expired → r.ClosedBlock > r.ExpireHeight)

/-! ## The incremental lane: `keeper/htlt.go`

The lane keeps its own records (`HTLT`) and shares the bank with the swaps.  `sdk.Coins.Add`
is embedded as `CoinsAdd`; `sdk.ParseCoins`, `sdk.Coins.String` and the hex decoding of the
swap ID are taken as parameters (`HtltDeps`). -/

/-- The helper `removeZeroCoins` of `sdk.Coins`: the coins with a non-zero amount. -/
def removeZeroCoins (coins : List Coin) : List Coin :=
  coins.filter (fun c => decide (c.Amount ≠ 0))

/-- The merge loop of `sdk.Coins.Add` while the first list starts with `coinA`:
`addRestA` continues with the rest of the first list.  Denoms are compared as byte
strings; a coin whose amount is zero is left out. -/
def coinsAddInto (coinA : Coin) (restA : List Coin) (addRestA : List Coin → List Coin) :
    List Coin → List Coin
  | [] => removeZeroCoins (coinA :: restA)
  | coinB :: restB =>
    if strBytes coinA.Denom < strBytes coinB.Denom then
      (if coinA.Amount = 0 then [] else [coinA]) ++ addRestA (coinB :: restB)
    else if coinA.Denom = coinB.Denom then
      (if coinA.Amount + coinB.Amount = 0 then []
        else [{ Denom := coinA.Denom, Amount := coinA.Amount + coinB.Amount }])
        ++ addRestA restB
    else
      (if coinB.Amount = 0 then [] else [coinB]) ++ coinsAddInto coinA restA addRestA restB

/-- `sdk.Coins.Add` of the cosmos-sdk: the merge of two coin lists sorted by denom, the
amounts of a common denom added up, coins with a zero amount left out. -/
def CoinsAdd : List Coin → List Coin → List Coin
  | [], coinsB => removeZeroCoins coinsB
  | coinA :: restA, coinsB => coinsAddInto coinA restA (CoinsAdd restA) coinsB

/-- Modelled from the spec: the struct `HTLT` of package `types` is not among the sources;
its fields are the arguments `NewHTLT` is given in `AddHTLT`. -/
structure HTLT where
  From : Bytes
  To : Bytes
  RecipientOtherChain : String
  SenderOtherChain : String
  RandomNumberHash : String
  Timestamp : Int
  Amount : List Coin
  ExpectedIncome : String
  HeightSpan : Int
  CrossChain : Bool
deriving DecidableEq, Repr

/-- The state `DepositHTLT` works on: the records of the lane and the bank. -/
structure HtltState where
  htlts : List (Bytes × HTLT)
  bank : Bank

/-- The `sdk.Error`s of `keeper/htlt.go`, and the Go run-time panic of an index out of
range. -/
inductive HtltErr where
  | Internal
  | HTLTNotFound
  | InvalidCoinDenom
  | AmountTooSmall
  | PanicIndexOutOfRange
deriving DecidableEq, Repr

/-- What a method of the lane leaves: the error it returns (`none` for `nil`) and the
state. -/
structure HtltRet where
  err : Option HtltErr
  st : HtltState

/-- What `DepositHTLT` takes from outside `keeper/htlt.go`: `HexEncodedStringToBytes` of
package `types`, which is not among the sources, and `sdk.ParseCoins` and
`sdk.Coins.String` of the cosmos-sdk; `none` is a returned error. -/
structure HtltDeps where
  HexEncodedStringToBytes : String → Option Bytes
  ParseCoins : String → Option (List Coin)
  CoinsString : List Coin → String

/-- Modelled from the spec: `Keeper.GetHTLT` is not among the sources; the records are kept
by swap ID. -/
def GetHTLT (s : HtltState) (swapID : Bytes) : Option HTLT := kvGet s.htlts swapID

/-- Modelled from the spec: `Keeper.SetHTLT` is not among the sources; it writes the record
under the given key. -/
def SetHTLT (s : HtltState) (htlt : HTLT) (swapID : Bytes) : HtltState :=
  { s with htlts := kvSet s.htlts swapID htlt }

/-- `Keeper.ValidateAsset`. -/
def ValidateAsset (assets : List Coin) : Option HtltErr :=
  if assets.length ≠ 1 then some .Internal else none

/-- `Keeper.DepositHTLT`.  The transfer `supplyKeeper.SendCoinsFromAccountToModule` is
`sendCoins` from the depositor to the module account.  The event is not embedded, and with
it the panic of its `coin.Amount.Int64()` on an amount of `2^63` or more. -/
def DepositHTLT (hd : HtltDeps) (s : HtltState) (from_ : Bytes) (swapID : String)
    (coins : List Coin) : HtltRet :=
  match hd.HexEncodedStringToBytes swapID with
  | none => { err := some .Internal, st := s }
  | some decodedSwapID =>
    match GetHTLT s decodedSwapID with
    | none => { err := some .HTLTNotFound, st := s }
    | some htlt =>
      match htlt.Amount with
      | [] => { err := some .PanicIndexOutOfRange, st := s }
      | htltCoin :: _ =>
        match coins with
        | [] => { err := some .PanicIndexOutOfRange, st := s }
        | coin :: _ =>
          if htltCoin.Denom ≠ coin.Denom then { err := some .InvalidCoinDenom, st := s }
          else if coin.Amount = 0 then { err := some .AmountTooSmall, st := s }
          else
            match sendCoins s.bank (.account from_) .module coins with
            | none => { err := some .Internal, st := s }
            | some bank =>
              let htlt := { htlt with Amount := CoinsAdd htlt.Amount coins }
              let currExpectedIncome := (hd.ParseCoins htlt.ExpectedIncome).getD []
              let htlt :=
                { htlt with ExpectedIncome := hd.CoinsString (CoinsAdd currExpectedIncome coins) }
              { err := none, st := SetHTLT { s with bank := bank } htlt decodedSwapID }

/-! ## Example data of the incremental lane -/

/-- Example of a hex digit, as `hex.DecodeString` reads it. -/
def exHexDigit (c : Char) : Option Nat :=
  if '0' ≤ c ∧ c ≤ '9' then some (c.toNat - 48)
  else if 'a' ≤ c ∧ c ≤ 'f' then some (c.toNat - 87)
  else if 'A' ≤ c ∧ c ≤ 'F' then some (c.toNat - 55)
  else none

/-- Example hex decoding: two digits a byte; an odd length or another character is an
error. -/
def exHexDecode : List Char → Option Bytes
  | [] => some []
  | [_] => none
  | a :: b :: rest =>
    match exHexDigit a, exHexDigit b, exHexDecode rest with
    | some x, some y, some r => some ((16 * x + y) :: r)
    | _, _, _ => none

/-- Example of `sdk.ParseCoin`: the digits of the amount, then the denom, a lower-case
letter followed by 2 to 15 lower-case letters or digits. -/
def exParseCoin (cs : List Char) : Option Coin :=
  let digits := cs.takeWhile Char.isDigit
  let denom := (cs.dropWhile Char.isDigit).dropWhile Char.isWhitespace
  if digits = [] then none
  else
    match denom with
    | [] => none
    | c :: tail =>
      if c.isLower ∧ tail.all (fun x => x.isLower || x.isDigit) ∧ 2 ≤ tail.length
          ∧ tail.length ≤ 15 then
        some { Denom := String.mk denom,
               Amount := Int.ofNat (digits.foldl (fun n ch => 10 * n + (ch.toNat - 48)) 0) }
      else none

/-- Example of splitting a string at its commas. -/
def exSplitComma : List Char → List (List Char)
  | [] => [[]]
  | c :: rest =>
    if c = ',' then [] :: exSplitComma rest
    else
      match exSplitComma rest with
      | [] => [[c]]
      | h :: t => (c :: h) :: t

/-- Example of parsing each coin of a list; one coin that does not parse is an error. -/
def exParseAll : List (List Char) → Option (List Coin)
  | [] => some []
  | cs :: rest =>
    match exParseCoin cs, exParseAll rest with
    | some c, some r => some (c :: r)
    | _, _ => none

/-- Example of `sdk.ParseCoins`: the empty string is no coins, otherwise a comma-separated
list of coins in the format `<amount><denom>`, as in `50000bnb`. -/
def exParseCoins (s : String) : Option (List Coin) :=
  if s.data = [] then some [] else exParseAll (exSplitComma s.data)

/-- Example of `sdk.Coins.String`: the coins as `<amount><denom>`, separated by commas. -/
def exCoinsString : List Coin → String
  | [] => ""
  | [c] => toString c.Amount ++ c.Denom
  | c :: rest => toString c.Amount ++ c.Denom ++ "," ++ exCoinsString rest

/-- Example dependencies of the lane. -/
def exHtltDeps : HtltDeps :=
  { HexEncodedStringToBytes := fun s => exHexDecode s.data,
    ParseCoins := exParseCoins, CoinsString := exCoinsString }

/-- Example record of the lane, with the values of `TestMsgCreateHTLT`: 50000 bnb and the
expected income `bnb50000`. -/
def exHTLT : HTLT :=
  { From := [1], To := [2], RecipientOtherChain := "", SenderOtherChain := "",
    RandomNumberHash := "0f", Timestamp := 9988776655,
    Amount := [{ Denom := "bnb", Amount := 50000 }], ExpectedIncome := "bnb50000",
    HeightSpan := 80000, CrossChain := false }

/-- Example state of the lane: the example record under the swap ID `[171, 205]`, its 50000
bnb in the module account, and a depositor `[1]` holding 70000 bnb and 10 xyz. -/
def exHtltState : HtltState :=
  { htlts := [([171, 205], exHTLT)],
    bank := fun w dn =>
      if w = .module ∧ dn = "bnb" then 50000
      else if w = .account [1] ∧ dn = "bnb" then 70000
      else if w = .account [1] ∧ dn = "xyz" then 10 else 0 }

/-! ## The escrow -/

/-- What a record locks of the denom `dn`: its amount while it is `Open`, nothing once it
is closed. -/
def lockedIn (dn : String) (r : AtomicSwap) : Int :=
  if r.Status = .Open then amountOf dn r.Amount else 0

/-- The sum of the amounts of the denom `dn` over the records of the registry whose status
is `Open`. -/
def openAmount (dn : String) : List (Bytes × AtomicSwap) → Int
  | [] => 0
  | (_, r) :: rest => lockedIn dn r + openAmount dn rest

/-- The invariant of fund safety: the registry has no key twice, every record is stored
under its own swap ID and holds exactly one coin, of a non-negative amount, and for every
denom the balance of the module account is the sum of the amounts of the `Open` records. -/
def FundInv (d : Deps) (s : State) : Prop :=
  (s.swaps.map Prod.fst).Nodup ∧
  KeysMatch d s ∧
  (∀ e ∈ s.swaps, ∃ c : Coin, e.2.Amount = [c] ∧ 0 ≤ c.Amount) ∧
  (∀ dn : String, s.bank .module dn = openAmount dn s.swaps)

/-! ## The key-value store -/

theorem kvGet_kvSet {κ ν : Type} [DecidableEq κ] (l : List (κ × ν)) (k k1 : κ) (v : ν) :
    kvGet (kvSet l k v) k1 = if k = k1 then some v else kvGet l k1 := by
  induction l with
  | nil => simp [kvSet, kvGet]
  | cons x rest ih =>
    obtain ⟨k0, v0⟩ := x
    by_cases h0 : k0 = k
    · subst h0
      by_cases h1 : k0 = k1 <;> simp [kvSet, kvGet, h1]
    · by_cases h1 : k0 = k1
      · subst h1
        have h2 : ¬ k = k0 := fun h => h0 h.symm
        simp [kvSet, kvGet, h0, h2]
      · simp [kvSet, kvGet, h0, h1, ih]

theorem kvGet_kvSet_self {κ ν : Type} [DecidableEq κ] (l : List (κ × ν)) (k : κ) (v : ν) :
    kvGet (kvSet l k v) k = some v := by
  simp [kvGet_kvSet]

theorem kvGet_kvSet_ne {κ ν : Type} [DecidableEq κ] (l : List (κ × ν)) (k k1 : κ) (v : ν)
    (h : k ≠ k1) : kvGet (kvSet l k v) k1 = kvGet l k1 := by
  simp [kvGet_kvSet, h]

/-! ## Parameter validation -/

theorem len_eq_zero_iff (s : String) : len s = 0 ↔ s = "" := by
  unfold len
  rcases s with ⟨cs⟩
  cases cs with
  | nil => simp [String.utf8ByteSize, String.utf8ByteSize.go]
  | cons c cs =>
    have hc := Char.utf8Size_pos c
    constructor
    · intro h
      simp only [String.utf8ByteSize, String.utf8ByteSize.go] at h
      omega
    · intro h
      have h2 := congrArg String.data h
      simp at h2

theorem validateAssets_eq_none_iff (assets : List AssetParam) (coinIDs : String → Bool) :
    validateAssets assets coinIDs = none ↔
      ∀ pre a post, assets = pre ++ a :: post →
        a.Denom ≠ "" ∧ a.CoinID ≠ "" ∧ coinIDs a.CoinID = false ∧
          (∀ b ∈ pre, b.CoinID ≠ a.CoinID) ∧ 0 < a.Limit := by
  induction assets generalizing coinIDs with
  | nil => simp [validateAssets]
  | cons x rest ih =>
    simp only [validateAssets]
    constructor
    · intro h pre a post hsplit
      split_ifs at h with h1 h2 h3 h4
      rw [ih] at h
      rw [len_eq_zero_iff] at h1 h2
      cases pre with
      | nil =>
        simp only [List.nil_append, List.cons.injEq] at hsplit
        obtain ⟨rfl, rfl⟩ := hsplit
        refine ⟨h1, h2, by simpa using h3, by simp, by omega⟩
      | cons y pre =>
        simp only [List.cons_append, List.cons.injEq] at hsplit
        obtain ⟨rfl, rfl⟩ := hsplit
        obtain ⟨a1, a2, a3, a4, a5⟩ := h pre a post rfl
        have hne : a.CoinID ≠ x.CoinID := by
          intro he
          simp [he] at a3
        refine ⟨a1, a2, ?_, ?_, a5⟩
        · simpa [hne] using a3
        · intro b hb
          rcases List.mem_cons.mp hb with rfl | hb
          · exact fun he => hne he.symm
          · exact a4 b hb
    · intro h
      obtain ⟨x1, x2, x3, -, x5⟩ := h [] x rest rfl
      have x1 : ¬ len x.Denom = 0 := fun h0 => x1 ((len_eq_zero_iff _).mp h0)
      have x2 : ¬ len x.CoinID = 0 := fun h0 => x2 ((len_eq_zero_iff _).mp h0)
      rw [if_neg x1, if_neg x2, if_neg (by simp [x3]), if_neg (by omega), ih]
      intro pre a post hsplit
      obtain ⟨a1, a2, a3, a4, a5⟩ := h (x :: pre) a post (by simp [hsplit])
      refine ⟨a1, a2, ?_, fun b hb => a4 b (List.mem_cons_of_mem _ hb), a5⟩
      have hne : a.CoinID ≠ x.CoinID := fun he => a4 x (List.mem_cons_self _ _) he.symm
      simpa [hne] using a3

theorem Params.validate_none_iff (p : Params) :
    p.Validate = none ↔
      ((10 ≤ p.MinBlockLock ∧ p.MinBlockLock < p.MaxBlockLock ∧ p.MaxBlockLock ≤ 10000) ∧
        ∀ pre a post, p.SupportedAssets = pre ++ a :: post →
          a.Denom ≠ "" ∧ a.CoinID ≠ "" ∧ (∀ b ∈ pre, b.CoinID ≠ a.CoinID) ∧ 0 < a.Limit) := by
  unfold Params.Validate AbsoluteMinimumBlockLock AbsoluteMaximumBlockLock
  constructor
  · intro h
    split_ifs at h with h1 h2 h3
    rw [validateAssets_eq_none_iff] at h
    refine ⟨⟨by omega, by omega, by omega⟩, fun pre a post hs => ?_⟩
    obtain ⟨a1, a2, -, a4, a5⟩ := h pre a post hs
    exact ⟨a1, a2, a4, a5⟩
  · rintro ⟨⟨h1, h2, h3⟩, h⟩
    rw [if_neg (by omega), if_neg (by omega), if_neg (by omega), validateAssets_eq_none_iff]
    intro pre a post hs
    obtain ⟨a1, a2, a4, a5⟩ := h pre a post hs
    exact ⟨a1, a2, rfl, a4, a5⟩

/-- C1. `Params.Validate` returns `nil` exactly when
`AbsoluteMinimumBlockLock (10) <= MinBlockLock < MaxBlockLock <= AbsoluteMaximumBlockLock
(10000)` and every entry of `SupportedAssets` has a non-empty `Denom`, a non-empty `CoinID`
that no earlier entry of the list has, and `Limit > 0`; for every other `Params` value it
returns an error. -/
theorem Params.validate_eq_nil_iff (p : Params) :
    (p.Validate = none ↔
      ((10 ≤ p.MinBlockLock ∧ p.MinBlockLock < p.MaxBlockLock ∧ p.MaxBlockLock ≤ 10000) ∧
        ∀ pre a post, p.SupportedAssets = pre ++ a :: post →
          a.Denom ≠ "" ∧ a.CoinID ≠ "" ∧ (∀ b ∈ pre, b.CoinID ≠ a.CoinID) ∧ 0 < a.Limit)) ∧
    (¬ ((10 ≤ p.MinBlockLock ∧ p.MinBlockLock < p.MaxBlockLock ∧ p.MaxBlockLock ≤ 10000) ∧
        ∀ pre a post, p.SupportedAssets = pre ++ a :: post →
          a.Denom ≠ "" ∧ a.CoinID ≠ "" ∧ (∀ b ∈ pre, b.CoinID ≠ a.CoinID) ∧ 0 < a.Limit) →
      ∃ e, p.Validate = some e) := by
  refine ⟨Params.validate_none_iff p, fun hn => ?_⟩
  cases hv : p.Validate with
  | none => exact absurd ((Params.validate_none_iff p).mp hv) hn
  | some e => exact ⟨e, rfl⟩

theorem Params.validate_eq_nil_iff_witness :
    ¬ ((10 ≤ exParamsDuplicate.MinBlockLock ∧
          exParamsDuplicate.MinBlockLock < exParamsDuplicate.MaxBlockLock ∧
          exParamsDuplicate.MaxBlockLock ≤ 10000) ∧
        ∀ pre a post, exParamsDuplicate.SupportedAssets = pre ++ a :: post →
          a.Denom ≠ "" ∧ a.CoinID ≠ "" ∧ (∀ b ∈ pre, b.CoinID ≠ a.CoinID) ∧ 0 < a.Limit) ∧
    (∃ e, exParamsDuplicate.Validate = some e) ∧
    exParamsDuplicate.Validate = some .duplicateCoinID ∧
    exParams.Validate = none :=
  ⟨fun h => (h.2 [{ Denom := "bnb", CoinID := "714", Limit := 100000000000, Active := true }]
      { Denom := "inc", CoinID := "714", Limit := 100, Active := false } [] rfl).2.2.1
      { Denom := "bnb", CoinID := "714", Limit := 100000000000, Active := true }
      (List.mem_singleton.mpr rfl) rfl,
    (Params.validate_eq_nil_iff exParamsDuplicate).2
      (fun h =>
        (h.2 [{ Denom := "bnb", CoinID := "714", Limit := 100000000000, Active := true }]
          { Denom := "inc", CoinID := "714", Limit := 100, Active := false } [] rfl).2.2.1
          { Denom := "bnb", CoinID := "714", Limit := 100000000000, Active := true }
          (List.mem_singleton.mpr rfl) rfl),
    by decide, by decide⟩

/-! ## Claim -/

/-- C2. For a stored record that is `Open` with `currentHeight <= ExpireHeight`, when the
supply increase is within the limit and the escrow transfer succeeds, `ClaimAtomicSwap` with
the secret `randomNumber` returns `nil` if and only if
`CalculateSwapID(CalculateRandomHash(randomNumber, record.Timestamp), record.Sender,
record.SenderOtherChain)` equals the record's swap ID; with any other secret it returns the
invalid-secret error, the state is the one before, and the record is still stored as it
was, `Open`. -/
theorem claim_succeeds_iff_secret_matches (d : Deps) (p : Params) (height : Int) (s : State)
    (from_ swapID randomNumber : Bytes) (record : AtomicSwap) (amount0 : Coin)
    (rest : List Coin)
    (hfound : GetAtomicSwap s swapID = some record)
    (hopen : record.Status = .Open)
    (hheight : height ≤ record.ExpireHeight)
    (hamount : record.Amount = amount0 :: rest)
    (hsupply : (IncrementAssetSupply p s amount0).err = none)
    (htransfer : (SendCoinsFromModuleToAccount (IncrementAssetSupply p s amount0).st
      record.Recipient record.Amount).err = none) :
    ((ClaimAtomicSwap d p height s from_ swapID randomNumber).err = none ↔
      CalculateSwapID d (CalculateRandomHash d randomNumber record.Timestamp) record.Sender
        record.SenderOtherChain = record.GetSwapID d) ∧
    (CalculateSwapID d (CalculateRandomHash d randomNumber record.Timestamp) record.Sender
        record.SenderOtherChain ≠ record.GetSwapID d →
      (ClaimAtomicSwap d p height s from_ swapID randomNumber).err = some .InvalidClaimSecret ∧
      (ClaimAtomicSwap d p height s from_ swapID randomNumber).st = s ∧
      GetAtomicSwap (ClaimAtomicSwap d p height s from_ swapID randomNumber).st swapID
        = some record ∧
      record.Status = .Open) := by
  have hnot : ¬ height > record.ExpireHeight := by omega
  by_cases hsec : CalculateSwapID d (CalculateRandomHash d randomNumber record.Timestamp)
      record.Sender record.SenderOtherChain = record.GetSwapID d
  · refine ⟨⟨fun _ => hsec, fun _ => ?_⟩, fun hne => absurd hsec hne⟩
    unfold ClaimAtomicSwap
    simp only [hfound, hopen, hnot, hsec, hamount, ne_eq, not_true_eq_false, if_false]
    rw [hamount] at htransfer
    rcases hinc : IncrementAssetSupply p s amount0 with ⟨e1, s1⟩
    rw [hinc] at hsupply htransfer
    simp only at hsupply htransfer
    subst hsupply
    rcases hsend : SendCoinsFromModuleToAccount s1 record.Recipient (amount0 :: rest)
      with ⟨e2, s2⟩
    rw [hsend] at htransfer
    simp only at htransfer
    subst htransfer
    simp only [hsend]
  · have herr : ClaimAtomicSwap d p height s from_ swapID randomNumber
        = { err := some .InvalidClaimSecret, st := s } := by
      unfold ClaimAtomicSwap
      simp only [hfound, hopen, hnot, hsec, ne_eq, not_true_eq_false, not_false_eq_true,
        if_false, if_true]
    rw [herr]
    refine ⟨⟨fun h => by simp at h, fun h => absurd h hsec⟩, fun _ => ⟨rfl, rfl, hfound, hopen⟩⟩

theorem claim_succeeds_iff_secret_matches_witness :
    (GetAtomicSwap exState (exSwap.GetSwapID exDeps) = some exSwap ∧
      exSwap.Status = .Open ∧ (100 : Int) ≤ exSwap.ExpireHeight ∧
      exSwap.Amount = { Denom := "bnb", Amount := 50000 } :: []) ∧
    (((ClaimAtomicSwap exDeps exParams 100 exState [3] (exSwap.GetSwapID exDeps) [15]).err = none ↔
      CalculateSwapID exDeps (CalculateRandomHash exDeps [15] exSwap.Timestamp) exSwap.Sender
        exSwap.SenderOtherChain = exSwap.GetSwapID exDeps) ∧
    (CalculateSwapID exDeps (CalculateRandomHash exDeps [15] exSwap.Timestamp) exSwap.Sender
        exSwap.SenderOtherChain ≠ exSwap.GetSwapID exDeps →
      (ClaimAtomicSwap exDeps exParams 100 exState [3] (exSwap.GetSwapID exDeps) [15]).err
        = some .InvalidClaimSecret ∧
      (ClaimAtomicSwap exDeps exParams 100 exState [3] (exSwap.GetSwapID exDeps) [15]).st
        = exState ∧
      GetAtomicSwap
        (ClaimAtomicSwap exDeps exParams 100 exState [3] (exSwap.GetSwapID exDeps) [15]).st
        (exSwap.GetSwapID exDeps) = some exSwap ∧
      exSwap.Status = .Open)) :=
  ⟨⟨by decide, by decide, by decide, by decide⟩,
    claim_succeeds_iff_secret_matches exDeps exParams 100 exState [3] (exSwap.GetSwapID exDeps)
      [15] exSwap { Denom := "bnb", Amount := 50000 } [] (by decide) (by decide) (by decide)
      (by decide) (by decide) (by decide)⟩

/-! ## Expiry -/

/-- C3. For every state and every existing swap record: `ClaimAtomicSwap` returns an error
whenever `currentHeight > record.ExpireHeight` (the has-expired error for an `Open` record,
the not-open error otherwise), and `RefundAtomicSwap` returns an error whenever
`currentHeight <= record.ExpireHeight` (the not-refundable error for an `Open` record, the
not-open error otherwise); in both cases the state is the one before, so the record and its
status are left as they were. -/
theorem claim_after_expiry_refund_before_expiry_fail (d : Deps) (p : Params) (height : Int)
    (s : State) (from_ swapID randomNumber : Bytes) (record : AtomicSwap)
    (hfound : GetAtomicSwap s swapID = some record) :
    (height > record.ExpireHeight →
      (ClaimAtomicSwap d p height s from_ swapID randomNumber).err
        = some (if record.Status = .Open then .AtomicSwapHasExpired else .SwapNotOpen) ∧
      (ClaimAtomicSwap d p height s from_ swapID randomNumber).st = s ∧
      GetAtomicSwap (ClaimAtomicSwap d p height s from_ swapID randomNumber).st swapID
        = some record) ∧
    (height ≤ record.ExpireHeight →
      (RefundAtomicSwap d height s from_ swapID).err
        = some (if record.Status = .Open then .SwapNotRefundable else .SwapNotOpen) ∧
      (RefundAtomicSwap d height s from_ swapID).st = s ∧
      GetAtomicSwap (RefundAtomicSwap d height s from_ swapID).st swapID = some record) := by
  constructor
  · intro hh
    have hr : ClaimAtomicSwap d p height s from_ swapID randomNumber
        = { err := some (if record.Status = .Open then .AtomicSwapHasExpired else .SwapNotOpen),
            st := s } := by
      unfold ClaimAtomicSwap
      simp only [hfound]
      by_cases ho : record.Status = .Open
      · simp [ho, hh]
      · simp [ho]
    rw [hr]
    exact ⟨rfl, rfl, hfound⟩
  · intro hh
    have hr : RefundAtomicSwap d height s from_ swapID
        = { err := some (if record.Status = .Open then .SwapNotRefundable else .SwapNotOpen),
            st := s } := by
      unfold RefundAtomicSwap
      simp only [hfound]
      by_cases ho : record.Status = .Open
      · simp [ho, hh]
      · simp [ho]
    rw [hr]
    exact ⟨rfl, rfl, hfound⟩

theorem claim_after_expiry_refund_before_expiry_fail_witness :
    GetAtomicSwap exState (exSwap.GetSwapID exDeps) = some exSwap ∧
    (((121 : Int) > exSwap.ExpireHeight →
      (ClaimAtomicSwap exDeps exParams 121 exState [3] (exSwap.GetSwapID exDeps) [15]).err
        = some (if exSwap.Status = .Open then .AtomicSwapHasExpired else .SwapNotOpen) ∧
      (ClaimAtomicSwap exDeps exParams 121 exState [3] (exSwap.GetSwapID exDeps) [15]).st
        = exState ∧
      GetAtomicSwap
        (ClaimAtomicSwap exDeps exParams 121 exState [3] (exSwap.GetSwapID exDeps) [15]).st
        (exSwap.GetSwapID exDeps) = some exSwap) ∧
    ((121 : Int) ≤ exSwap.ExpireHeight →
      (RefundAtomicSwap exDeps 121 exState [3] (exSwap.GetSwapID exDeps)).err
        = some (if exSwap.Status = .Open then .SwapNotRefundable else .SwapNotOpen) ∧
      (RefundAtomicSwap exDeps 121 exState [3] (exSwap.GetSwapID exDeps)).st = exState ∧
      GetAtomicSwap (RefundAtomicSwap exDeps 121 exState [3] (exSwap.GetSwapID exDeps)).st
        (exSwap.GetSwapID exDeps) = some exSwap)) :=
  ⟨by decide,
    claim_after_expiry_refund_before_expiry_fail exDeps exParams 121 exState [3]
      (exSwap.GetSwapID exDeps) [15] exSwap (by decide)⟩

/-! ## Create: the height span -/

/-- C6. For every state and every input, if `heightSpan < MinBlockLock` or
`heightSpan > MaxBlockLock` then `CreateAtomicSwap` returns an error (the already-exists
error if the swap ID is taken, the invalid-height-span error otherwise) and the state is the
one before: no swap record is inserted and no transfer is made, whatever the other
arguments are. -/
theorem create_rejects_heightSpan_outside_lock_window (d : Deps) (p : Params) (height : Int)
    (s : State) (randomNumberHash : Bytes) (timestamp heightSpan : Int)
    (sender recipient : Bytes) (senderOtherChain recipientOtherChain : String)
    (amount : List Coin) (expectedIncome : String)
    (hspan : heightSpan < p.MinBlockLock ∨ heightSpan > p.MaxBlockLock) :
    (CreateAtomicSwap d p height s randomNumberHash timestamp heightSpan sender recipient
        senderOtherChain recipientOtherChain amount expectedIncome).err
      = some (if (GetAtomicSwap s (CalculateSwapID d randomNumberHash sender
            senderOtherChain)).isSome
          then .AtomicSwapAlreadyExists else .InvalidHeightSpan) ∧
    (CreateAtomicSwap d p height s randomNumberHash timestamp heightSpan sender recipient
        senderOtherChain recipientOtherChain amount expectedIncome).st = s := by
  unfold CreateAtomicSwap
  cases hg : GetAtomicSwap s (CalculateSwapID d randomNumberHash sender senderOtherChain) with
  | some r => simp [hg]
  | none => simp [hg, hspan]

theorem create_rejects_heightSpan_outside_lock_window_witness :
    ((19 : Int) < exParams.MinBlockLock ∨ (19 : Int) > exParams.MaxBlockLock) ∧
    ((CreateAtomicSwap exDeps exParams 100 exState (CalculateRandomHash exDeps [72] 1000)
        1000 19 [1] [2] "" "" [{ Denom := "bnb", Amount := 50000 }] "bnb50000").err
      = some (if (GetAtomicSwap exState (CalculateSwapID exDeps
            (CalculateRandomHash exDeps [72] 1000) [1] "")).isSome
          then .AtomicSwapAlreadyExists else .InvalidHeightSpan) ∧
    (CreateAtomicSwap exDeps exParams 100 exState (CalculateRandomHash exDeps [72] 1000)
        1000 19 [1] [2] "" "" [{ Denom := "bnb", Amount := 50000 }] "bnb50000").st
      = exState) :=
  ⟨by decide,
    create_rejects_heightSpan_outside_lock_window exDeps exParams 100 exState
      (CalculateRandomHash exDeps [72] 1000) 1000 19 [1] [2] "" ""
      [{ Denom := "bnb", Amount := 50000 }] "bnb50000" (by decide)⟩

/-! ## The branches of the keeper methods -/

theorem IncrementAssetSupply_err (p : Params) (s : State) (coin : Coin) (e : Err)
    (h : (IncrementAssetSupply p s coin).err = some e) :
    (IncrementAssetSupply p s coin).st = s := by
  unfold IncrementAssetSupply at h ⊢
  split
  · rfl
  · split
    · rfl
    · rename_i h1 _ h2
      simp [h1, h2] at h

theorem IncrementAssetSupply_ok (p : Params) (s : State) (coin : Coin)
    (h : (IncrementAssetSupply p s coin).err = none) :
    ∃ cur asset, GetAssetSupply s coin.Denom = some cur ∧
      GetAssetByDenom p coin.Denom = some asset ∧
      cur.Amount + coin.Amount ≤ asset.Limit ∧
      (IncrementAssetSupply p s coin).st
        = SetAssetSupply s { Denom := cur.Denom, Amount := cur.Amount + coin.Amount }
            coin.Denom := by
  unfold IncrementAssetSupply at h ⊢
  cases h1 : GetAssetSupply s coin.Denom with
  | none => simp [h1] at h
  | some cur =>
    simp only [h1] at h ⊢
    cases h2 : ValidateProposedIncrease p s coin with
    | some e => simp [h2] at h
    | none =>
      simp only [h2]
      unfold ValidateProposedIncrease at h2
      simp only [h1] at h2
      cases h3 : GetAssetByDenom p coin.Denom with
      | none => simp [h3] at h2
      | some asset =>
        simp only [h3] at h2
        split_ifs at h2 with h4
        exact ⟨cur, asset, rfl, rfl, by omega, rfl⟩

theorem IncrementAssetSupply_bank (p : Params) (s : State) (coin : Coin) :
    (IncrementAssetSupply p s coin).st.bank = s.bank := by
  unfold IncrementAssetSupply
  split
  · rfl
  · split <;> rfl

theorem IncrementAssetSupply_swaps (p : Params) (s : State) (coin : Coin) :
    (IncrementAssetSupply p s coin).st.swaps = s.swaps := by
  unfold IncrementAssetSupply
  split
  · rfl
  · split <;> rfl

theorem ValidateProposedIncrease_ne_transfer (p : Params) (s : State) (coin : Coin) :
    ValidateProposedIncrease p s coin ≠ some .TransferFailed := by
  unfold ValidateProposedIncrease
  split
  · simp
  · split
    · simp
    · split_ifs <;> simp

theorem IncrementAssetSupply_ne_transfer (p : Params) (s : State) (coin : Coin) :
    (IncrementAssetSupply p s coin).err ≠ some .TransferFailed := by
  unfold IncrementAssetSupply
  split
  · simp
  · split
    · rename_i e he
      intro h
      simp only [Option.some.injEq] at h
      subst h
      exact ValidateProposedIncrease_ne_transfer p s coin he
    · simp

theorem ClaimAtomicSwap_cases (d : Deps) (p : Params) (height : Int) (s : State)
    (from_ swapID randomNumber : Bytes) :
    ((ClaimAtomicSwap d p height s from_ swapID randomNumber).err ≠ none ∧
      (ClaimAtomicSwap d p height s from_ swapID randomNumber).err ≠ some .TransferFailed ∧
      (ClaimAtomicSwap d p height s from_ swapID randomNumber).st = s) ∨
    ∃ record amount0 rest, GetAtomicSwap s swapID = some record ∧
      record.Status = .Open ∧ height ≤ record.ExpireHeight ∧
      CalculateSwapID d (CalculateRandomHash d randomNumber record.Timestamp) record.Sender
        record.SenderOtherChain = record.GetSwapID d ∧
      record.Amount = amount0 :: rest ∧
      (IncrementAssetSupply p s amount0).err = none ∧
      ((sendCoins s.bank .module (.account record.Recipient) record.Amount = none ∧
        (ClaimAtomicSwap d p height s from_ swapID randomNumber).err = some .TransferFailed ∧
        (ClaimAtomicSwap d p height s from_ swapID randomNumber).st
          = (IncrementAssetSupply p s amount0).st) ∨
       ∃ b, sendCoins s.bank .module (.account record.Recipient) record.Amount = some b ∧
        (ClaimAtomicSwap d p height s from_ swapID randomNumber).err = none ∧
        (ClaimAtomicSwap d p height s from_ swapID randomNumber).st
          = SetAtomicSwap { (IncrementAssetSupply p s amount0).st with bank := b }
              { record with Status := .Completed, ClosedBlock := height }
              (record.GetSwapID d)) := by
  cases hg : GetAtomicSwap s swapID with
  | none => left; unfold ClaimAtomicSwap; simp [hg]
  | some record =>
    by_cases ho : record.Status = .Open
    swap
    · left; unfold ClaimAtomicSwap; simp [hg, ho]
    by_cases hh : height > record.ExpireHeight
    · left; unfold ClaimAtomicSwap; simp [hg, ho, hh]
    by_cases hsec : CalculateSwapID d (CalculateRandomHash d randomNumber record.Timestamp)
        record.Sender record.SenderOtherChain = record.GetSwapID d
    swap
    · left; unfold ClaimAtomicSwap; simp [hg, ho, hh, hsec]
    cases hamt : record.Amount with
    | nil => left; unfold ClaimAtomicSwap; simp [hg, ho, hh, hsec, hamt]
    | cons amount0 rest =>
      rcases hinc : IncrementAssetSupply p s amount0 with ⟨e1, s1⟩
      have hb : s1.bank = s.bank := by
        have := IncrementAssetSupply_bank p s amount0
        rw [hinc] at this
        exact this
      cases e1 with
      | some e =>
        left
        have hst := IncrementAssetSupply_err p s amount0 e (by rw [hinc])
        have hne := IncrementAssetSupply_ne_transfer p s amount0
        rw [hinc] at hst hne
        simp only at hst
        subst hst
        unfold ClaimAtomicSwap
        simp only [hg, ho, hh, hsec, hamt, hinc]
        simpa using hne
      | none =>
        right
        refine ⟨record, amount0, rest, rfl, ho, by omega, hsec, hamt, by rw [hinc], ?_⟩
        rw [hinc]
        rw [hamt]
        cases hsend : sendCoins s.bank .module (.account record.Recipient) (amount0 :: rest) with
        | none =>
          left
          unfold ClaimAtomicSwap
          simp [hg, ho, hh, hsec, hamt, hinc, SendCoinsFromModuleToAccount, hb, hsend]
        | some b =>
          right
          refine ⟨b, rfl, ?_⟩
          unfold ClaimAtomicSwap
          simp [hg, ho, hh, hsec, hamt, hinc, SendCoinsFromModuleToAccount, hb, hsend]
          rfl

theorem RefundAtomicSwap_cases (d : Deps) (height : Int) (s : State) (from_ swapID : Bytes) :
    ((RefundAtomicSwap d height s from_ swapID).err ≠ none ∧
      (RefundAtomicSwap d height s from_ swapID).st = s) ∨
    ∃ record b, GetAtomicSwap s swapID = some record ∧
      record.Status = .Open ∧ height > record.ExpireHeight ∧
      sendCoins s.bank .module (.account record.Sender) record.Amount = some b ∧
      (RefundAtomicSwap d height s from_ swapID).err = none ∧
      (RefundAtomicSwap d height s from_ swapID).st
        = SetAtomicSwap { s with bank := b }
            { record with Status := .Expired, ClosedBlock := height } (record.GetSwapID d) := by
  cases hg : GetAtomicSwap s swapID with
  | none => left; unfold RefundAtomicSwap; simp [hg]
  | some record =>
    by_cases ho : record.Status = .Open
    swap
    · left; unfold RefundAtomicSwap; simp [hg, ho]
    by_cases hh : height ≤ record.ExpireHeight
    · left; unfold RefundAtomicSwap; simp [hg, ho, hh]
    cases hsend : sendCoins s.bank .module (.account record.Sender) record.Amount with
    | none =>
      left
      unfold RefundAtomicSwap
      simp [hg, ho, hh, SendCoinsFromModuleToAccount, hsend]
    | some b =>
      right
      refine ⟨record, b, rfl, ho, by omega, hsend, ?_⟩
      unfold RefundAtomicSwap
      simp [hg, ho, hh, SendCoinsFromModuleToAccount, hsend]
      rfl

theorem CreateAtomicSwap_cases (d : Deps) (p : Params) (height : Int) (s : State)
    (randomNumberHash : Bytes) (timestamp heightSpan : Int)
    (sender recipient : Bytes) (senderOtherChain recipientOtherChain : String)
    (amount : List Coin) (expectedIncome : String) :
    ((CreateAtomicSwap d p height s randomNumberHash timestamp heightSpan sender recipient
        senderOtherChain recipientOtherChain amount expectedIncome).err ≠ none ∧
      (CreateAtomicSwap d p height s randomNumberHash timestamp heightSpan sender recipient
        senderOtherChain recipientOtherChain amount expectedIncome).st = s) ∨
    ∃ amount0 s1, amount = [amount0] ∧
      GetAtomicSwap s (CalculateSwapID d randomNumberHash sender senderOtherChain) = none ∧
      (p.MinBlockLock ≤ heightSpan ∧ heightSpan ≤ p.MaxBlockLock) ∧
      (if height > 1800
        then decide (timestamp > sub64 height 1800 ∨ timestamp < add64 height 900)
        else decide (timestamp ≥ 1800)) = false ∧
      recipient ≠ [] ∧
      ValidateActiveAsset p amount0 = none ∧
      s1 = (match GetAssetSupply s amount0.Denom with
        | none => SetAssetSupply s { Denom := amount0.Denom, Amount := 0 } amount0.Denom
        | some _ => s) ∧
      ((∃ e, ValidateProposedIncrease p s1 amount0 = some e ∧
        (CreateAtomicSwap d p height s randomNumberHash timestamp heightSpan sender recipient
          senderOtherChain recipientOtherChain amount expectedIncome).err = some e ∧
        (CreateAtomicSwap d p height s randomNumberHash timestamp heightSpan sender recipient
          senderOtherChain recipientOtherChain amount expectedIncome).st = s1) ∨
       (ValidateProposedIncrease p s1 amount0 = none ∧
        sendCoins s.bank (.account sender) .module amount = none ∧
        (CreateAtomicSwap d p height s randomNumberHash timestamp heightSpan sender recipient
          senderOtherChain recipientOtherChain amount expectedIncome).err
            = some .TransferFailed ∧
        (CreateAtomicSwap d p height s randomNumberHash timestamp heightSpan sender recipient
          senderOtherChain recipientOtherChain amount expectedIncome).st = s1) ∨
       (ValidateProposedIncrease p s1 amount0 = none ∧
        ∃ b, sendCoins s.bank (.account sender) .module amount = some b ∧
        (CreateAtomicSwap d p height s randomNumberHash timestamp heightSpan sender recipient
          senderOtherChain recipientOtherChain amount expectedIncome).err = none ∧
        (CreateAtomicSwap d p height s randomNumberHash timestamp heightSpan sender recipient
          senderOtherChain recipientOtherChain amount expectedIncome).st
            = SetAtomicSwap { s1 with bank := b }
                (NewAtomicSwap amount randomNumberHash (add64 height heightSpan) timestamp
                  sender recipient senderOtherChain 0 .Open)
                (CalculateSwapID d randomNumberHash sender senderOtherChain))) := by
  cases hg : GetAtomicSwap s (CalculateSwapID d randomNumberHash sender senderOtherChain) with
  | some r => left; unfold CreateAtomicSwap; simp [hg]
  | none =>
    by_cases hspan : heightSpan < p.MinBlockLock ∨ heightSpan > p.MaxBlockLock
    · left; unfold CreateAtomicSwap; simp [hg, hspan]
    cases hts : (if height > 1800
        then decide (timestamp > sub64 height 1800 ∨ timestamp < add64 height 900)
        else decide (timestamp ≥ 1800)) with
    | true => left; unfold CreateAtomicSwap; simp only [hg, hspan, hts]; simp
    | false =>
      by_cases hrec : recipient = []
      · left; unfold CreateAtomicSwap; simp only [hg, hspan, hts, hrec]; simp
      have hnot1 : ∀ (P : Prop), (amount = [] → P) → (∀ a b c, amount = a :: b :: c → P) →
          (∀ a, amount = [a] → P) → P := by
        intro P h0 h2 h1
        match amount with
        | [] => exact h0 rfl
        | [a] => exact h1 a rfl
        | a :: b :: c => exact h2 a b c rfl
      apply hnot1
      · intro ha; subst ha; left; unfold CreateAtomicSwap; simp only [hg, hspan, hts, hrec]; simp
      · intro a b c ha; subst ha; left; unfold CreateAtomicSwap
        simp only [hg, hspan, hts, hrec]; simp
      intro amount0 ha
      subst ha
      cases hact : ValidateActiveAsset p amount0 with
      | some e => left; unfold CreateAtomicSwap; simp only [hg, hspan, hts, hrec, hact]; simp
      | none =>
        right
        have hs1b : (match GetAssetSupply s amount0.Denom with
            | none => SetAssetSupply s { Denom := amount0.Denom, Amount := 0 } amount0.Denom
            | some _ => s).bank = s.bank := by
          split <;> rfl
        refine ⟨amount0, _, rfl, rfl, by omega, rfl, hrec, hact, rfl, ?_⟩
        cases hv : ValidateProposedIncrease p (match GetAssetSupply s amount0.Denom with
            | none => SetAssetSupply s { Denom := amount0.Denom, Amount := 0 } amount0.Denom
            | some _ => s) amount0 with
        | some e =>
          left
          refine ⟨e, rfl, ?_⟩
          unfold CreateAtomicSwap
          simp only [hg, hspan, hts, hrec, hact, hv]
          simp
        | none =>
          right
          cases hsend : sendCoins s.bank (.account sender) .module [amount0] with
          | none =>
            left
            refine ⟨rfl, rfl, ?_⟩
            unfold CreateAtomicSwap
            simp only [hg, hspan, hts, hrec, hact, hv, SendCoinsFromAccountToModule, hs1b, hsend]
            simp
          | some b =>
            right
            refine ⟨rfl, b, rfl, ?_⟩
            unfold CreateAtomicSwap
            simp only [hg, hspan, hts, hrec, hact, hv, SendCoinsFromAccountToModule, hs1b, hsend]
            simp
            rfl

/-! ## Terminal states -/

theorem run_swaps (d : Deps) (p : Params) (s : State) (c : Call) :
    (c.run d p s).st.swaps = s.swaps ∨
    ∃ r, (c.run d p s).st.swaps = kvSet s.swaps (r.GetSwapID d) r ∧
      (r.Status ≠ .Open ∨ GetAtomicSwap s (r.GetSwapID d) = none) := by
  cases c with
  | create height randomNumberHash timestamp heightSpan sender recipient senderOtherChain
      recipientOtherChain amount expectedIncome =>
    simp only [Call.run]
    rcases CreateAtomicSwap_cases d p height s randomNumberHash timestamp heightSpan sender
      recipient senderOtherChain recipientOtherChain amount expectedIncome with
      ⟨-, hst⟩ | ⟨amount0, s1, -, hnone, -, -, -, -, hs1, hrest⟩
    · left; rw [hst]
    · have hsw : s1.swaps = s.swaps := by rw [hs1]; split <;> rfl
      rcases hrest with ⟨e, -, -, hst⟩ | ⟨-, -, -, hst⟩ | ⟨-, b, -, -, hst⟩
      · left; rw [hst, hsw]
      · left; rw [hst, hsw]
      · right
        refine ⟨NewAtomicSwap amount randomNumberHash (add64 height heightSpan) timestamp
          sender recipient senderOtherChain 0 .Open, ?_, Or.inr hnone⟩
        rw [hst]
        simp only [SetAtomicSwap, hsw]
        rfl
  | claim height from_ swapID randomNumber =>
    simp only [Call.run]
    rcases ClaimAtomicSwap_cases d p height s from_ swapID randomNumber with
      ⟨-, -, hst⟩ | ⟨record, amount0, rest, -, -, -, -, -, -, hrest⟩
    · left; rw [hst]
    · rcases hrest with ⟨-, -, hst⟩ | ⟨b, -, -, hst⟩
      · left; rw [hst, IncrementAssetSupply_swaps]
      · right
        refine ⟨{ record with Status := .Completed, ClosedBlock := height }, ?_,
          Or.inl (by simp)⟩
        rw [hst]
        simp only [SetAtomicSwap, IncrementAssetSupply_swaps]
        rfl
  | refund height from_ swapID =>
    simp only [Call.run]
    rcases RefundAtomicSwap_cases d height s from_ swapID with
      ⟨-, hst⟩ | ⟨record, b, -, -, -, -, -, hst⟩
    · left; rw [hst]
    · right
      refine ⟨{ record with Status := .Expired, ClosedBlock := height }, ?_, Or.inl (by simp)⟩
      rw [hst]
      simp only [SetAtomicSwap]
      rfl

theorem run_keysMatch (d : Deps) (p : Params) (s : State) (c : Call) (h : KeysMatch d s) :
    KeysMatch d (c.run d p s).st := by
  intro k r hk
  unfold GetAtomicSwap at hk
  rcases run_swaps d p s c with hsw | ⟨r1, hsw, -⟩
  · rw [hsw] at hk
    exact h k r hk
  · rw [hsw, kvGet_kvSet] at hk
    split_ifs at hk with hkey
    · simp only [Option.some.injEq] at hk
      subst hk
      exact hkey
    · exact h k r hk

theorem run_closed_stays_closed (d : Deps) (p : Params) (s : State) (c : Call)
    (swapID : Bytes) (r : AtomicSwap) (hget : GetAtomicSwap s swapID = some r)
    (hclosed : r.Status ≠ .Open) :
    ∃ r1, GetAtomicSwap (c.run d p s).st swapID = some r1 ∧ r1.Status ≠ .Open := by
  unfold GetAtomicSwap
  rcases run_swaps d p s c with hsw | ⟨r1, hsw, hr1⟩
  · rw [hsw]
    exact ⟨r, hget, hclosed⟩
  · rw [hsw, kvGet_kvSet]
    split_ifs with hkey
    · rcases hr1 with hr1 | hr1
      · exact ⟨r1, rfl, hr1⟩
      · rw [hkey, hget] at hr1
        cases hr1
    · exact ⟨r, hget, hclosed⟩

theorem run_closed_fails (d : Deps) (p : Params) (s : State) (c : Call)
    (swapID : Bytes) (r : AtomicSwap) (hget : GetAtomicSwap s swapID = some r)
    (hclosed : r.Status ≠ .Open) (hc : c.closes swapID = true) :
    (c.run d p s).err = some .SwapNotOpen ∧ (c.run d p s).st = s := by
  cases c with
  | create height randomNumberHash timestamp heightSpan sender recipient senderOtherChain
      recipientOtherChain amount expectedIncome => simp [Call.closes] at hc
  | claim height from_ id randomNumber =>
    simp only [Call.closes, decide_eq_true_eq] at hc
    subst hc
    simp [Call.run, ClaimAtomicSwap, hget, hclosed]
  | refund height from_ id =>
    simp only [Call.closes, decide_eq_true_eq] at hc
    subst hc
    simp [Call.run, RefundAtomicSwap, hget, hclosed]

theorem closings_closed (d : Deps) (p : Params) (swapID : Bytes) (calls : List Call) :
    ∀ (s : State) (r : AtomicSwap), GetAtomicSwap s swapID = some r → r.Status ≠ .Open →
      closings d p swapID s calls = 0 := by
  induction calls with
  | nil => intro s r _ _; rfl
  | cons c rest ih =>
    intro s r hget hclosed
    obtain ⟨r1, hget1, hclosed1⟩ := run_closed_stays_closed d p s c swapID r hget hclosed
    simp only [closings, ih _ r1 hget1 hclosed1, add_zero]
    by_cases hc : c.closes swapID = true
    · have := (run_closed_fails d p s c swapID r hget hclosed hc).1
      simp [this]
    · simp [hc]

theorem run_closing_ok (d : Deps) (p : Params) (s : State) (c : Call) (swapID : Bytes)
    (hk : KeysMatch d s) (hc : c.closes swapID = true) (hok : (c.run d p s).err = none) :
    ∃ r1, GetAtomicSwap (c.run d p s).st swapID = some r1 ∧ r1.Status ≠ .Open := by
  cases c with
  | create height randomNumberHash timestamp heightSpan sender recipient senderOtherChain
      recipientOtherChain amount expectedIncome => simp [Call.closes] at hc
  | claim height from_ id randomNumber =>
    simp only [Call.closes, decide_eq_true_eq] at hc
    subst hc
    simp only [Call.run] at hok ⊢
    rcases ClaimAtomicSwap_cases d p height s from_ id randomNumber with
      ⟨herr, -, -⟩ | ⟨record, amount0, rest, hget, -, -, -, -, -, hrest⟩
    · exact absurd hok herr
    · rcases hrest with ⟨-, herr, -⟩ | ⟨b, -, -, hst⟩
      · rw [herr] at hok; cases hok
      · refine ⟨{ record with Status := .Completed, ClosedBlock := height }, ?_, by simp⟩
        rw [hst]
        have hkey : record.GetSwapID d = id := hk id record hget
        simp only [GetAtomicSwap, SetAtomicSwap]
        rw [hkey]
        exact kvGet_kvSet_self _ _ _
  | refund height from_ id =>
    simp only [Call.closes, decide_eq_true_eq] at hc
    subst hc
    simp only [Call.run] at hok ⊢
    rcases RefundAtomicSwap_cases d height s from_ id with
      ⟨herr, -⟩ | ⟨record, b, hget, -, -, -, -, hst⟩
    · exact absurd hok herr
    · refine ⟨{ record with Status := .Expired, ClosedBlock := height }, ?_, by simp⟩
      rw [hst]
      have hkey : record.GetSwapID d = id := hk id record hget
      simp only [GetAtomicSwap, SetAtomicSwap]
      rw [hkey]
      exact kvGet_kvSet_self _ _ _

theorem closings_le_one (d : Deps) (p : Params) (swapID : Bytes) (calls : List Call) :
    ∀ s : State, KeysMatch d s → closings d p swapID s calls ≤ 1 := by
  induction calls with
  | nil => intro s _; simp [closings]
  | cons c rest ih =>
    intro s hk
    simp only [closings]
    by_cases hc : c.closes swapID = true ∧ (c.run d p s).err = none
    · obtain ⟨r1, hget1, hclosed1⟩ := run_closing_ok d p s c swapID hk hc.1 hc.2
      rw [closings_closed d p swapID rest _ r1 hget1 hclosed1]
      simp [hc]
    · have := ih _ (run_keysMatch d p s c hk)
      simp only [hc, if_false]
      omega

theorem keysMatch_initial (d : Deps) (bank : Bank) : KeysMatch d (State.initial bank) := by
  intro k r h
  simp [GetAtomicSwap, State.initial, kvGet] at h

/-- C4. For every swap record whose status is `Completed` or `Expired`, and for every
height, caller and secret, both `ClaimAtomicSwap` and `RefundAtomicSwap` return the not-open
error and leave the whole state as it was (swap registry, asset supplies and balances).
Consequently, in any sequence of calls run from an empty state (no swaps, no supply entries,
any balances), at most one claim or refund of a given swap ID returns `nil`. -/
theorem closed_swap_rejects_claim_and_refund (d : Deps) (p : Params) :
    (∀ (s : State) (swapID : Bytes) (record : AtomicSwap),
      GetAtomicSwap s swapID = some record →
      record.Status = .Completed ∨ record.Status = .Expired →
      ∀ (height : Int) (from_ randomNumber : Bytes),
        (ClaimAtomicSwap d p height s from_ swapID randomNumber).err = some .SwapNotOpen ∧
        (ClaimAtomicSwap d p height s from_ swapID randomNumber).st = s ∧
        (RefundAtomicSwap d height s from_ swapID).err = some .SwapNotOpen ∧
        (RefundAtomicSwap d height s from_ swapID).st = s) ∧
    (∀ (bank : Bank) (calls : List Call) (swapID : Bytes),
      closings d p swapID (State.initial bank) calls ≤ 1) := by
  constructor
  · intro s swapID record hget hst height from_ randomNumber
    have hclosed : record.Status ≠ .Open := by
      rcases hst with h | h <;> simp [h]
    have h1 := run_closed_fails d p s (.claim height from_ swapID randomNumber) swapID record
      hget hclosed (by simp [Call.closes])
    have h2 := run_closed_fails d p s (.refund height from_ swapID) swapID record
      hget hclosed (by simp [Call.closes])
    exact ⟨h1.1, h1.2, h2.1, h2.2⟩
  · intro bank calls swapID
    exact closings_le_one d p swapID calls (State.initial bank) (keysMatch_initial d bank)

theorem closed_swap_rejects_claim_and_refund_witness :
    (GetAtomicSwap exStateCompleted (exSwap.GetSwapID exDeps) = some exSwapCompleted ∧
      (exSwapCompleted.Status = .Completed ∨ exSwapCompleted.Status = .Expired)) ∧
    ((ClaimAtomicSwap exDeps exParams 111 exStateCompleted [2] (exSwap.GetSwapID exDeps)
        [15]).err = some .SwapNotOpen ∧
      (ClaimAtomicSwap exDeps exParams 111 exStateCompleted [2] (exSwap.GetSwapID exDeps)
        [15]).st = exStateCompleted ∧
      (RefundAtomicSwap exDeps 111 exStateCompleted [2] (exSwap.GetSwapID exDeps)).err
        = some .SwapNotOpen ∧
      (RefundAtomicSwap exDeps 111 exStateCompleted [2] (exSwap.GetSwapID exDeps)).st
        = exStateCompleted) ∧
    closings exDeps exParams
      (CalculateSwapID exDeps (CalculateRandomHash exDeps [15] 1000) [1] "")
      (State.initial exBank0) exCalls = 1 :=
  ⟨⟨by decide, by decide⟩,
    (closed_swap_rejects_claim_and_refund exDeps exParams).1 exStateCompleted
      (exSwap.GetSwapID exDeps) exSwapCompleted (by decide) (by decide) 111 [2] [15],
    by decide⟩

/-! ## The supply limit -/

theorem sendCoin_some_nonneg (b : Bank) (src dst : Holder) (c : Coin) (b1 : Bank)
    (h : sendCoin b src dst c = some b1) : 0 ≤ c.Amount := by
  unfold sendCoin at h
  split_ifs at h with h1 h2
  omega

theorem sendCoins_some_nonneg (src dst : Holder) (cs : List Coin) :
    ∀ (b b1 : Bank), sendCoins b src dst cs = some b1 → ∀ c ∈ cs, 0 ≤ c.Amount := by
  induction cs with
  | nil => intro b b1 _ c hc; cases hc
  | cons x rest ih =>
    intro b b1 h c hc
    unfold sendCoins at h
    cases hx : sendCoin b src dst x with
    | none => simp [hx] at h
    | some b2 =>
      simp only [hx] at h
      rcases List.mem_cons.mp hc with rfl | hc
      · exact sendCoin_some_nonneg b src dst _ b2 hx
      · exact ih b2 b1 h c hc

theorem validate_limit_pos (p : Params) (hp : p.Validate = none) (dn : String)
    (a : AssetParam) (ha : GetAssetByDenom p dn = some a) : 0 < a.Limit := by
  have hmem : a ∈ p.SupportedAssets := List.mem_of_find?_eq_some ha
  obtain ⟨pre, post, hsplit⟩ := List.append_of_mem hmem
  exact (((Params.validate_none_iff p).mp hp).2 pre a post hsplit).2.2.2

theorem run_supplyInv (d : Deps) (p : Params) (hp : p.Validate = none) (s : State) (c : Call)
    (h : SupplyInv p s) : SupplyInv p (c.run d p s).st := by
  obtain ⟨hsup, hrec⟩ := h
  cases c with
  | create height randomNumberHash timestamp heightSpan sender recipient senderOtherChain
      recipientOtherChain amount expectedIncome =>
    simp only [Call.run]
    rcases CreateAtomicSwap_cases d p height s randomNumberHash timestamp heightSpan sender
      recipient senderOtherChain recipientOtherChain amount expectedIncome with
      ⟨-, hst⟩ | ⟨amount0, s1, hamt, hnone, -, -, -, hact, hs1, hrest⟩
    · rw [hst]; exact ⟨hsup, hrec⟩
    · have hsw : s1.swaps = s.swaps := by rw [hs1]; split <;> rfl
      have hinv1 : SupplyInv p s1 := by
        refine ⟨?_, fun k r hk => hrec k r (by simpa [GetAtomicSwap, hsw] using hk)⟩
        intro dn c hc
        rw [hs1] at hc
        cases hg : GetAssetSupply s amount0.Denom with
        | some c0 =>
          simp only [hg] at hc
          exact hsup dn c hc
        | none =>
          simp only [hg] at hc
          simp only [GetAssetSupply, SetAssetSupply] at hc
          rw [kvGet_kvSet] at hc
          split_ifs at hc with hkey
          · simp only [Option.some.injEq] at hc
            subst hc
            subst hkey
            unfold ValidateActiveAsset at hact
            cases ha : GetAssetByDenom p amount0.Denom with
            | none => simp [ha] at hact
            | some a =>
              have := validate_limit_pos p hp _ a ha
              exact ⟨le_refl _, a, rfl, by simp only; omega⟩
          · exact hsup dn c hc
      rcases hrest with ⟨e, -, -, hst⟩ | ⟨-, -, -, hst⟩ | ⟨-, b, hsend, -, hst⟩
      · rw [hst]; exact hinv1
      · rw [hst]; exact hinv1
      · rw [hst]
        refine ⟨hinv1.1, ?_⟩
        intro k r hk
        simp only [GetAtomicSwap, SetAtomicSwap] at hk
        rw [kvGet_kvSet] at hk
        split_ifs at hk with hkey
        · simp only [Option.some.injEq] at hk
          subst hk
          exact sendCoins_some_nonneg _ _ _ _ _ hsend
        · exact hinv1.2 k r hk
  | claim height from_ swapID randomNumber =>
    simp only [Call.run]
    rcases ClaimAtomicSwap_cases d p height s from_ swapID randomNumber with
      ⟨-, -, hst⟩ | ⟨record, amount0, rest, hget, -, -, -, hamt, hinc, hrest⟩
    · rw [hst]; exact ⟨hsup, hrec⟩
    · obtain ⟨cur, asset, hcur, hasset, hle, hst1⟩ := IncrementAssetSupply_ok p s amount0 hinc
      have h0 : 0 ≤ amount0.Amount := hrec swapID record hget amount0 (by simp [hamt])
      have hinv1 : SupplyInv p (IncrementAssetSupply p s amount0).st := by
        rw [hst1]
        refine ⟨?_, fun k r hk => hrec k r hk⟩
        intro dn c hc
        simp only [GetAssetSupply, SetAssetSupply] at hc
        rw [kvGet_kvSet] at hc
        split_ifs at hc with hkey
        · simp only [Option.some.injEq] at hc
          subst hc
          subst hkey
          have := (hsup _ cur hcur).1
          exact ⟨by simp only; omega, asset, hasset, hle⟩
        · exact hsup dn c hc
      rcases hrest with ⟨-, -, hst⟩ | ⟨b, -, -, hst⟩
      · rw [hst]; exact hinv1
      · rw [hst]
        refine ⟨hinv1.1, ?_⟩
        intro k r hk
        simp only [GetAtomicSwap, SetAtomicSwap] at hk
        rw [kvGet_kvSet] at hk
        split_ifs at hk with hkey
        · simp only [Option.some.injEq] at hk
          subst hk
          exact hrec swapID record hget
        · exact hinv1.2 k r hk
  | refund height from_ swapID =>
    simp only [Call.run]
    rcases RefundAtomicSwap_cases d height s from_ swapID with
      ⟨-, hst⟩ | ⟨record, b, hget, -, -, -, -, hst⟩
    · rw [hst]; exact ⟨hsup, hrec⟩
    · rw [hst]
      refine ⟨hsup, ?_⟩
      intro k r hk
      simp only [GetAtomicSwap, SetAtomicSwap] at hk
      rw [kvGet_kvSet] at hk
      split_ifs at hk with hkey
      · simp only [Option.some.injEq] at hk
        subst hk
        exact hrec swapID record hget
      · exact hrec k r hk

theorem runCalls_supplyInv (d : Deps) (p : Params) (hp : p.Validate = none)
    (calls : List Call) : ∀ s : State, SupplyInv p s → SupplyInv p (runCalls d p s calls) := by
  induction calls with
  | nil => intro s h; exact h
  | cons c rest ih => intro s h; exact ih _ (run_supplyInv d p hp s c h)

/-- C5. In every state reachable from an empty state (no swaps, no supply entries) by any
sequence of `CreateAtomicSwap`, `ClaimAtomicSwap` and `RefundAtomicSwap` calls under fixed
parameters that pass `Validate`, the supply stored for a denom is non-negative and at most
the limit of that denom's asset in the parameters. -/
theorem reachable_supply_within_limit (d : Deps) (p : Params) (s : State)
    (hp : p.Validate = none) (hs : Reachable d p s) (denom : String) (supply : Coin)
    (hsupply : GetAssetSupply s denom = some supply) :
    0 ≤ supply.Amount ∧
      ∃ asset, GetAssetByDenom p denom = some asset ∧ supply.Amount ≤ asset.Limit := by
  obtain ⟨bank, calls, rfl⟩ := hs
  have hinit : SupplyInv p (State.initial bank) := by
    constructor
    · intro dn c hc; simp [GetAssetSupply, State.initial, kvGet] at hc
    · intro k r hk; simp [GetAtomicSwap, State.initial, kvGet] at hk
  exact (runCalls_supplyInv d p hp calls _ hinit).1 denom supply hsupply

theorem reachable_supply_within_limit_witness :
    (exParams.Validate = none ∧
      Reachable exDeps exParams (runCalls exDeps exParams (State.initial exBank0) exCalls) ∧
      GetAssetSupply (runCalls exDeps exParams (State.initial exBank0) exCalls) "bnb"
        = some { Denom := "bnb", Amount := 50000 }) ∧
    ((0 : Int) ≤ (50000 : Int) ∧
      ∃ asset, GetAssetByDenom exParams "bnb" = some asset ∧ (50000 : Int) ≤ asset.Limit) :=
  ⟨⟨by decide, ⟨exBank0, exCalls, rfl⟩, by decide⟩,
    reachable_supply_within_limit exDeps exParams
      (runCalls exDeps exParams (State.initial exBank0) exCalls) (by decide)
      ⟨exBank0, exCalls, rfl⟩ "bnb" { Denom := "bnb", Amount := 50000 } (by decide)⟩

/-! ## Create: the swap ID is taken once -/

theorem CalculateSwapID_lower (d : Deps) (randomNumberHash sender : Bytes)
    (x y : String) (h : d.ToLower x = d.ToLower y) :
    CalculateSwapID d randomNumberHash sender x = CalculateSwapID d randomNumberHash sender y := by
  simp only [CalculateSwapID, h]

theorem run_found_stays (d : Deps) (p : Params) (s : State) (c : Call) (k : Bytes)
    (h : (GetAtomicSwap s k).isSome = true) :
    (GetAtomicSwap (c.run d p s).st k).isSome = true := by
  unfold GetAtomicSwap at h ⊢
  rcases run_swaps d p s c with hsw | ⟨r1, hsw, -⟩
  · rw [hsw]; exact h
  · rw [hsw, kvGet_kvSet]
    split_ifs
    · rfl
    · exact h

theorem runCalls_found_stays (d : Deps) (p : Params) (k : Bytes) (calls : List Call) :
    ∀ s : State, (GetAtomicSwap s k).isSome = true →
      (GetAtomicSwap (runCalls d p s calls) k).isSome = true := by
  induction calls with
  | nil => intro s h; exact h
  | cons c rest ih => intro s h; exact ih _ (run_found_stays d p s c k h)

theorem CreateAtomicSwap_found (d : Deps) (p : Params) (height : Int) (s : State)
    (randomNumberHash : Bytes) (timestamp heightSpan : Int)
    (sender recipient : Bytes) (senderOtherChain recipientOtherChain : String)
    (amount : List Coin) (expectedIncome : String) (r : AtomicSwap)
    (h : GetAtomicSwap s (CalculateSwapID d randomNumberHash sender senderOtherChain)
      = some r) :
    CreateAtomicSwap d p height s randomNumberHash timestamp heightSpan sender recipient
      senderOtherChain recipientOtherChain amount expectedIncome
      = { err := some .AtomicSwapAlreadyExists, st := s } := by
  unfold CreateAtomicSwap
  simp only [h]

/-- C7. If `CreateAtomicSwap` returns `nil` for `(randomNumberHash, sender,
senderOtherChain, ...)`, then after any sequence of further calls a `CreateAtomicSwap` with
the same `randomNumberHash` and `sender` and a `senderOtherChain` that lower-cases to the same
string returns the already-exists error and leaves the state as it was, whatever the height,
timestamp, amount and the other arguments are. -/
theorem create_twice_already_exists (d : Deps) (p : Params) (height : Int) (s : State)
    (randomNumberHash : Bytes) (timestamp heightSpan : Int)
    (sender recipient : Bytes) (senderOtherChain recipientOtherChain : String)
    (amount : List Coin) (expectedIncome : String)
    (between : List Call)
    (height2 timestamp2 heightSpan2 : Int) (recipient2 : Bytes)
    (senderOtherChain2 recipientOtherChain2 : String) (amount2 : List Coin)
    (expectedIncome2 : String)
    (hok : (CreateAtomicSwap d p height s randomNumberHash timestamp heightSpan sender
      recipient senderOtherChain recipientOtherChain amount expectedIncome).err = none)
    (hcase : d.ToLower senderOtherChain2 = d.ToLower senderOtherChain) :
    (CreateAtomicSwap d p height2
        (runCalls d p (CreateAtomicSwap d p height s randomNumberHash timestamp heightSpan
          sender recipient senderOtherChain recipientOtherChain amount expectedIncome).st
          between)
        randomNumberHash timestamp2 heightSpan2 sender recipient2 senderOtherChain2
        recipientOtherChain2 amount2 expectedIncome2).err = some .AtomicSwapAlreadyExists ∧
    (CreateAtomicSwap d p height2
        (runCalls d p (CreateAtomicSwap d p height s randomNumberHash timestamp heightSpan
          sender recipient senderOtherChain recipientOtherChain amount expectedIncome).st
          between)
        randomNumberHash timestamp2 heightSpan2 sender recipient2 senderOtherChain2
        recipientOtherChain2 amount2 expectedIncome2).st
      = runCalls d p (CreateAtomicSwap d p height s randomNumberHash timestamp heightSpan
          sender recipient senderOtherChain recipientOtherChain amount expectedIncome).st
          between := by
  have hstored : (GetAtomicSwap (CreateAtomicSwap d p height s randomNumberHash timestamp
      heightSpan sender recipient senderOtherChain recipientOtherChain amount
      expectedIncome).st (CalculateSwapID d randomNumberHash sender senderOtherChain)).isSome
      = true := by
    rcases CreateAtomicSwap_cases d p height s randomNumberHash timestamp heightSpan sender
      recipient senderOtherChain recipientOtherChain amount expectedIncome with
      ⟨herr, -⟩ | ⟨amount0, s1, -, -, -, -, -, -, -, hrest⟩
    · exact absurd hok herr
    · rcases hrest with ⟨e, -, herr, -⟩ | ⟨-, -, herr, -⟩ | ⟨-, b, -, -, hst⟩
      · rw [herr] at hok; cases hok
      · rw [herr] at hok; cases hok
      · rw [hst]
        simp only [GetAtomicSwap, SetAtomicSwap, kvGet_kvSet_self, Option.isSome_some]
  have hlater := runCalls_found_stays d p _ between _ hstored
  rw [← CalculateSwapID_lower d randomNumberHash sender senderOtherChain2 senderOtherChain
    hcase] at hlater
  cases hg : GetAtomicSwap (runCalls d p (CreateAtomicSwap d p height s randomNumberHash
      timestamp heightSpan sender recipient senderOtherChain recipientOtherChain amount
      expectedIncome).st between)
      (CalculateSwapID d randomNumberHash sender senderOtherChain2) with
  | none => rw [hg] at hlater; cases hlater
  | some r =>
    rw [CreateAtomicSwap_found d p height2 _ randomNumberHash timestamp2 heightSpan2 sender
      recipient2 senderOtherChain2 recipientOtherChain2 amount2 expectedIncome2 r hg]
    exact ⟨rfl, rfl⟩

theorem create_twice_already_exists_witness :
    ((CreateAtomicSwap exDeps exParams 100 (State.initial exBank0)
        (CalculateRandomHash exDeps [15] 1000) 1000 20 [1] [2] "BnB1" ""
        [{ Denom := "bnb", Amount := 50000 }] "bnb50000").err = none ∧
      exDeps.ToLower "bNb1" = exDeps.ToLower "BnB1") ∧
    ((CreateAtomicSwap exDeps exParams 120
        (runCalls exDeps exParams (CreateAtomicSwap exDeps exParams 100 (State.initial exBank0)
          (CalculateRandomHash exDeps [15] 1000) 1000 20 [1] [2] "BnB1" ""
          [{ Denom := "bnb", Amount := 50000 }] "bnb50000").st [])
        (CalculateRandomHash exDeps [15] 1000) 1001 30 [1] [4] "bNb1" "x"
        [{ Denom := "bnb", Amount := 7 }] "bnb7").err = some .AtomicSwapAlreadyExists ∧
    (CreateAtomicSwap exDeps exParams 120
        (runCalls exDeps exParams (CreateAtomicSwap exDeps exParams 100 (State.initial exBank0)
          (CalculateRandomHash exDeps [15] 1000) 1000 20 [1] [2] "BnB1" ""
          [{ Denom := "bnb", Amount := 50000 }] "bnb50000").st [])
        (CalculateRandomHash exDeps [15] 1000) 1001 30 [1] [4] "bNb1" "x"
        [{ Denom := "bnb", Amount := 7 }] "bnb7").st
      = runCalls exDeps exParams (CreateAtomicSwap exDeps exParams 100 (State.initial exBank0)
          (CalculateRandomHash exDeps [15] 1000) 1000 20 [1] [2] "BnB1" ""
          [{ Denom := "bnb", Amount := 50000 }] "bnb50000").st []) :=
  ⟨⟨by decide, by decide⟩,
    create_twice_already_exists exDeps exParams 100 (State.initial exBank0)
      (CalculateRandomHash exDeps [15] 1000) 1000 20 [1] [2] "BnB1" ""
      [{ Denom := "bnb", Amount := 50000 }] "bnb50000" [] 120 1001 30 [4] "bNb1" "x"
      [{ Denom := "bnb", Amount := 7 }] "bnb7" (by decide) (by decide)⟩

/-! ## Create: what a failed call leaves -/

/-- C8, as it stands, fails: a `CreateAtomicSwap` of 50000 bnb by the account `[5]`, which
holds nothing, returns the error of the escrow transfer, yet the supply store has gained an
entry for `bnb`. -/
theorem create_error_leaves_supply_entry :
    (CreateAtomicSwap exDeps exParams 100 (State.initial exBank0)
        (CalculateRandomHash exDeps [15] 1000) 1000 20 [5] [2] "" ""
        [{ Denom := "bnb", Amount := 50000 }] "bnb50000").err = some .TransferFailed ∧
    GetAssetSupply (State.initial exBank0) "bnb" = none ∧
    GetAssetSupply (CreateAtomicSwap exDeps exParams 100 (State.initial exBank0)
        (CalculateRandomHash exDeps [15] 1000) 1000 20 [5] [2] "" ""
        [{ Denom := "bnb", Amount := 50000 }] "bnb50000").st "bnb"
      = some { Denom := "bnb", Amount := 0 } ∧
    (CreateAtomicSwap exDeps exParams 100 (State.initial exBank0)
        (CalculateRandomHash exDeps [15] 1000) 1000 20 [5] [2] "" ""
        [{ Denom := "bnb", Amount := 50000 }] "bnb50000").st ≠ State.initial exBank0 := by
  refine ⟨by decide, by decide, by decide, fun h => ?_⟩
  have h2 := congrArg (fun st => GetAssetSupply st "bnb") h
  revert h2
  decide

/-- C8, amended. Whenever `CreateAtomicSwap` returns an error, the swap registry and all
balances are as before, and so is the asset-supply store, except that a call which got as
far as the supply-limit check for a denom without an entry has added the entry of that
denom, with amount 0. -/
theorem create_error_keeps_registry_and_balances (d : Deps) (p : Params) (height : Int)
    (s : State) (randomNumberHash : Bytes) (timestamp heightSpan : Int)
    (sender recipient : Bytes) (senderOtherChain recipientOtherChain : String)
    (amount : List Coin) (expectedIncome : String)
    (herr : (CreateAtomicSwap d p height s randomNumberHash timestamp heightSpan sender
      recipient senderOtherChain recipientOtherChain amount expectedIncome).err ≠ none) :
    (CreateAtomicSwap d p height s randomNumberHash timestamp heightSpan sender recipient
      senderOtherChain recipientOtherChain amount expectedIncome).st.swaps = s.swaps ∧
    (CreateAtomicSwap d p height s randomNumberHash timestamp heightSpan sender recipient
      senderOtherChain recipientOtherChain amount expectedIncome).st.bank = s.bank ∧
    ((CreateAtomicSwap d p height s randomNumberHash timestamp heightSpan sender recipient
        senderOtherChain recipientOtherChain amount expectedIncome).st = s ∨
      ∃ amount0, amount = [amount0] ∧ ValidateActiveAsset p amount0 = none ∧
        GetAssetSupply s amount0.Denom = none ∧
        (CreateAtomicSwap d p height s randomNumberHash timestamp heightSpan sender recipient
          senderOtherChain recipientOtherChain amount expectedIncome).st
          = SetAssetSupply s { Denom := amount0.Denom, Amount := 0 } amount0.Denom) := by
  rcases CreateAtomicSwap_cases d p height s randomNumberHash timestamp heightSpan sender
    recipient senderOtherChain recipientOtherChain amount expectedIncome with
    ⟨-, hst⟩ | ⟨amount0, s1, hamt, -, -, -, -, hact, hs1, hrest⟩
  · rw [hst]
    exact ⟨rfl, rfl, Or.inl rfl⟩
  · have hst : (CreateAtomicSwap d p height s randomNumberHash timestamp heightSpan sender
        recipient senderOtherChain recipientOtherChain amount expectedIncome).st = s1 := by
      rcases hrest with ⟨e, -, -, hst⟩ | ⟨-, -, -, hst⟩ | ⟨-, b, -, hok, -⟩
      · exact hst
      · exact hst
      · exact absurd hok herr
    rw [hst, hs1]
    cases hg : GetAssetSupply s amount0.Denom with
    | some c0 => exact ⟨rfl, rfl, Or.inl rfl⟩
    | none => exact ⟨rfl, rfl, Or.inr ⟨amount0, hamt, hact, hg, rfl⟩⟩

theorem create_error_keeps_registry_and_balances_witness :
    (CreateAtomicSwap exDeps exParams 100 (State.initial exBank0)
        (CalculateRandomHash exDeps [15] 1000) 1000 20 [5] [2] "" ""
        [{ Denom := "bnb", Amount := 50000 }] "bnb50000").err ≠ none ∧
    ((CreateAtomicSwap exDeps exParams 100 (State.initial exBank0)
        (CalculateRandomHash exDeps [15] 1000) 1000 20 [5] [2] "" ""
        [{ Denom := "bnb", Amount := 50000 }] "bnb50000").st.swaps
          = (State.initial exBank0).swaps ∧
    (CreateAtomicSwap exDeps exParams 100 (State.initial exBank0)
        (CalculateRandomHash exDeps [15] 1000) 1000 20 [5] [2] "" ""
        [{ Denom := "bnb", Amount := 50000 }] "bnb50000").st.bank
          = (State.initial exBank0).bank ∧
    ((CreateAtomicSwap exDeps exParams 100 (State.initial exBank0)
        (CalculateRandomHash exDeps [15] 1000) 1000 20 [5] [2] "" ""
        [{ Denom := "bnb", Amount := 50000 }] "bnb50000").st = State.initial exBank0 ∨
      ∃ amount0, [({ Denom := "bnb", Amount := 50000 } : Coin)] = [amount0] ∧
        ValidateActiveAsset exParams amount0 = none ∧
        GetAssetSupply (State.initial exBank0) amount0.Denom = none ∧
        (CreateAtomicSwap exDeps exParams 100 (State.initial exBank0)
          (CalculateRandomHash exDeps [15] 1000) 1000 20 [5] [2] "" ""
          [{ Denom := "bnb", Amount := 50000 }] "bnb50000").st
          = SetAssetSupply (State.initial exBank0) { Denom := amount0.Denom, Amount := 0 }
              amount0.Denom)) :=
  ⟨by decide,
    create_error_keeps_registry_and_balances exDeps exParams 100 (State.initial exBank0)
      (CalculateRandomHash exDeps [15] 1000) 1000 20 [5] [2] "" ""
      [{ Denom := "bnb", Amount := 50000 }] "bnb50000" (by decide)⟩

/-! ## Claim: what a failed call leaves -/

/-- Outside the reachable states, on a registry with an `Open` swap that the module account
does not cover: the escrow transfer of a claim fails, `ClaimAtomicSwap` returns the error of
the transfer, and the supply of `bnb` has gone from 0 to 50000. -/
theorem claim_transfer_error_leaves_supply_increased :
    (ClaimAtomicSwap exDeps exParams 100 exStateUnfunded [2] (exSwap.GetSwapID exDeps)
      [15]).err = some .TransferFailed ∧
    GetAssetSupply exStateUnfunded "bnb" = some { Denom := "bnb", Amount := 0 } ∧
    GetAssetSupply (ClaimAtomicSwap exDeps exParams 100 exStateUnfunded [2]
      (exSwap.GetSwapID exDeps) [15]).st "bnb" = some { Denom := "bnb", Amount := 50000 } ∧
    (ClaimAtomicSwap exDeps exParams 100 exStateUnfunded [2] (exSwap.GetSwapID exDeps)
      [15]).st ≠ exStateUnfunded := by
  refine ⟨by decide, by decide, by decide, fun h => ?_⟩
  have h2 := congrArg (fun st => GetAssetSupply st "bnb") h
  revert h2
  decide

/-- What a failed claim leaves on any state, reachable or not: the swap registry and all
balances are as before, so the record is as it was; the asset supplies are as before too
unless the error is that of the escrow transfer: then the state is the one
`IncrementAssetSupply` left, in which the supply of the denom of `Amount[0]` has been
increased by that amount. -/
theorem claim_error_keeps_registry_and_balances (d : Deps) (p : Params) (height : Int)
    (s : State) (from_ swapID randomNumber : Bytes)
    (herr : (ClaimAtomicSwap d p height s from_ swapID randomNumber).err ≠ none) :
    (ClaimAtomicSwap d p height s from_ swapID randomNumber).st.swaps = s.swaps ∧
    (ClaimAtomicSwap d p height s from_ swapID randomNumber).st.bank = s.bank ∧
    ((ClaimAtomicSwap d p height s from_ swapID randomNumber).err ≠ some .TransferFailed →
      (ClaimAtomicSwap d p height s from_ swapID randomNumber).st = s) ∧
    ((ClaimAtomicSwap d p height s from_ swapID randomNumber).err = some .TransferFailed →
      ∃ record amount0 rest supply, GetAtomicSwap s swapID = some record ∧
        record.Status = .Open ∧ record.Amount = amount0 :: rest ∧
        GetAssetSupply s amount0.Denom = some supply ∧
        (ClaimAtomicSwap d p height s from_ swapID randomNumber).st
          = SetAssetSupply s
              { Denom := supply.Denom, Amount := supply.Amount + amount0.Amount }
              amount0.Denom) := by
  rcases ClaimAtomicSwap_cases d p height s from_ swapID randomNumber with
    ⟨-, hne, hst⟩ | ⟨record, amount0, rest, hget, hopen, -, -, hamt, hinc, hrest⟩
  · exact ⟨by rw [hst], by rw [hst], fun _ => hst, fun he => absurd he hne⟩
  · obtain ⟨cur, asset, hcur, -, -, hst1⟩ := IncrementAssetSupply_ok p s amount0 hinc
    rcases hrest with ⟨-, he, hst⟩ | ⟨b, -, hok, -⟩
    · refine ⟨by rw [hst, IncrementAssetSupply_swaps], by rw [hst, IncrementAssetSupply_bank],
        fun hne => absurd he hne, fun _ => ⟨record, amount0, rest, cur, hget, hopen, hamt,
          hcur, by rw [hst, hst1]⟩⟩
    · exact absurd hok herr

theorem claim_error_keeps_registry_and_balances_witness :
    (ClaimAtomicSwap exDeps exParams 121 exState [2] (exSwap.GetSwapID exDeps) [15]).err
      ≠ none ∧
    ((ClaimAtomicSwap exDeps exParams 121 exState [2] (exSwap.GetSwapID exDeps) [15]).st.swaps
      = exState.swaps ∧
    (ClaimAtomicSwap exDeps exParams 121 exState [2] (exSwap.GetSwapID exDeps) [15]).st.bank
      = exState.bank ∧
    ((ClaimAtomicSwap exDeps exParams 121 exState [2] (exSwap.GetSwapID exDeps) [15]).err
        ≠ some .TransferFailed →
      (ClaimAtomicSwap exDeps exParams 121 exState [2] (exSwap.GetSwapID exDeps) [15]).st
        = exState) ∧
    ((ClaimAtomicSwap exDeps exParams 121 exState [2] (exSwap.GetSwapID exDeps) [15]).err
        = some .TransferFailed →
      ∃ record amount0 rest supply,
        GetAtomicSwap exState (exSwap.GetSwapID exDeps) = some record ∧
        record.Status = .Open ∧ record.Amount = amount0 :: rest ∧
        GetAssetSupply exState amount0.Denom = some supply ∧
        (ClaimAtomicSwap exDeps exParams 121 exState [2] (exSwap.GetSwapID exDeps) [15]).st
          = SetAssetSupply exState
              { Denom := supply.Denom, Amount := supply.Amount + amount0.Amount }
              amount0.Denom)) :=
  ⟨by decide,
    claim_error_keeps_registry_and_balances exDeps exParams 121 exState [2]
      (exSwap.GetSwapID exDeps) [15] (by decide)⟩

/-! ## Create: what a successful call leaves -/

theorem wrap64_of_isInt64 (x : Int) (h : IsInt64 x) : wrap64 x = x := by
  obtain ⟨h1, h2⟩ := h
  unfold wrap64
  rw [Int.emod_eq_of_lt (by omega) (by omega)]
  omega

theorem sendCoins_single (b : Bank) (src dst : Holder) (c : Coin) (b1 : Bank)
    (h : sendCoins b src dst [c] = some b1) :
    0 ≤ c.Amount ∧ c.Amount ≤ b src c.Denom ∧
    b1 = (fun w dn =>
      if w = dst ∧ dn = c.Denom then
        (if w = src ∧ dn = c.Denom then b w dn - c.Amount else b w dn) + c.Amount
      else if w = src ∧ dn = c.Denom then b w dn - c.Amount else b w dn) := by
  simp only [sendCoins] at h
  cases hs : sendCoin b src dst c with
  | none => simp [hs] at h
  | some b2 =>
    simp only [hs, Option.some.injEq] at h
    subst h
    unfold sendCoin at hs
    split_ifs at hs with h1 h2
    simp only [Option.some.injEq] at hs
    exact ⟨by omega, by omega, hs.symm⟩

/-- C10, amended. Whenever `CreateAtomicSwap` returns `nil` at height `h`, the registry
afterwards holds, under the key `CalculateSwapID(randomNumberHash, sender,
senderOtherChain)`, a record with status `Open`, `ExpireHeight` the `int64` sum
`h + heightSpan`, which is the sum of the integers whenever that sum is an `int64` and its
wrap-around otherwise, `ClosedBlock = 0` and the given amount,
`randomNumberHash`, timestamp, sender, recipient and `senderOtherChain`; the amount, one
coin, has moved from the sender to the module account and no other balance has changed; and
every other entry of the registry is as before. -/
theorem create_success_stores_open_swap (d : Deps) (p : Params) (height : Int) (s : State)
    (randomNumberHash : Bytes) (timestamp heightSpan : Int)
    (sender recipient : Bytes) (senderOtherChain recipientOtherChain : String)
    (amount : List Coin) (expectedIncome : String)
    (hok : (CreateAtomicSwap d p height s randomNumberHash timestamp heightSpan sender
      recipient senderOtherChain recipientOtherChain amount expectedIncome).err = none) :
    GetAtomicSwap (CreateAtomicSwap d p height s randomNumberHash timestamp heightSpan sender
        recipient senderOtherChain recipientOtherChain amount expectedIncome).st
        (CalculateSwapID d randomNumberHash sender senderOtherChain)
      = some { Amount := amount, RandomNumberHash := randomNumberHash,
               ExpireHeight := add64 height heightSpan, Timestamp := timestamp,
               Sender := sender, Recipient := recipient,
               SenderOtherChain := senderOtherChain, ClosedBlock := 0, Status := .Open } ∧
    (IsInt64 (height + heightSpan) → add64 height heightSpan = height + heightSpan) ∧
    (∀ k : Bytes, k ≠ CalculateSwapID d randomNumberHash sender senderOtherChain →
      GetAtomicSwap (CreateAtomicSwap d p height s randomNumberHash timestamp heightSpan
        sender recipient senderOtherChain recipientOtherChain amount expectedIncome).st k
        = GetAtomicSwap s k) ∧
    ∃ coin, amount = [coin] ∧ 0 ≤ coin.Amount ∧
      (CreateAtomicSwap d p height s randomNumberHash timestamp heightSpan sender recipient
        senderOtherChain recipientOtherChain amount expectedIncome).st.bank
          (.account sender) coin.Denom = s.bank (.account sender) coin.Denom - coin.Amount ∧
      (CreateAtomicSwap d p height s randomNumberHash timestamp heightSpan sender recipient
        senderOtherChain recipientOtherChain amount expectedIncome).st.bank
          .module coin.Denom = s.bank .module coin.Denom + coin.Amount ∧
      ∀ (w : Holder) (dn : String),
        (w ≠ .account sender ∧ w ≠ .module) ∨ dn ≠ coin.Denom →
        (CreateAtomicSwap d p height s randomNumberHash timestamp heightSpan sender recipient
          senderOtherChain recipientOtherChain amount expectedIncome).st.bank w dn
          = s.bank w dn := by
  rcases CreateAtomicSwap_cases d p height s randomNumberHash timestamp heightSpan sender
    recipient senderOtherChain recipientOtherChain amount expectedIncome with
    ⟨herr, -⟩ | ⟨amount0, s1, hamt, -, -, -, -, -, hs1, hrest⟩
  · exact absurd hok herr
  · have hsw : s1.swaps = s.swaps := by rw [hs1]; split <;> rfl
    rcases hrest with ⟨e, -, herr, -⟩ | ⟨-, -, herr, -⟩ | ⟨-, b, hsend, -, hst⟩
    · rw [herr] at hok; cases hok
    · rw [herr] at hok; cases hok
    · rw [hst]
      subst hamt
      obtain ⟨h0, -, hb⟩ := sendCoins_single _ _ _ _ _ hsend
      refine ⟨?_, fun hi => wrap64_of_isInt64 _ hi, fun k hk => ?_, amount0, rfl, h0, ?_, ?_, ?_⟩
      · simp only [GetAtomicSwap, SetAtomicSwap, kvGet_kvSet_self, NewAtomicSwap]
      · simp only [GetAtomicSwap, SetAtomicSwap, hsw]
        exact kvGet_kvSet_ne _ _ _ _ (fun h => hk h.symm)
      · simp only [SetAtomicSwap, hb]
        simp
      · simp only [SetAtomicSwap, hb]
        simp
      · intro w dn hw
        simp only [SetAtomicSwap, hb]
        rcases hw with ⟨hw1, hw2⟩ | hdn
        · simp [hw1, hw2]
        · simp [hdn]

theorem create_success_stores_open_swap_witness :
    (CreateAtomicSwap exDeps exParams 100 (State.initial exBank0)
        (CalculateRandomHash exDeps [15] 1000) 1000 20 [1] [2] "" ""
        [{ Denom := "bnb", Amount := 50000 }] "bnb50000").err = none ∧
    (GetAtomicSwap (CreateAtomicSwap exDeps exParams 100 (State.initial exBank0)
        (CalculateRandomHash exDeps [15] 1000) 1000 20 [1] [2] "" ""
        [{ Denom := "bnb", Amount := 50000 }] "bnb50000").st
        (CalculateSwapID exDeps (CalculateRandomHash exDeps [15] 1000) [1] "")
      = some { Amount := [{ Denom := "bnb", Amount := 50000 }],
               RandomNumberHash := CalculateRandomHash exDeps [15] 1000,
               ExpireHeight := add64 100 20, Timestamp := 1000,
               Sender := [1], Recipient := [2],
               SenderOtherChain := "", ClosedBlock := 0, Status := .Open } ∧
    (IsInt64 (100 + 20) → add64 100 20 = 100 + 20) ∧
    (∀ k : Bytes, k ≠ CalculateSwapID exDeps (CalculateRandomHash exDeps [15] 1000) [1] "" →
      GetAtomicSwap (CreateAtomicSwap exDeps exParams 100 (State.initial exBank0)
        (CalculateRandomHash exDeps [15] 1000) 1000 20 [1] [2] "" ""
        [{ Denom := "bnb", Amount := 50000 }] "bnb50000").st k
        = GetAtomicSwap (State.initial exBank0) k) ∧
    ∃ coin, [({ Denom := "bnb", Amount := 50000 } : Coin)] = [coin] ∧ 0 ≤ coin.Amount ∧
      (CreateAtomicSwap exDeps exParams 100 (State.initial exBank0)
        (CalculateRandomHash exDeps [15] 1000) 1000 20 [1] [2] "" ""
        [{ Denom := "bnb", Amount := 50000 }] "bnb50000").st.bank
          (.account [1]) coin.Denom
          = (State.initial exBank0).bank (.account [1]) coin.Denom - coin.Amount ∧
      (CreateAtomicSwap exDeps exParams 100 (State.initial exBank0)
        (CalculateRandomHash exDeps [15] 1000) 1000 20 [1] [2] "" ""
        [{ Denom := "bnb", Amount := 50000 }] "bnb50000").st.bank
          .module coin.Denom = (State.initial exBank0).bank .module coin.Denom + coin.Amount ∧
      ∀ (w : Holder) (dn : String),
        (w ≠ .account [1] ∧ w ≠ .module) ∨ dn ≠ coin.Denom →
        (CreateAtomicSwap exDeps exParams 100 (State.initial exBank0)
          (CalculateRandomHash exDeps [15] 1000) 1000 20 [1] [2] "" ""
          [{ Denom := "bnb", Amount := 50000 }] "bnb50000").st.bank w dn
          = (State.initial exBank0).bank w dn) :=
  ⟨by decide,
    create_success_stores_open_swap exDeps exParams 100 (State.initial exBank0)
      (CalculateRandomHash exDeps [15] 1000) 1000 20 [1] [2] "" ""
      [{ Denom := "bnb", Amount := 50000 }] "bnb50000" (by decide)⟩

/-! ## The commitment scheme -/

theorem bigEndian64_injective (v w : Nat) (hv : v < 2 ^ 64) (hw : w < 2 ^ 64)
    (h : bigEndian64 v = bigEndian64 w) : v = w := by
  simp only [bigEndian64, List.cons.injEq, and_true] at h
  obtain ⟨h7, h6, h5, h4, h3, h2, h1, h0⟩ := h
  norm_num at h7 h6 h5 h4 h3 h2 h1 h0 hv hw
  omega

theorem toUint64_injective (a b : Int) (ha : IsInt64 a) (hb : IsInt64 b)
    (h : toUint64 a = toUint64 b) : a = b := by
  obtain ⟨ha1, ha2⟩ := ha
  obtain ⟨hb1, hb2⟩ := hb
  unfold toUint64 at h
  have h1 : (a % 2 ^ 64) = (b % 2 ^ 64) := by
    have ha0 : 0 ≤ a % 2 ^ 64 := Int.emod_nonneg _ (by norm_num)
    have hb0 : 0 ≤ b % 2 ^ 64 := Int.emod_nonneg _ (by norm_num)
    omega
  norm_num at h1 ha1 ha2 hb1 hb2
  omega

theorem toUint64_lt (a : Int) : toUint64 a < 2 ^ 64 := by
  unfold toUint64
  have h0 : 0 ≤ a % 2 ^ 64 := Int.emod_nonneg _ (by norm_num)
  have h1 : a % 2 ^ 64 < 2 ^ 64 := Int.emod_lt_of_pos _ (by norm_num)
  omega

theorem slot_length (n : Nat) (r : Bytes) :
    (r.take n ++ List.replicate (n - r.length) 0).length = n := by
  simp only [List.length_append, List.length_take, List.length_replicate]
  omega

theorem CalculateRandomHash_eq (d : Deps) (randomNumber : Bytes) (timestamp : Int) :
    CalculateRandomHash d randomNumber timestamp
      = d.tmhashSum
          ((randomNumber.take d.RandomNumberLength
              ++ List.replicate (d.RandomNumberLength - randomNumber.length) 0)
            ++ bigEndian64 (toUint64 timestamp)) := by
  have hslot := slot_length d.RandomNumberLength randomNumber
  have h1 : copyBytes (List.take d.RandomNumberLength
        (makeBytes (d.RandomNumberLength + Int64Size))) randomNumber
      = randomNumber.take d.RandomNumberLength
          ++ List.replicate (d.RandomNumberLength - randomNumber.length) 0 := by
    simp [copyBytes, makeBytes, List.take_replicate, List.drop_replicate]
  have h2 : List.drop d.RandomNumberLength (makeBytes (d.RandomNumberLength + Int64Size))
      = List.replicate 8 0 := by
    simp [makeBytes, Int64Size, List.drop_replicate]
  simp only [CalculateRandomHash, h1, h2]
  rw [List.take_left' hslot, List.drop_left' hslot]
  simp [PutUint64]

/-- C14. For every secret and every `int64` timestamp, `CalculateRandomHash(secret,
timestamp)` is `tmhash.Sum` of a buffer of exactly `RandomNumberLength + 8` bytes: its first
`RandomNumberLength` bytes are the slot of the secret (the secret cut to the slot and filled
up with zero bytes), its last 8 bytes are the big-endian bytes of `uint64(timestamp)`, which
is `timestamp mod 2^64`; and for a fixed secret two `int64` timestamps with the same buffer
are equal. -/
theorem calculateRandomHash_preimage (d : Deps) (randomNumber : Bytes) (timestamp : Int) :
    ∃ data : Bytes,
      CalculateRandomHash d randomNumber timestamp = d.tmhashSum data ∧
      data.length = d.RandomNumberLength + 8 ∧
      data.take d.RandomNumberLength
        = randomNumber.take d.RandomNumberLength
            ++ List.replicate (d.RandomNumberLength - randomNumber.length) 0 ∧
      data.drop d.RandomNumberLength = bigEndian64 (toUint64 timestamp) ∧
      (toUint64 timestamp : Int) = timestamp % 2 ^ 64 ∧
      ∀ timestamp2 : Int, IsInt64 timestamp → IsInt64 timestamp2 →
        data = (randomNumber.take d.RandomNumberLength
            ++ List.replicate (d.RandomNumberLength - randomNumber.length) 0)
          ++ bigEndian64 (toUint64 timestamp2) →
        timestamp = timestamp2 := by
  have hslot := slot_length d.RandomNumberLength randomNumber
  refine ⟨_, CalculateRandomHash_eq d randomNumber timestamp, ?_, List.take_left' hslot,
    List.drop_left' hslot, ?_, ?_⟩
  · rw [List.length_append, hslot]
    simp [bigEndian64]
  · unfold toUint64
    exact Int.toNat_of_nonneg (Int.emod_nonneg _ (by norm_num))
  · intro timestamp2 h1 h2 heq
    have hbe := List.append_cancel_left heq
    exact toUint64_injective _ _ h1 h2
      (bigEndian64_injective _ _ (toUint64_lt _) (toUint64_lt _) hbe)

theorem calculateRandomHash_preimage_witness :
    CalculateRandomHash exDeps [15] 6655443322
      = exDeps.tmhashSum ([15] ++ List.replicate 31 0 ++ [0, 0, 0, 1, 140, 178, 1, 122]) ∧
    ∃ data : Bytes,
      CalculateRandomHash exDeps [15] 6655443322 = exDeps.tmhashSum data ∧
      data.length = exDeps.RandomNumberLength + 8 ∧
      data.take exDeps.RandomNumberLength
        = ([15] : Bytes).take exDeps.RandomNumberLength
            ++ List.replicate (exDeps.RandomNumberLength - ([15] : Bytes).length) 0 ∧
      data.drop exDeps.RandomNumberLength = bigEndian64 (toUint64 6655443322) ∧
      (toUint64 6655443322 : Int) = 6655443322 % 2 ^ 64 ∧
      ∀ timestamp2 : Int, IsInt64 6655443322 → IsInt64 timestamp2 →
        data = (([15] : Bytes).take exDeps.RandomNumberLength
            ++ List.replicate (exDeps.RandomNumberLength - ([15] : Bytes).length) 0)
          ++ bigEndian64 (toUint64 timestamp2) →
        (6655443322 : Int) = timestamp2 :=
  ⟨by decide, calculateRandomHash_preimage exDeps [15] 6655443322⟩

/-- C13. For all `randomNumberHash`, `sender` and `senderOtherChain`,
`CalculateSwapID(randomNumberHash, sender, senderOtherChain)` is `tmhash.Sum` of
`randomNumberHash` followed by the bytes of the sender and the bytes of the lower-cased
`senderOtherChain`; so it is a function of these three, and two `senderOtherChain` strings
with the same lower-casing give the same swap ID. -/
theorem calculateSwapID_eq_hash_of_concat (d : Deps) :
    (∀ (randomNumberHash sender : Bytes) (senderOtherChain : String),
      CalculateSwapID d randomNumberHash sender senderOtherChain
        = d.tmhashSum (randomNumberHash ++ sender ++ strBytes (d.ToLower senderOtherChain))) ∧
    (∀ (randomNumberHash sender : Bytes) (x y : String), d.ToLower x = d.ToLower y →
      CalculateSwapID d randomNumberHash sender x
        = CalculateSwapID d randomNumberHash sender y) :=
  ⟨fun _ _ _ => rfl, fun c s x y h => CalculateSwapID_lower d c s x y h⟩

theorem calculateSwapID_eq_hash_of_concat_witness :
    exDeps.ToLower "BnB1" = exDeps.ToLower "bNb1" ∧
    CalculateSwapID exDeps (CalculateRandomHash exDeps [15] 9988776655) [1] "BnB1"
      = CalculateSwapID exDeps (CalculateRandomHash exDeps [15] 9988776655) [1] "bNb1" ∧
    CalculateSwapID exDeps (CalculateRandomHash exDeps [15] 9988776655) [1] "BnB1"
      = exDeps.tmhashSum (CalculateRandomHash exDeps [15] 9988776655 ++ [1]
          ++ [98, 110, 98, 49]) :=
  ⟨by decide,
    (calculateSwapID_eq_hash_of_concat exDeps).2 (CalculateRandomHash exDeps [15] 9988776655)
      [1] "BnB1" "bNb1" (by decide),
    by decide⟩

/-! ## Claim and refund: what a successful call leaves -/

theorem sendCoin_balance (b : Bank) (src dst : Holder) (c : Coin) (b1 : Bank)
    (hne : src ≠ dst) (h : sendCoin b src dst c = some b1) (w : Holder) (dn : String) :
    b1 w dn = b w dn - (if w = src then amountOf dn [c] else 0)
      + (if w = dst then amountOf dn [c] else 0) := by
  unfold sendCoin at h
  split_ifs at h with h1 h2
  simp only [Option.some.injEq] at h
  subst h
  simp only [amountOf, add_zero]
  by_cases hd : c.Denom = dn
  · subst hd
    by_cases hws : w = src
    · subst hws
      simp [hne]
    · by_cases hwd : w = dst
      · subst hwd
        simp [hws]
      · simp [hws, hwd]
  · have hd2 : ¬ dn = c.Denom := fun h => hd h.symm
    simp [hd, hd2]

theorem sendCoins_balance (src dst : Holder) (hne : src ≠ dst) (cs : List Coin) :
    ∀ (b b1 : Bank), sendCoins b src dst cs = some b1 → ∀ (w : Holder) (dn : String),
      b1 w dn = b w dn - (if w = src then amountOf dn cs else 0)
        + (if w = dst then amountOf dn cs else 0) := by
  induction cs with
  | nil =>
    intro b b1 h w dn
    simp only [sendCoins, Option.some.injEq] at h
    subst h
    simp [amountOf]
  | cons c rest ih =>
    intro b b1 h w dn
    unfold sendCoins at h
    cases hc : sendCoin b src dst c with
    | none => simp [hc] at h
    | some b2 =>
      simp only [hc] at h
      have h1 := sendCoin_balance b src dst c b2 hne hc w dn
      have h2 := ih b2 b1 h w dn
      rw [h2, h1]
      simp only [amountOf, add_zero]
      split_ifs <;> ring

/-- C12. Whenever `RefundAtomicSwap` returns `nil` at height `h` for a record stored under
its own swap ID: the record's status becomes `Expired` and its `ClosedBlock` becomes `h`,
every other field of the record and every other swap record is as before, the asset-supply
store is as before, and exactly `record.Amount` has moved from the module account to
`record.Sender` (whoever the caller `from` is): no other balance has changed. -/
theorem refund_success_effects (d : Deps) (height : Int) (s : State)
    (from_ swapID : Bytes) (record : AtomicSwap)
    (hfound : GetAtomicSwap s swapID = some record)
    (hkey : record.GetSwapID d = swapID)
    (hok : (RefundAtomicSwap d height s from_ swapID).err = none) :
    GetAtomicSwap (RefundAtomicSwap d height s from_ swapID).st swapID
      = some { record with Status := .Expired, ClosedBlock := height } ∧
    (∀ k : Bytes, k ≠ swapID →
      GetAtomicSwap (RefundAtomicSwap d height s from_ swapID).st k = GetAtomicSwap s k) ∧
    (RefundAtomicSwap d height s from_ swapID).st.supplies = s.supplies ∧
    (∀ (w : Holder) (dn : String),
      (RefundAtomicSwap d height s from_ swapID).st.bank w dn
        = s.bank w dn - (if w = .module then amountOf dn record.Amount else 0)
          + (if w = .account record.Sender then amountOf dn record.Amount else 0)) := by
  rcases RefundAtomicSwap_cases d height s from_ swapID with
    ⟨herr, -⟩ | ⟨record1, b, hget, -, -, hsend, -, hst⟩
  · exact absurd hok herr
  · rw [hfound] at hget
    simp only [Option.some.injEq] at hget
    subst hget
    rw [hst, hkey]
    refine ⟨?_, fun k hk => ?_, rfl, fun w dn => ?_⟩
    · simp only [GetAtomicSwap, SetAtomicSwap, kvGet_kvSet_self]
    · simp only [GetAtomicSwap, SetAtomicSwap]
      exact kvGet_kvSet_ne _ _ _ _ (fun h => hk h.symm)
    · simp only [SetAtomicSwap]
      exact sendCoins_balance .module (.account record.Sender) (by simp) _ _ _ hsend w dn

/-- C11. Whenever `ClaimAtomicSwap` returns `nil` at height `h` for a record, stored under
its own swap ID, with the amount `a` of the denom `d`: the record's status becomes
`Completed` and its `ClosedBlock` becomes `h`, every other field of the record and every
other swap record is as before, the supply of `d` has increased by exactly `a` and the supply
of every other denom is as before, and exactly `a` of `d` has moved from the module account to
`record.Recipient` (whoever the caller `from` is): no other balance has changed. -/
theorem claim_success_effects (d : Deps) (p : Params) (height : Int) (s : State)
    (from_ swapID randomNumber : Bytes) (record : AtomicSwap) (coin : Coin)
    (hfound : GetAtomicSwap s swapID = some record)
    (hkey : record.GetSwapID d = swapID)
    (hamount : record.Amount = [coin])
    (hok : (ClaimAtomicSwap d p height s from_ swapID randomNumber).err = none) :
    GetAtomicSwap (ClaimAtomicSwap d p height s from_ swapID randomNumber).st swapID
      = some { record with Status := .Completed, ClosedBlock := height } ∧
    (∀ k : Bytes, k ≠ swapID →
      GetAtomicSwap (ClaimAtomicSwap d p height s from_ swapID randomNumber).st k
        = GetAtomicSwap s k) ∧
    (∃ supply, GetAssetSupply s coin.Denom = some supply ∧
      GetAssetSupply (ClaimAtomicSwap d p height s from_ swapID randomNumber).st coin.Denom
        = some { Denom := supply.Denom, Amount := supply.Amount + coin.Amount }) ∧
    (∀ dn : String, dn ≠ coin.Denom →
      GetAssetSupply (ClaimAtomicSwap d p height s from_ swapID randomNumber).st dn
        = GetAssetSupply s dn) ∧
    (∀ (w : Holder) (dn : String),
      (ClaimAtomicSwap d p height s from_ swapID randomNumber).st.bank w dn
        = s.bank w dn - (if w = .module ∧ dn = coin.Denom then coin.Amount else 0)
          + (if w = .account record.Recipient ∧ dn = coin.Denom then coin.Amount else 0)) := by
  rcases ClaimAtomicSwap_cases d p height s from_ swapID randomNumber with
    ⟨herr, -, -⟩ | ⟨record1, amount0, rest, hget, -, -, -, hamt, hinc, hrest⟩
  · exact absurd hok herr
  · rw [hfound] at hget
    simp only [Option.some.injEq] at hget
    subst hget
    rw [hamount] at hamt
    simp only [List.cons.injEq] at hamt
    obtain ⟨hc, -⟩ := hamt
    subst hc
    obtain ⟨cur, asset, hcur, -, -, hst1⟩ := IncrementAssetSupply_ok p s coin hinc
    rcases hrest with ⟨-, herr, -⟩ | ⟨b, hsend, -, hst⟩
    · rw [herr] at hok; cases hok
    · rw [hst, hkey, hst1]
      refine ⟨?_, fun k hk => ?_, ⟨cur, hcur, ?_⟩, fun dn hdn => ?_, fun w dn => ?_⟩
      · simp only [GetAtomicSwap, SetAtomicSwap, kvGet_kvSet_self]
      · simp only [GetAtomicSwap, SetAtomicSwap, SetAssetSupply]
        exact kvGet_kvSet_ne _ _ _ _ (fun h => hk h.symm)
      · simp only [GetAssetSupply, SetAtomicSwap, SetAssetSupply, kvGet_kvSet_self]
      · simp only [GetAssetSupply, SetAtomicSwap, SetAssetSupply]
        exact kvGet_kvSet_ne _ _ _ _ (fun h => hdn h.symm)
      · simp only [SetAtomicSwap]
        have hb := sendCoins_balance .module (.account record.Recipient) (by simp) _ _ _
          hsend w dn
        rw [hb, hamount]
        simp only [amountOf, add_zero]
        by_cases hd : coin.Denom = dn
        · subst hd; simp
        · have hd2 : ¬ dn = coin.Denom := fun h => hd h.symm
          simp [hd, hd2]

theorem refund_success_effects_witness :
    (GetAtomicSwap exState (exSwap.GetSwapID exDeps) = some exSwap ∧
      (RefundAtomicSwap exDeps 121 exState [3] (exSwap.GetSwapID exDeps)).err = none) ∧
    (GetAtomicSwap (RefundAtomicSwap exDeps 121 exState [3] (exSwap.GetSwapID exDeps)).st
        (exSwap.GetSwapID exDeps)
      = some { exSwap with Status := .Expired, ClosedBlock := 121 } ∧
    (∀ k : Bytes, k ≠ exSwap.GetSwapID exDeps →
      GetAtomicSwap (RefundAtomicSwap exDeps 121 exState [3] (exSwap.GetSwapID exDeps)).st k
        = GetAtomicSwap exState k) ∧
    (RefundAtomicSwap exDeps 121 exState [3] (exSwap.GetSwapID exDeps)).st.supplies
      = exState.supplies ∧
    (∀ (w : Holder) (dn : String),
      (RefundAtomicSwap exDeps 121 exState [3] (exSwap.GetSwapID exDeps)).st.bank w dn
        = exState.bank w dn - (if w = .module then amountOf dn exSwap.Amount else 0)
          + (if w = .account exSwap.Sender then amountOf dn exSwap.Amount else 0))) :=
  ⟨⟨by decide, by decide⟩,
    refund_success_effects exDeps 121 exState [3] (exSwap.GetSwapID exDeps) exSwap
      (by decide) rfl (by decide)⟩

theorem claim_success_effects_witness :
    (GetAtomicSwap exState (exSwap.GetSwapID exDeps) = some exSwap ∧
      exSwap.Amount = [{ Denom := "bnb", Amount := 50000 }] ∧
      (ClaimAtomicSwap exDeps exParams 100 exState [3] (exSwap.GetSwapID exDeps) [15]).err
        = none) ∧
    (GetAtomicSwap
        (ClaimAtomicSwap exDeps exParams 100 exState [3] (exSwap.GetSwapID exDeps) [15]).st
        (exSwap.GetSwapID exDeps)
      = some { exSwap with Status := .Completed, ClosedBlock := 100 } ∧
    (∀ k : Bytes, k ≠ exSwap.GetSwapID exDeps →
      GetAtomicSwap
        (ClaimAtomicSwap exDeps exParams 100 exState [3] (exSwap.GetSwapID exDeps) [15]).st k
        = GetAtomicSwap exState k) ∧
    (∃ supply, GetAssetSupply exState "bnb" = some supply ∧
      GetAssetSupply
        (ClaimAtomicSwap exDeps exParams 100 exState [3] (exSwap.GetSwapID exDeps) [15]).st
        "bnb" = some { Denom := supply.Denom, Amount := supply.Amount + 50000 }) ∧
    (∀ dn : String, dn ≠ "bnb" →
      GetAssetSupply
        (ClaimAtomicSwap exDeps exParams 100 exState [3] (exSwap.GetSwapID exDeps) [15]).st
        dn = GetAssetSupply exState dn) ∧
    (∀ (w : Holder) (dn : String),
      (ClaimAtomicSwap exDeps exParams 100 exState [3] (exSwap.GetSwapID exDeps) [15]).st.bank
          w dn
        = exState.bank w dn - (if w = .module ∧ dn = "bnb" then 50000 else 0)
          + (if w = .account exSwap.Recipient ∧ dn = "bnb" then 50000 else 0))) :=
  ⟨⟨by decide, by decide, by decide⟩,
    claim_success_effects exDeps exParams 100 exState [3] (exSwap.GetSwapID exDeps) [15]
      exSwap { Denom := "bnb", Amount := 50000 } (by decide) rfl (by decide) (by decide)⟩

/-! ## Create: the timestamp check -/

theorem create_timestamp_eq_height_rejected (d : Deps) (p : Params) (height : Int)
    (s : State) (randomNumberHash : Bytes) (heightSpan : Int)
    (sender recipient : Bytes) (senderOtherChain recipientOtherChain : String)
    (amount : List Coin) (expectedIncome : String)
    (hint : IsInt64 height) (hheight : height > 1800)
    (hnew : GetAtomicSwap s (CalculateSwapID d randomNumberHash sender senderOtherChain)
      = none)
    (hspan : p.MinBlockLock ≤ heightSpan ∧ heightSpan ≤ p.MaxBlockLock) :
    (CreateAtomicSwap d p height s randomNumberHash height heightSpan sender recipient
      senderOtherChain recipientOtherChain amount expectedIncome).err
        = some .InvalidTimestamp := by
  have hsub : sub64 height 1800 = height - 1800 := by
    unfold sub64
    apply wrap64_of_isInt64
    obtain ⟨h1, h2⟩ := hint
    constructor <;> omega
  have hspan2 : ¬ (heightSpan < p.MinBlockLock ∨ heightSpan > p.MaxBlockLock) := by omega
  have hts : height > sub64 height 1800 := by rw [hsub]; omega
  unfold CreateAtomicSwap
  simp only [hnew, hspan2, hheight, hts, if_true, if_false, true_or, decide_True]

/-- C17, evaluated where it fails: at block height 2000 a `CreateAtomicSwap` of a new swap
with a valid height span and the timestamp 2000, the current value, returns the
invalid-timestamp error. -/
theorem create_rejects_timestamp_at_offset_zero :
    (CreateAtomicSwap exDeps exParams 2000 (State.initial exBank0)
      (CalculateRandomHash exDeps [15] 2000) 2000 20 [1] [2] "" ""
      [{ Denom := "bnb", Amount := 50000 }] "bnb50000").err = some .InvalidTimestamp ∧
    (CreateAtomicSwap exDeps exParams 2000 (State.initial exBank0)
      (CalculateRandomHash exDeps [15] 2000) 2000 20 [1] [2] "" ""
      [{ Denom := "bnb", Amount := 50000 }] "bnb50000").st.swaps = [] := by
  constructor <;> decide

/-! ## The transitions of a record -/

theorem run_statusInv (d : Deps) (p : Params) (s : State) (c : Call) (h : StatusInv s) :
    StatusInv (c.run d p s).st := by
  intro k r hk
  cases c with
  | create height randomNumberHash timestamp heightSpan sender recipient senderOtherChain
      recipientOtherChain amount expectedIncome =>
    simp only [Call.run] at hk
    rcases CreateAtomicSwap_cases d p height s randomNumberHash timestamp heightSpan sender
      recipient senderOtherChain recipientOtherChain amount expectedIncome with
      ⟨-, hst⟩ | ⟨amount0, s1, -, -, -, -, -, -, hs1, hrest⟩
    · rw [hst] at hk; exact h k r hk
    · have hsw : s1.swaps = s.swaps := by rw [hs1]; split <;> rfl
      rcases hrest with ⟨e, -, -, hst⟩ | ⟨-, -, -, hst⟩ | ⟨-, b, -, -, hst⟩
      · rw [hst] at hk; exact h k r (by simpa [GetAtomicSwap, hsw] using hk)
      · rw [hst] at hk; exact h k r (by simpa [GetAtomicSwap, hsw] using hk)
      · rw [hst] at hk
        simp only [GetAtomicSwap, SetAtomicSwap, hsw] at hk
        rw [kvGet_kvSet] at hk
        split_ifs at hk with hkey
        · simp only [Option.some.injEq] at hk
          subst hk
          simp [NewAtomicSwap]
        · exact h k r hk
  | claim height from_ swapID randomNumber =>
    simp only [Call.run] at hk
    rcases ClaimAtomicSwap_cases d p height s from_ swapID randomNumber with
      ⟨-, -, hst⟩ | ⟨record, amount0, rest, hget, -, hle, -, -, -, hrest⟩
    · rw [hst] at hk; exact h k r hk
    · rcases hrest with ⟨-, -, hst⟩ | ⟨b, -, -, hst⟩
      · rw [hst] at hk
        exact h k r (by simpa [GetAtomicSwap, IncrementAssetSupply_swaps] using hk)
      · rw [hst] at hk
        simp only [GetAtomicSwap, SetAtomicSwap, IncrementAssetSupply_swaps] at hk
        rw [kvGet_kvSet] at hk
        split_ifs at hk with hkey
        · simp only [Option.some.injEq] at hk
          subst hk
          simp [hle]
        · exact h k r hk
  | refund height from_ swapID =>
    simp only [Call.run] at hk
    rcases RefundAtomicSwap_cases d height s from_ swapID with
      ⟨-, hst⟩ | ⟨record, b, hget, -, hgt, -, -, hst⟩
    · rw [hst] at hk; exact h k r hk
    · rw [hst] at hk
      simp only [GetAtomicSwap, SetAtomicSwap] at hk
      rw [kvGet_kvSet] at hk
      split_ifs at hk with hkey
      · simp only [Option.some.injEq] at hk
        subst hk
        simp [hgt]
      · exact h k r hk

theorem reachable_keysMatch_statusInv (d : Deps) (p : Params) (calls : List Call) :
    ∀ s : State, KeysMatch d s → StatusInv s →
      KeysMatch d (runCalls d p s calls) ∧ StatusInv (runCalls d p s calls) := by
  induction calls with
  | nil => intro s h1 h2; exact ⟨h1, h2⟩
  | cons c rest ih =>
    intro s h1 h2
    exact ih _ (run_keysMatch d p s c h1) (run_statusInv d p s c h2)

theorem statusInv_initial (bank : Bank) : StatusInv (State.initial bank) := by
  intro k r h
  simp [GetAtomicSwap, State.initial, kvGet] at h

theorem run_record_transition (d : Deps) (p : Params) (s : State) (c : Call)
    (hkeys : KeysMatch d s) (hinv : StatusInv s) (k : Bytes) (r : AtomicSwap)
    (hget : GetAtomicSwap s k = some r) :
    ∃ r1, GetAtomicSwap (c.run d p s).st k = some r1 ∧
      (r1 = r ∨
       (∃ height from_ randomNumber, c = .claim height from_ k randomNumber ∧
          (c.run d p s).err = none ∧ r.Status = .Open ∧ r.ClosedBlock = 0 ∧
          r1 = { r with Status := .Completed, ClosedBlock := height }) ∨
       (∃ height from_, c = .refund height from_ k ∧
          (c.run d p s).err = none ∧ r.Status = .Open ∧ r.ClosedBlock = 0 ∧
          r1 = { r with Status := .Expired, ClosedBlock := height })) := by
  cases c with
  | create height randomNumberHash timestamp heightSpan sender recipient senderOtherChain
      recipientOtherChain amount expectedIncome =>
    simp only [Call.run]
    rcases CreateAtomicSwap_cases d p height s randomNumberHash timestamp heightSpan sender
      recipient senderOtherChain recipientOtherChain amount expectedIncome with
      ⟨-, hst⟩ | ⟨amount0, s1, -, hnone, -, -, -, -, hs1, hrest⟩
    · rw [hst]; exact ⟨r, hget, Or.inl rfl⟩
    · have hsw : s1.swaps = s.swaps := by rw [hs1]; split <;> rfl
      rcases hrest with ⟨e, -, -, hst⟩ | ⟨-, -, -, hst⟩ | ⟨-, b, -, -, hst⟩
      · rw [hst]; exact ⟨r, by simpa [GetAtomicSwap, hsw] using hget, Or.inl rfl⟩
      · rw [hst]; exact ⟨r, by simpa [GetAtomicSwap, hsw] using hget, Or.inl rfl⟩
      · rw [hst]
        refine ⟨r, ?_, Or.inl rfl⟩
        simp only [GetAtomicSwap, SetAtomicSwap, hsw]
        rw [kvGet_kvSet_ne]
        · exact hget
        · intro hk
          rw [← hk, hnone] at hget
          cases hget
  | claim height from_ swapID randomNumber =>
    simp only [Call.run]
    rcases ClaimAtomicSwap_cases d p height s from_ swapID randomNumber with
      ⟨-, -, hst⟩ | ⟨record, amount0, rest, hrec, hopen, -, -, -, -, hrest⟩
    · rw [hst]; exact ⟨r, hget, Or.inl rfl⟩
    · rcases hrest with ⟨-, -, hst⟩ | ⟨b, -, hok, hst⟩
      · rw [hst]
        exact ⟨r, by simpa [GetAtomicSwap, IncrementAssetSupply_swaps] using hget, Or.inl rfl⟩
      · have hkey : record.GetSwapID d = swapID := hkeys swapID record hrec
        rw [hst, hkey]
        simp only [GetAtomicSwap, SetAtomicSwap, IncrementAssetSupply_swaps]
        by_cases hk : swapID = k
        · subst hk
          rw [hget] at hrec
          simp only [Option.some.injEq] at hrec
          subst hrec
          refine ⟨_, kvGet_kvSet_self _ _ _, Or.inr (Or.inl ⟨height, from_, randomNumber, rfl,
            hok, hopen, (hinv _ _ hget).1 hopen, rfl⟩)⟩
        · rw [kvGet_kvSet_ne _ _ _ _ hk]
          exact ⟨r, hget, Or.inl rfl⟩
  | refund height from_ swapID =>
    simp only [Call.run]
    rcases RefundAtomicSwap_cases d height s from_ swapID with
      ⟨-, hst⟩ | ⟨record, b, hrec, hopen, -, -, hok, hst⟩
    · rw [hst]; exact ⟨r, hget, Or.inl rfl⟩
    · have hkey : record.GetSwapID d = swapID := hkeys swapID record hrec
      rw [hst, hkey]
      simp only [GetAtomicSwap, SetAtomicSwap]
      by_cases hk : swapID = k
      · subst hk
        rw [hget] at hrec
        simp only [Option.some.injEq] at hrec
        subst hrec
        refine ⟨_, kvGet_kvSet_self _ _ _, Or.inr (Or.inr ⟨height, from_, rfl,
          hok, hopen, (hinv _ _ hget).1 hopen, rfl⟩)⟩
      · rw [kvGet_kvSet_ne _ _ _ _ hk]
        exact ⟨r, hget, Or.inl rfl⟩

/-- C18. In every state reachable from an empty state, for every call of
`CreateAtomicSwap`, `ClaimAtomicSwap` or `RefundAtomicSwap` and every swap ID present before
the call, the record is still present afterwards, and it is either the record as it was, or
the record with `(Status, ClosedBlock)` gone from `(Open, 0)` to `(Completed, height)` by a
successful claim of that swap ID, or to `(Expired, height)` by a successful refund of it.  So
in every reachable state an `Open` record has `ClosedBlock = 0`, a `Completed` record has
`ClosedBlock <= ExpireHeight` and an `Expired` record has `ClosedBlock > ExpireHeight`. -/
theorem record_transitions_only_from_open (d : Deps) (p : Params) (s : State)
    (hs : Reachable d p s) :
    (∀ (c : Call) (k : Bytes) (r : AtomicSwap), GetAtomicSwap s k = some r →
      ∃ r1, GetAtomicSwap (c.run d p s).st k = some r1 ∧
        (r1 = r ∨
         (∃ height from_ randomNumber, c = .claim height from_ k randomNumber ∧
            (c.run d p s).err = none ∧ r.Status = .Open ∧ r.ClosedBlock = 0 ∧
            r1 = { r with Status := .Completed, ClosedBlock := height }) ∨
         (∃ height from_, c = .refund height from_ k ∧
            (c.run d p s).err = none ∧ r.Status = .Open ∧ r.ClosedBlock = 0 ∧
            r1 = { r with Status := .Expired, ClosedBlock := height }))) ∧
    (∀ (k : Bytes) (r : AtomicSwap), GetAtomicSwap s k = some r →
      (r.Status = .Open → r.ClosedBlock = 0) ∧
      (r.Status = .Completed → r.ClosedBlock ≤ r.ExpireHeight) ∧
      (r.Status = .Expired → r.ClosedBlock > r.ExpireHeight)) := by
  obtain ⟨bank, calls, rfl⟩ := hs
  obtain ⟨hkeys, hinv⟩ := reachable_keysMatch_statusInv d p calls (State.initial bank)
    (keysMatch_initial d bank) (statusInv_initial bank)
  exact ⟨fun c k r hget => run_record_transition d p _ c hkeys hinv k r hget, hinv⟩

theorem record_transitions_only_from_open_witness :
    Reachable exDeps exParams (runCalls exDeps exParams (State.initial exBank0) exCalls) ∧
    ((∀ (c : Call) (k : Bytes) (r : AtomicSwap),
      GetAtomicSwap (runCalls exDeps exParams (State.initial exBank0) exCalls) k = some r →
      ∃ r1, GetAtomicSwap
          (c.run exDeps exParams
            (runCalls exDeps exParams (State.initial exBank0) exCalls)).st k = some r1 ∧
        (r1 = r ∨
         (∃ height from_ randomNumber, c = .claim height from_ k randomNumber ∧
            (c.run exDeps exParams
              (runCalls exDeps exParams (State.initial exBank0) exCalls)).err = none ∧
            r.Status = .Open ∧ r.ClosedBlock = 0 ∧
            r1 = { r with Status := .Completed, ClosedBlock := height }) ∨
         (∃ height from_, c = .refund height from_ k ∧
            (c.run exDeps exParams
              (runCalls exDeps exParams (State.initial exBank0) exCalls)).err = none ∧
            r.Status = .Open ∧ r.ClosedBlock = 0 ∧
            r1 = { r with Status := .Expired, ClosedBlock := height }))) ∧
    (∀ (k : Bytes) (r : AtomicSwap),
      GetAtomicSwap (runCalls exDeps exParams (State.initial exBank0) exCalls) k = some r →
      (r.Status = .Open → r.ClosedBlock = 0) ∧
      (r.Status = .Completed → r.ClosedBlock ≤ r.ExpireHeight) ∧
      (r.Status = .Expired → r.ClosedBlock > r.ExpireHeight))) ∧
    (GetAtomicSwap (runCalls exDeps exParams (State.initial exBank0) exCalls)
        (CalculateSwapID exDeps (CalculateRandomHash exDeps [15] 1000) [1] "")).map
      (fun r => (r.Status, r.ClosedBlock, r.ExpireHeight))
      = some (.Completed, 110, 120) :=
  ⟨⟨exBank0, exCalls, rfl⟩,
    record_transitions_only_from_open exDeps exParams
      (runCalls exDeps exParams (State.initial exBank0) exCalls) ⟨exBank0, exCalls, rfl⟩,
    by decide⟩

/-! ## The incremental lane: deposits -/

theorem sendCoins_neg_head (b : Bank) (src dst : Holder) (c : Coin) (rest : List Coin)
    (h : c.Amount < 0) : sendCoins b src dst (c :: rest) = none := by
  simp [sendCoins, sendCoin, h]

/-- C15. `DepositHTLT` returns an error and leaves the state as it was, the stored record
and all balances with it, whenever no record exists for the swap ID (the ID does not decode,
or no record is stored under it), or the first deposited coin's denom differs from the denom
of the record's first coin (the invalid-denom error), or the deposited amount is not
strictly positive: zero is refused by the check of the amount, a negative amount by the
ledger. -/
theorem deposit_rejects_missing_record_denom_or_amount (hd : HtltDeps) (s : HtltState)
    (from_ : Bytes) (swapID : String) (coins : List Coin) :
    ((∀ id, hd.HexEncodedStringToBytes swapID = some id → GetHTLT s id = none) →
      (DepositHTLT hd s from_ swapID coins).err ≠ none ∧
      (DepositHTLT hd s from_ swapID coins).st = s) ∧
    (∀ (id : Bytes) (htlt : HTLT) (htltCoin coin : Coin) (restH rest : List Coin),
      hd.HexEncodedStringToBytes swapID = some id → GetHTLT s id = some htlt →
      htlt.Amount = htltCoin :: restH → coins = coin :: rest →
      (htltCoin.Denom ≠ coin.Denom →
        (DepositHTLT hd s from_ swapID coins).err = some .InvalidCoinDenom ∧
        (DepositHTLT hd s from_ swapID coins).st = s) ∧
      (coin.Amount ≤ 0 →
        (DepositHTLT hd s from_ swapID coins).err ≠ none ∧
        (DepositHTLT hd s from_ swapID coins).st = s) ∧
      (htltCoin.Denom = coin.Denom → coin.Amount = 0 →
        (DepositHTLT hd s from_ swapID coins).err = some .AmountTooSmall) ∧
      (htltCoin.Denom = coin.Denom → coin.Amount < 0 →
        (DepositHTLT hd s from_ swapID coins).err = some .Internal)) := by
  constructor
  · intro hnone
    unfold DepositHTLT
    cases hdec : hd.HexEncodedStringToBytes swapID with
    | none => simp
    | some id => simp [hnone id hdec]
  · intro id htlt htltCoin coin restH rest hdec hget hamt hcoins
    subst hcoins
    have hzero : htltCoin.Denom = coin.Denom → coin.Amount = 0 →
        DepositHTLT hd s from_ swapID (coin :: rest)
          = { err := some .AmountTooSmall, st := s } := by
      intro hd1 h0
      unfold DepositHTLT
      simp [hdec, hget, hamt, hd1, h0]
    have hneg : htltCoin.Denom = coin.Denom → coin.Amount < 0 →
        DepositHTLT hd s from_ swapID (coin :: rest)
          = { err := some .Internal, st := s } := by
      intro hd1 h0
      have h1 : ¬ coin.Amount = 0 := by omega
      unfold DepositHTLT
      simp [hdec, hget, hamt, hd1, h1, sendCoins_neg_head _ _ _ _ _ h0]
    have hdenom : htltCoin.Denom ≠ coin.Denom →
        DepositHTLT hd s from_ swapID (coin :: rest)
          = { err := some .InvalidCoinDenom, st := s } := by
      intro hd1
      unfold DepositHTLT
      simp [hdec, hget, hamt, hd1]
    refine ⟨fun h => by rw [hdenom h]; exact ⟨rfl, rfl⟩, fun hle => ?_,
      fun h1 h0 => by rw [hzero h1 h0], fun h1 h0 => by rw [hneg h1 h0]⟩
    by_cases hd1 : htltCoin.Denom = coin.Denom
    · rcases lt_or_eq_of_le hle with h0 | h0
      · rw [hneg hd1 h0]; exact ⟨by simp, rfl⟩
      · rw [hzero hd1 h0]; exact ⟨by simp, rfl⟩
    · rw [hdenom hd1]; exact ⟨by simp, rfl⟩

theorem deposit_rejects_missing_record_denom_or_amount_witness :
    (exHtltDeps.HexEncodedStringToBytes "abcd" = some [171, 205] ∧
      GetHTLT exHtltState [171, 205] = some exHTLT ∧
      exHTLT.Amount = { Denom := "bnb", Amount := 50000 } :: [] ∧
      (∀ id, exHtltDeps.HexEncodedStringToBytes "abce" = some id →
        GetHTLT exHtltState id = none)) ∧
    ((DepositHTLT exHtltDeps exHtltState [1] "abce"
        [{ Denom := "bnb", Amount := 100 }]).err ≠ none ∧
      (DepositHTLT exHtltDeps exHtltState [1] "abce"
        [{ Denom := "bnb", Amount := 100 }]).st = exHtltState) ∧
    (DepositHTLT exHtltDeps exHtltState [1] "abcd"
        [{ Denom := "xyz", Amount := 3 }]).err = some .InvalidCoinDenom ∧
    (DepositHTLT exHtltDeps exHtltState [1] "abcd"
        [{ Denom := "bnb", Amount := 0 }]).err = some .AmountTooSmall ∧
    (DepositHTLT exHtltDeps exHtltState [1] "abcd"
        [{ Denom := "bnb", Amount := -5 }]).err = some .Internal ∧
    (DepositHTLT exHtltDeps exHtltState [1] "abcd"
        [{ Denom := "bnb", Amount := -5 }]).st = exHtltState :=
  have hnone : ∀ id, exHtltDeps.HexEncodedStringToBytes "abce" = some id →
      GetHTLT exHtltState id = none := by
    intro id h
    have h1 : id = [171, 206] := by
      have h2 : exHtltDeps.HexEncodedStringToBytes "abce" = some [171, 206] := by decide
      rw [h2] at h
      exact (Option.some.inj h).symm
    subst h1
    decide
  ⟨⟨by decide, by decide, by decide, hnone⟩,
    (deposit_rejects_missing_record_denom_or_amount exHtltDeps exHtltState [1] "abce"
      [{ Denom := "bnb", Amount := 100 }]).1 hnone,
    (((deposit_rejects_missing_record_denom_or_amount exHtltDeps exHtltState [1] "abcd"
      [{ Denom := "xyz", Amount := 3 }]).2 [171, 205] exHTLT
      { Denom := "bnb", Amount := 50000 } { Denom := "xyz", Amount := 3 } [] []
      (by decide) (by decide) (by decide) rfl).1 (by decide)).1,
    ((deposit_rejects_missing_record_denom_or_amount exHtltDeps exHtltState [1] "abcd"
      [{ Denom := "bnb", Amount := 0 }]).2 [171, 205] exHTLT
      { Denom := "bnb", Amount := 50000 } { Denom := "bnb", Amount := 0 } [] []
      (by decide) (by decide) (by decide) rfl).2.2.1 (by decide) (by decide),
    ((deposit_rejects_missing_record_denom_or_amount exHtltDeps exHtltState [1] "abcd"
      [{ Denom := "bnb", Amount := -5 }]).2 [171, 205] exHTLT
      { Denom := "bnb", Amount := 50000 } { Denom := "bnb", Amount := -5 } [] []
      (by decide) (by decide) (by decide) rfl).2.2.2 (by decide) (by decide),
    (((deposit_rejects_missing_record_denom_or_amount exHtltDeps exHtltState [1] "abcd"
      [{ Denom := "bnb", Amount := -5 }]).2 [171, 205] exHTLT
      { Denom := "bnb", Amount := 50000 } { Denom := "bnb", Amount := -5 } [] []
      (by decide) (by decide) (by decide) rfl).2.1 (by decide)).2⟩

theorem DepositHTLT_ok (hd : HtltDeps) (s : HtltState) (from_ : Bytes) (swapID : String)
    (coins : List Coin) (hok : (DepositHTLT hd s from_ swapID coins).err = none) :
    ∃ id htlt htltCoin restH coin rest bank,
      hd.HexEncodedStringToBytes swapID = some id ∧ GetHTLT s id = some htlt ∧
      htlt.Amount = htltCoin :: restH ∧ coins = coin :: rest ∧
      htltCoin.Denom = coin.Denom ∧ coin.Amount ≠ 0 ∧
      sendCoins s.bank (.account from_) .module coins = some bank ∧
      (DepositHTLT hd s from_ swapID coins).st
        = SetHTLT { s with bank := bank }
            { htlt with
              Amount := CoinsAdd htlt.Amount coins,
              ExpectedIncome :=
                hd.CoinsString (CoinsAdd ((hd.ParseCoins htlt.ExpectedIncome).getD []) coins) }
            id := by
  unfold DepositHTLT at hok ⊢
  cases hdec : hd.HexEncodedStringToBytes swapID with
  | none => simp [hdec] at hok
  | some id =>
    simp only [hdec] at hok ⊢
    cases hget : GetHTLT s id with
    | none => simp [hget] at hok
    | some htlt =>
      simp only [hget] at hok ⊢
      cases hamt : htlt.Amount with
      | nil => simp [hamt] at hok
      | cons htltCoin restH =>
        simp only [hamt] at hok ⊢
        cases coins with
        | nil => simp at hok
        | cons coin rest =>
          simp only at hok ⊢
          by_cases hd1 : htltCoin.Denom = coin.Denom
          swap
          · simp [hd1] at hok
          by_cases h0 : coin.Amount = 0
          · simp [hd1, h0] at hok
          cases hsend : sendCoins s.bank (.account from_) .module (coin :: rest) with
          | none => simp [hd1, h0, hsend] at hok
          | some bank =>
            refine ⟨id, htlt, htltCoin, restH, coin, rest, bank, rfl, hget, hamt, rfl, hd1, h0,
              rfl, ?_⟩
            simp [hd1, h0, hamt]

theorem CoinsAdd_single (dn : String) (a q : Int) (h : a + q ≠ 0) :
    CoinsAdd [{ Denom := dn, Amount := a }] [{ Denom := dn, Amount := q }]
      = [{ Denom := dn, Amount := a + q }] := by
  simp [CoinsAdd, coinsAddInto, h, removeZeroCoins]

theorem CoinsAdd_nil_single (dn : String) (q : Int) (h : q ≠ 0) :
    CoinsAdd [] [{ Denom := dn, Amount := q }] = [{ Denom := dn, Amount := q }] := by
  simp [CoinsAdd, removeZeroCoins, h]

/-- What a deposit of one coin of the record's denom leaves, for any parser and printer of
coins: with a positive quantity `q` below `2^63` (the event of the code needs the amount as
an `int64`) and a successful transfer the call returns `nil`, the
amount of the record grows by `q`, and the new `ExpectedIncome` is the string of the old one
plus `q` if the old one parses as one coin of the denom, and the string of `q` alone if the
old one does not parse. -/
theorem deposit_single_coin (hd : HtltDeps) (s : HtltState) (from_ : Bytes) (swapID : String)
    (id : Bytes) (htlt : HTLT) (dn : String) (a q : Int) (bank : Bank)
    (hdec : hd.HexEncodedStringToBytes swapID = some id) (hget : GetHTLT s id = some htlt)
    (hamt : htlt.Amount = [{ Denom := dn, Amount := a }]) (ha : 0 ≤ a) (hq : 0 < q)
    (hq64 : q < 2 ^ 63)
    (hsend : sendCoins s.bank (.account from_) .module [{ Denom := dn, Amount := q }]
      = some bank) :
    (DepositHTLT hd s from_ swapID [{ Denom := dn, Amount := q }]).err = none ∧
    (∃ income, GetHTLT (DepositHTLT hd s from_ swapID [{ Denom := dn, Amount := q }]).st id
        = some { htlt with Amount := [{ Denom := dn, Amount := a + q }],
                           ExpectedIncome := income } ∧
      (∀ e : Int, 0 ≤ e →
        hd.ParseCoins htlt.ExpectedIncome = some [{ Denom := dn, Amount := e }] →
        income = hd.CoinsString [{ Denom := dn, Amount := e + q }]) ∧
      (hd.ParseCoins htlt.ExpectedIncome = none →
        income = hd.CoinsString [{ Denom := dn, Amount := q }])) := by
  have hq0 : ¬ q = 0 := by omega
  have hr : DepositHTLT hd s from_ swapID [{ Denom := dn, Amount := q }]
      = { err := none,
          st := SetHTLT { s with bank := bank }
            { htlt with
              Amount := CoinsAdd htlt.Amount [{ Denom := dn, Amount := q }],
              ExpectedIncome := hd.CoinsString
                (CoinsAdd ((hd.ParseCoins htlt.ExpectedIncome).getD [])
                  [{ Denom := dn, Amount := q }]) } id } := by
    unfold DepositHTLT
    simp [hdec, hget, hamt, hq0, hsend]
  rw [hr]
  refine ⟨rfl, hd.CoinsString (CoinsAdd ((hd.ParseCoins htlt.ExpectedIncome).getD [])
    [{ Denom := dn, Amount := q }]), ?_, ?_, ?_⟩
  · simp only [GetHTLT, SetHTLT, kvGet_kvSet_self, hamt]
    rw [CoinsAdd_single dn a q (by omega)]
  · intro e he hparse
    simp only [hparse, Option.getD_some]
    rw [CoinsAdd_single dn e q (by omega)]
  · intro hparse
    simp only [hparse, Option.getD_none]
    rw [CoinsAdd_nil_single dn q hq0]

/-- C16, evaluated where it fails: the record of `TestMsgCreateHTLT`, 50000 bnb with the
expected income `bnb50000`, takes a deposit of 100 bnb.  The call returns `nil` and the
amount becomes 50100 bnb, but `bnb50000` is not in the format `sdk.ParseCoins` reads, the
error of the parse is dropped, and the expected income becomes `100bnb`, the deposit
alone. -/
theorem deposit_loses_unparsed_expectedIncome :
    (DepositHTLT exHtltDeps exHtltState [1] "abcd" [{ Denom := "bnb", Amount := 100 }]).err
      = none ∧
    exHtltDeps.ParseCoins exHTLT.ExpectedIncome = none ∧
    GetHTLT (DepositHTLT exHtltDeps exHtltState [1] "abcd"
        [{ Denom := "bnb", Amount := 100 }]).st [171, 205]
      = some { exHTLT with Amount := [{ Denom := "bnb", Amount := 50100 }],
                           ExpectedIncome := "100bnb" } := by
  refine ⟨by decide, by decide, by decide⟩

/-- C19, evaluated where it fails: a deposit of 100 bnb and 3 xyz into the record of 50000
bnb returns `nil`, and the stored amount then has two denoms; `ValidateAsset`, which
`AddHTLT` calls on its coins, refuses this coin list. -/
theorem deposit_accepts_second_denom :
    (DepositHTLT exHtltDeps exHtltState [1] "abcd"
      [{ Denom := "bnb", Amount := 100 }, { Denom := "xyz", Amount := 3 }]).err = none ∧
    (GetHTLT (DepositHTLT exHtltDeps exHtltState [1] "abcd"
      [{ Denom := "bnb", Amount := 100 }, { Denom := "xyz", Amount := 3 }]).st
        [171, 205]).map (fun h => h.Amount)
      = some [{ Denom := "bnb", Amount := 50100 }, { Denom := "xyz", Amount := 3 }] ∧
    ValidateAsset [{ Denom := "bnb", Amount := 100 }, { Denom := "xyz", Amount := 3 }]
      = some .Internal := by
  refine ⟨by decide, by decide, by decide⟩

/-- C20, evaluated where it fails: with an existing record and the empty coin list,
`DepositHTLT` reaches `coins[0]`, which is out of range: the call panics instead of
returning an error; `ValidateAsset`, which `AddHTLT` calls on its coins, refuses the empty
list. -/
theorem deposit_panics_on_empty_coins :
    GetHTLT exHtltState [171, 205] = some exHTLT ∧
    (DepositHTLT exHtltDeps exHtltState [1] "abcd" []).err = some .PanicIndexOutOfRange ∧
    ValidateAsset [] = some .Internal ∧
    ∀ (hd : HtltDeps) (s : HtltState) (from_ id : Bytes) (swapID : String) (htlt : HTLT),
      hd.HexEncodedStringToBytes swapID = some id → GetHTLT s id = some htlt →
      (DepositHTLT hd s from_ swapID []).err = some .PanicIndexOutOfRange := by
  refine ⟨by decide, by decide, by decide, ?_⟩
  intro hd s from_ id swapID htlt hdec hget
  unfold DepositHTLT
  simp only [hdec, hget]
  cases htlt.Amount <;> rfl

/-! ## The slot of the secret -/

theorem ClaimAtomicSwap_congr (d : Deps) (p : Params) (height : Int) (s : State)
    (from_ swapID r1 r2 : Bytes)
    (h : ∀ timestamp : Int, CalculateRandomHash d r1 timestamp
      = CalculateRandomHash d r2 timestamp) :
    ClaimAtomicSwap d p height s from_ swapID r1
      = ClaimAtomicSwap d p height s from_ swapID r2 := by
  unfold ClaimAtomicSwap
  simp only [h]

/-- C22. `CalculateRandomHash` depends on the secret only through its slot, the first
`RandomNumberLength` bytes of the secret filled up with zero bytes on the right: two secrets
with the same slot give the same commitment for every timestamp, and `ClaimAtomicSwap` then
returns the same error or `nil` and leaves the same state for both, so it accepts one exactly
when it accepts the other.  Two secrets that share their first `RandomNumberLength` bytes
have the same slot. -/
theorem calculateRandomHash_depends_on_slot (d : Deps) (r1 r2 : Bytes) :
    (r1.take d.RandomNumberLength ++ List.replicate (d.RandomNumberLength - r1.length) 0
        = r2.take d.RandomNumberLength ++ List.replicate (d.RandomNumberLength - r2.length) 0 →
      (∀ timestamp : Int,
        CalculateRandomHash d r1 timestamp = CalculateRandomHash d r2 timestamp) ∧
      (∀ (p : Params) (height : Int) (s : State) (from_ swapID : Bytes),
        ClaimAtomicSwap d p height s from_ swapID r1
          = ClaimAtomicSwap d p height s from_ swapID r2) ∧
      (∀ (p : Params) (height : Int) (s : State) (from_ swapID : Bytes),
        (ClaimAtomicSwap d p height s from_ swapID r1).err = none ↔
          (ClaimAtomicSwap d p height s from_ swapID r2).err = none)) ∧
    (d.RandomNumberLength ≤ r1.length → d.RandomNumberLength ≤ r2.length →
      r1.take d.RandomNumberLength = r2.take d.RandomNumberLength →
      r1.take d.RandomNumberLength ++ List.replicate (d.RandomNumberLength - r1.length) 0
        = r2.take d.RandomNumberLength
            ++ List.replicate (d.RandomNumberLength - r2.length) 0) := by
  constructor
  · intro hslot
    have hhash : ∀ timestamp : Int,
        CalculateRandomHash d r1 timestamp = CalculateRandomHash d r2 timestamp := by
      intro timestamp
      rw [CalculateRandomHash_eq, CalculateRandomHash_eq, hslot]
    refine ⟨hhash, fun p height s from_ swapID =>
      ClaimAtomicSwap_congr d p height s from_ swapID r1 r2 hhash, fun p height s from_ swapID => ?_⟩
    rw [ClaimAtomicSwap_congr d p height s from_ swapID r1 r2 hhash]
  · intro h1 h2 htake
    rw [htake, Nat.sub_eq_zero_of_le h1, Nat.sub_eq_zero_of_le h2]

theorem calculateRandomHash_depends_on_slot_witness :
    (([15] : Bytes).take exDeps.RandomNumberLength
        ++ List.replicate (exDeps.RandomNumberLength - ([15] : Bytes).length) 0
      = ([15, 0] : Bytes).take exDeps.RandomNumberLength
        ++ List.replicate (exDeps.RandomNumberLength - ([15, 0] : Bytes).length) 0) ∧
    ((∀ timestamp : Int,
        CalculateRandomHash exDeps [15] timestamp = CalculateRandomHash exDeps [15, 0] timestamp) ∧
      (∀ (p : Params) (height : Int) (s : State) (from_ swapID : Bytes),
        ClaimAtomicSwap exDeps p height s from_ swapID [15]
          = ClaimAtomicSwap exDeps p height s from_ swapID [15, 0]) ∧
      (∀ (p : Params) (height : Int) (s : State) (from_ swapID : Bytes),
        (ClaimAtomicSwap exDeps p height s from_ swapID [15]).err = none ↔
          (ClaimAtomicSwap exDeps p height s from_ swapID [15, 0]).err = none)) ∧
    (ClaimAtomicSwap exDeps exParams 100 exState [3] (exSwap.GetSwapID exDeps) [15, 0]).err
      = none :=
  ⟨by decide,
    (calculateRandomHash_depends_on_slot exDeps [15] [15, 0]).1 (by decide),
    by decide⟩

/-! ## Create: where the timestamp check lets a call through -/

theorem timestamp_test_holds (height timestamp : Int) (hheight : height > 1800)
    (hfit : height + 900 < 2 ^ 63) :
    timestamp > sub64 height 1800 ∨ timestamp < add64 height 900 := by
  have hsub : sub64 height 1800 = height - 1800 := by
    unfold sub64
    apply wrap64_of_isInt64
    constructor <;> omega
  have hadd : add64 height 900 = height + 900 := by
    unfold add64
    apply wrap64_of_isInt64
    constructor <;> omega
  rw [hsub, hadd]
  omega

/-- C21, as it stands, fails: at the block height `2^63 - 1` the sum `h + 900` wraps around
in `int64`, the test `t > h - 1800 || t < h + 900` is false for the timestamp 0, and a
`CreateAtomicSwap` at that height returns `nil` and inserts its record. -/
theorem create_succeeds_at_wrapping_height :
    (9223372036854775807 : Int) > 1800 ∧ IsInt64 9223372036854775807 ∧
    ¬ ((0 : Int) > sub64 9223372036854775807 1800 ∨ (0 : Int) < add64 9223372036854775807 900) ∧
    (CreateAtomicSwap exDeps exParams 9223372036854775807 (State.initial exBank0)
      (CalculateRandomHash exDeps [15] 0) 0 20 [1] [2] "" ""
      [{ Denom := "bnb", Amount := 50000 }] "bnb50000").err = none ∧
    (GetAtomicSwap (CreateAtomicSwap exDeps exParams 9223372036854775807
      (State.initial exBank0) (CalculateRandomHash exDeps [15] 0) 0 20 [1] [2] "" ""
      [{ Denom := "bnb", Amount := 50000 }] "bnb50000").st
      (CalculateSwapID exDeps (CalculateRandomHash exDeps [15] 0) [1] "")).isSome = true := by
  refine ⟨by decide, by unfold IsInt64; norm_num, by decide, by decide, by decide⟩

/-- C21, amended. `CreateAtomicSwap` can return `nil` only when `currentHeight <= 1800` and
`timestamp < 1800`, or when `currentHeight + 900` does not fit in `int64`.  For every block
height `h > 1800` with `h + 900 < 2^63` and every timestamp `t`, the test
`t > h - 1800 || t < h + 900` holds, so every `CreateAtomicSwap` call at such a height
returns an error and leaves the state as it was, no record inserted; and at heights
`<= 1800` every call with `timestamp >= 1800` returns an error and leaves the state as it
was. -/
theorem create_succeeds_only_at_low_height (d : Deps) (p : Params) (height : Int) (s : State)
    (randomNumberHash : Bytes) (timestamp heightSpan : Int)
    (sender recipient : Bytes) (senderOtherChain recipientOtherChain : String)
    (amount : List Coin) (expectedIncome : String) :
    ((CreateAtomicSwap d p height s randomNumberHash timestamp heightSpan sender recipient
        senderOtherChain recipientOtherChain amount expectedIncome).err = none →
      (height ≤ 1800 ∧ timestamp < 1800) ∨ ¬ height + 900 < 2 ^ 63) ∧
    (height > 1800 → height + 900 < 2 ^ 63 →
      (timestamp > sub64 height 1800 ∨ timestamp < add64 height 900) ∧
      (CreateAtomicSwap d p height s randomNumberHash timestamp heightSpan sender recipient
        senderOtherChain recipientOtherChain amount expectedIncome).err ≠ none ∧
      (CreateAtomicSwap d p height s randomNumberHash timestamp heightSpan sender recipient
        senderOtherChain recipientOtherChain amount expectedIncome).st = s) ∧
    (height ≤ 1800 → timestamp ≥ 1800 →
      (CreateAtomicSwap d p height s randomNumberHash timestamp heightSpan sender recipient
        senderOtherChain recipientOtherChain amount expectedIncome).err ≠ none ∧
      (CreateAtomicSwap d p height s randomNumberHash timestamp heightSpan sender recipient
        senderOtherChain recipientOtherChain amount expectedIncome).st = s) := by
  have hcases := CreateAtomicSwap_cases d p height s randomNumberHash timestamp heightSpan
    sender recipient senderOtherChain recipientOtherChain amount expectedIncome
  have hhigh : height > 1800 → height + 900 < 2 ^ 63 →
      (CreateAtomicSwap d p height s randomNumberHash timestamp heightSpan sender recipient
        senderOtherChain recipientOtherChain amount expectedIncome).err ≠ none ∧
      (CreateAtomicSwap d p height s randomNumberHash timestamp heightSpan sender recipient
        senderOtherChain recipientOtherChain amount expectedIncome).st = s := by
    intro h1 h2
    rcases hcases with h | ⟨amount0, s1, -, -, -, hts, -⟩
    · exact h
    · exfalso
      have := timestamp_test_holds height timestamp h1 h2
      simp [h1, this] at hts
  have hlow : height ≤ 1800 → timestamp ≥ 1800 →
      (CreateAtomicSwap d p height s randomNumberHash timestamp heightSpan sender recipient
        senderOtherChain recipientOtherChain amount expectedIncome).err ≠ none ∧
      (CreateAtomicSwap d p height s randomNumberHash timestamp heightSpan sender recipient
        senderOtherChain recipientOtherChain amount expectedIncome).st = s := by
    intro h1 h2
    rcases hcases with h | ⟨amount0, s1, -, -, -, hts, -⟩
    · exact h
    · exfalso
      have h3 : ¬ height > 1800 := by omega
      simp [h3, h2] at hts
  refine ⟨fun hok => ?_, fun h1 h2 => ⟨timestamp_test_holds height timestamp h1 h2, hhigh h1 h2⟩,
    hlow⟩
  by_cases hfit : height + 900 < 2 ^ 63
  · left
    by_cases hh : height > 1800
    · exact absurd hok (hhigh hh hfit).1
    · by_cases ht : timestamp ≥ 1800
      · exact absurd hok (hlow (by omega) ht).1
      · omega
  · exact Or.inr hfit

theorem create_succeeds_only_at_low_height_witness :
    ((2000 : Int) > 1800 ∧ (2000 : Int) + 900 < 2 ^ 63 ∧ (100 : Int) ≤ 1800 ∧
      (1000 : Int) < 1800 ∧
      (CreateAtomicSwap exDeps exParams 100 (State.initial exBank0)
        (CalculateRandomHash exDeps [15] 1000) 1000 20 [1] [2] "" ""
        [{ Denom := "bnb", Amount := 50000 }] "bnb50000").err = none) ∧
    ((100 : Int) ≤ 1800 ∧ (1000 : Int) < 1800 ∨ ¬ (100 : Int) + 900 < 2 ^ 63) ∧
    (((1000 : Int) > sub64 2000 1800 ∨ (1000 : Int) < add64 2000 900) ∧
      (CreateAtomicSwap exDeps exParams 2000 (State.initial exBank0)
        (CalculateRandomHash exDeps [15] 1000) 1000 20 [1] [2] "" ""
        [{ Denom := "bnb", Amount := 50000 }] "bnb50000").err ≠ none ∧
      (CreateAtomicSwap exDeps exParams 2000 (State.initial exBank0)
        (CalculateRandomHash exDeps [15] 1000) 1000 20 [1] [2] "" ""
        [{ Denom := "bnb", Amount := 50000 }] "bnb50000").st = State.initial exBank0) :=
  ⟨⟨by decide, by decide, by decide, by decide, by decide⟩,
    (create_succeeds_only_at_low_height exDeps exParams 100 (State.initial exBank0)
      (CalculateRandomHash exDeps [15] 1000) 1000 20 [1] [2] "" ""
      [{ Denom := "bnb", Amount := 50000 }] "bnb50000").1 (by decide),
    (create_succeeds_only_at_low_height exDeps exParams 2000 (State.initial exBank0)
      (CalculateRandomHash exDeps [15] 1000) 1000 20 [1] [2] "" ""
      [{ Denom := "bnb", Amount := 50000 }] "bnb50000").2.1 (by decide) (by decide)⟩

/-! ## Fund safety -/

theorem kvGet_mem {κ ν : Type} [DecidableEq κ] (l : List (κ × ν)) (k : κ) (v : ν)
    (h : kvGet l k = some v) : (k, v) ∈ l := by
  induction l with
  | nil => simp [kvGet] at h
  | cons x rest ih =>
    obtain ⟨k0, v0⟩ := x
    simp only [kvGet] at h
    split_ifs at h with hk
    · simp only [Option.some.injEq] at h
      subst hk; subst h
      exact List.mem_cons_self _ _
    · exact List.mem_cons_of_mem _ (ih h)

theorem mem_kvSet {κ ν : Type} [DecidableEq κ] (l : List (κ × ν)) (k : κ) (v : ν)
    (e : κ × ν) (h : e ∈ kvSet l k v) : e ∈ l ∨ e = (k, v) := by
  induction l with
  | nil =>
    simp only [kvSet, List.mem_singleton] at h
    exact Or.inr h
  | cons x rest ih =>
    obtain ⟨k0, v0⟩ := x
    simp only [kvSet] at h
    split_ifs at h with hk
    · rcases List.mem_cons.mp h with h | h
      · exact Or.inr h
      · exact Or.inl (List.mem_cons_of_mem _ h)
    · rcases List.mem_cons.mp h with h | h
      · exact Or.inl (h ▸ List.mem_cons_self _ _)
      · rcases ih h with h | h
        · exact Or.inl (List.mem_cons_of_mem _ h)
        · exact Or.inr h

theorem keys_kvSet {κ ν : Type} [DecidableEq κ] (l : List (κ × ν)) (k : κ) (v : ν) :
    (kvSet l k v).map Prod.fst
      = if (kvGet l k).isSome then l.map Prod.fst else l.map Prod.fst ++ [k] := by
  induction l with
  | nil => simp [kvSet, kvGet]
  | cons x rest ih =>
    obtain ⟨k0, v0⟩ := x
    by_cases hk : k0 = k
    · subst hk
      simp [kvSet, kvGet]
    · simp only [kvSet, kvGet, hk, if_false, List.map_cons, ih]
      split_ifs <;> simp

theorem kvGet_none_not_mem {κ ν : Type} [DecidableEq κ] (l : List (κ × ν)) (k : κ)
    (h : kvGet l k = none) : k ∉ l.map Prod.fst := by
  induction l with
  | nil => simp
  | cons x rest ih =>
    obtain ⟨k0, v0⟩ := x
    simp only [kvGet] at h
    split_ifs at h with hk
    simp only [List.map_cons, List.mem_cons, not_or]
    exact ⟨fun h1 => hk h1.symm, ih h⟩

theorem nodup_kvSet {κ ν : Type} [DecidableEq κ] (l : List (κ × ν)) (k : κ) (v : ν)
    (h : (l.map Prod.fst).Nodup) : ((kvSet l k v).map Prod.fst).Nodup := by
  rw [keys_kvSet]
  cases hg : kvGet l k with
  | some v0 => simpa using h
  | none =>
    simp only [Option.isSome_none, Bool.false_eq_true, if_false]
    rw [List.nodup_append]
    refine ⟨h, List.nodup_singleton _, ?_⟩
    intro a ha hb
    rw [List.mem_singleton] at hb
    subst hb
    exact kvGet_none_not_mem l a hg ha

theorem openAmount_kvSet_absent (dn : String) (l : List (Bytes × AtomicSwap)) (k : Bytes)
    (r : AtomicSwap) (h : kvGet l k = none) :
    openAmount dn (kvSet l k r) = openAmount dn l + lockedIn dn r := by
  induction l with
  | nil => simp [kvSet, openAmount]
  | cons x rest ih =>
    obtain ⟨k0, v0⟩ := x
    simp only [kvGet] at h
    split_ifs at h with hk
    simp only [kvSet, hk, if_false, openAmount, ih h]
    ring

theorem openAmount_kvSet_present (dn : String) (l : List (Bytes × AtomicSwap)) (k : Bytes)
    (r0 r : AtomicSwap) (h : kvGet l k = some r0) :
    openAmount dn (kvSet l k r) = openAmount dn l - lockedIn dn r0 + lockedIn dn r := by
  induction l with
  | nil => simp [kvGet] at h
  | cons x rest ih =>
    obtain ⟨k0, v0⟩ := x
    simp only [kvGet] at h
    split_ifs at h with hk
    · simp only [Option.some.injEq] at h
      subst h
      simp only [kvSet, hk, if_true, openAmount]
      ring
    · simp only [kvSet, hk, if_false, openAmount, ih h]
      ring

theorem lockedIn_nonneg (dn : String) (r : AtomicSwap)
    (h : ∃ c : Coin, r.Amount = [c] ∧ 0 ≤ c.Amount) : 0 ≤ lockedIn dn r := by
  obtain ⟨c, hc, h0⟩ := h
  unfold lockedIn
  rw [hc]
  simp only [amountOf, add_zero]
  split_ifs <;> omega

theorem lockedIn_le_openAmount (dn : String) (l : List (Bytes × AtomicSwap))
    (hnn : ∀ e ∈ l, ∃ c : Coin, e.2.Amount = [c] ∧ 0 ≤ c.Amount)
    (e : Bytes × AtomicSwap) (he : e ∈ l) : lockedIn dn e.2 ≤ openAmount dn l := by
  induction l with
  | nil => cases he
  | cons x rest ih =>
    obtain ⟨k0, v0⟩ := x
    have hrest : ∀ e ∈ rest, ∃ c : Coin, e.2.Amount = [c] ∧ 0 ≤ c.Amount :=
      fun e he => hnn e (List.mem_cons_of_mem _ he)
    have hsum : ∀ l2 : List (Bytes × AtomicSwap),
        (∀ e ∈ l2, ∃ c : Coin, e.2.Amount = [c] ∧ 0 ≤ c.Amount) → 0 ≤ openAmount dn l2 := by
      intro l2
      induction l2 with
      | nil => intro _; simp [openAmount]
      | cons y r2 ih2 =>
        intro h2
        obtain ⟨k1, v1⟩ := y
        have h3 := lockedIn_nonneg dn v1 (h2 (k1, v1) (List.mem_cons_self _ _))
        have h4 := ih2 (fun e he => h2 e (List.mem_cons_of_mem _ he))
        simp only [openAmount]
        omega
    simp only [openAmount]
    rcases List.mem_cons.mp he with h | h
    · subst h
      have := hsum rest hrest
      simp only
      omega
    · have h1 := ih hrest h
      have h2 := lockedIn_nonneg dn v0 (hnn (k0, v0) (List.mem_cons_self _ _))
      omega

theorem fundInv_of_eq (d : Deps) (s s1 : State) (hsw : s1.swaps = s.swaps)
    (hb : s1.bank = s.bank) (h : FundInv d s) : FundInv d s1 := by
  obtain ⟨h1, h2, h3, h4⟩ := h
  refine ⟨by rw [hsw]; exact h1, ?_, by rw [hsw]; exact h3, by rw [hsw, hb]; exact h4⟩
  intro k r hk
  exact h2 k r (by simpa [GetAtomicSwap, hsw] using hk)

theorem fundInv_escrow_covers (d : Deps) (s : State) (h : FundInv d s) (k : Bytes)
    (r : AtomicSwap) (hget : GetAtomicSwap s k = some r) (hopen : r.Status = .Open)
    (dst : Holder) : ∃ b, sendCoins s.bank .module dst r.Amount = some b := by
  obtain ⟨-, -, h3, h4⟩ := h
  have hmem := kvGet_mem s.swaps k r hget
  obtain ⟨c, hc, h0⟩ := h3 (k, r) hmem
  simp only at hc
  have hle := lockedIn_le_openAmount c.Denom s.swaps h3 (k, r) hmem
  rw [← h4 c.Denom] at hle
  simp only [lockedIn, hopen, if_true, hc, amountOf, add_zero] at hle
  rw [hc]
  have h1 : ¬ c.Amount < 0 := by omega
  have h2 : ¬ s.bank .module c.Denom < c.Amount := by omega
  simp [sendCoins, sendCoin, h1, h2]

theorem run_fundInv (d : Deps) (p : Params) (s : State) (c : Call) (h : FundInv d s) :
    FundInv d (c.run d p s).st := by
  have hkeys := run_keysMatch d p s c h.2.1
  obtain ⟨h1, h2, h3, h4⟩ := h
  cases c with
  | create height randomNumberHash timestamp heightSpan sender recipient senderOtherChain
      recipientOtherChain amount expectedIncome =>
    simp only [Call.run] at hkeys ⊢
    rcases CreateAtomicSwap_cases d p height s randomNumberHash timestamp heightSpan sender
      recipient senderOtherChain recipientOtherChain amount expectedIncome with
      ⟨-, hst⟩ | ⟨amount0, s1, hamt, hnone, -, -, -, -, hs1, hrest⟩
    · rw [hst]; exact ⟨h1, h2, h3, h4⟩
    · have hsw : s1.swaps = s.swaps := by rw [hs1]; split <;> rfl
      have hbk : s1.bank = s.bank := by rw [hs1]; split <;> rfl
      rcases hrest with ⟨e, -, -, hst⟩ | ⟨-, -, -, hst⟩ | ⟨-, b, hsend, -, hst⟩
      · rw [hst]; exact fundInv_of_eq d s s1 hsw hbk ⟨h1, h2, h3, h4⟩
      · rw [hst]; exact fundInv_of_eq d s s1 hsw hbk ⟨h1, h2, h3, h4⟩
      · rw [hst] at hkeys ⊢
        refine ⟨?_, hkeys, ?_, ?_⟩
        · simp only [SetAtomicSwap, hsw]
          exact nodup_kvSet _ _ _ h1
        · intro e he
          simp only [SetAtomicSwap, hsw] at he
          rcases mem_kvSet _ _ _ _ he with he | he
          · exact h3 e he
          · subst he
            subst hamt
            exact ⟨amount0, rfl,
              sendCoins_some_nonneg _ _ _ _ _ hsend amount0 (List.mem_singleton.mpr rfl)⟩
        · intro dn
          simp only [SetAtomicSwap, hsw]
          rw [openAmount_kvSet_absent dn s.swaps _ _ hnone,
            sendCoins_balance (.account sender) .module (by simp) _ _ _ hsend .module dn,
            h4 dn]
          simp [lockedIn, NewAtomicSwap]
  | claim height from_ swapID randomNumber =>
    simp only [Call.run] at hkeys ⊢
    rcases ClaimAtomicSwap_cases d p height s from_ swapID randomNumber with
      ⟨-, -, hst⟩ | ⟨record, amount0, rest, hget, hopen, -, -, -, -, hrest⟩
    · rw [hst]; exact ⟨h1, h2, h3, h4⟩
    · rcases hrest with ⟨-, -, hst⟩ | ⟨b, hsend, -, hst⟩
      · rw [hst]
        exact fundInv_of_eq d s _ (IncrementAssetSupply_swaps p s amount0)
          (IncrementAssetSupply_bank p s amount0) ⟨h1, h2, h3, h4⟩
      · have hkey : record.GetSwapID d = swapID := h2 swapID record hget
        rw [hst] at hkeys ⊢
        rw [hkey]
        refine ⟨?_, by rw [hkey] at hkeys; exact hkeys, ?_, ?_⟩
        · simp only [SetAtomicSwap, IncrementAssetSupply_swaps]
          exact nodup_kvSet _ _ _ h1
        · intro e he
          simp only [SetAtomicSwap, IncrementAssetSupply_swaps] at he
          rcases mem_kvSet _ _ _ _ he with he | he
          · exact h3 e he
          · subst he
            exact h3 (swapID, record) (kvGet_mem _ _ _ hget)
        · intro dn
          simp only [SetAtomicSwap, IncrementAssetSupply_swaps]
          rw [openAmount_kvSet_present dn s.swaps _ record _ hget,
            sendCoins_balance .module (.account record.Recipient) (by simp) _ _ _ hsend
              .module dn, h4 dn]
          simp [lockedIn, hopen]
  | refund height from_ swapID =>
    simp only [Call.run] at hkeys ⊢
    rcases RefundAtomicSwap_cases d height s from_ swapID with
      ⟨-, hst⟩ | ⟨record, b, hget, hopen, -, hsend, -, hst⟩
    · rw [hst]; exact ⟨h1, h2, h3, h4⟩
    · have hkey : record.GetSwapID d = swapID := h2 swapID record hget
      rw [hst] at hkeys ⊢
      rw [hkey]
      refine ⟨?_, by rw [hkey] at hkeys; exact hkeys, ?_, ?_⟩
      · simp only [SetAtomicSwap]
        exact nodup_kvSet _ _ _ h1
      · intro e he
        simp only [SetAtomicSwap] at he
        rcases mem_kvSet _ _ _ _ he with he | he
        · exact h3 e he
        · subst he
          exact h3 (swapID, record) (kvGet_mem _ _ _ hget)
      · intro dn
        simp only [SetAtomicSwap]
        rw [openAmount_kvSet_present dn s.swaps _ record _ hget,
          sendCoins_balance .module (.account record.Sender) (by simp) _ _ _ hsend
            .module dn, h4 dn]
        simp [lockedIn, hopen]

theorem runCalls_fundInv (d : Deps) (p : Params) (calls : List Call) :
    ∀ s : State, FundInv d s → FundInv d (runCalls d p s calls) := by
  induction calls with
  | nil => intro s h; exact h
  | cons c rest ih => intro s h; exact ih _ (run_fundInv d p s c h)

theorem fundInv_initial (d : Deps) (bank : Bank) (hempty : ∀ dn : String, bank .module dn = 0) :
    FundInv d (State.initial bank) := by
  refine ⟨by simp [State.initial], keysMatch_initial d bank, ?_, ?_⟩
  · intro e he
    simp [State.initial] at he
  · intro dn
    simp [State.initial, openAmount, hempty dn]

theorem ClaimAtomicSwap_panic (d : Deps) (p : Params) (height : Int) (s : State)
    (from_ swapID randomNumber : Bytes)
    (h : (ClaimAtomicSwap d p height s from_ swapID randomNumber).err
      = some .PanicIndexOutOfRange) :
    ∃ record, GetAtomicSwap s swapID = some record ∧ record.Amount = [] := by
  cases hg : GetAtomicSwap s swapID with
  | none =>
    unfold ClaimAtomicSwap at h
    simp [hg] at h
  | some record =>
    refine ⟨record, rfl, ?_⟩
    cases hamt : record.Amount with
    | nil => rfl
    | cons amount0 rest =>
      exfalso
      rcases ClaimAtomicSwap_cases d p height s from_ swapID randomNumber with
        ⟨-, -, -⟩ | ⟨record1, a0, r0, -, -, -, -, -, -, hrest⟩
      · by_cases ho : record.Status = .Open
        swap
        · unfold ClaimAtomicSwap at h
          simp [hg, ho] at h
        by_cases hh : height > record.ExpireHeight
        · unfold ClaimAtomicSwap at h
          simp [hg, ho, hh] at h
        by_cases hsec : CalculateSwapID d (CalculateRandomHash d randomNumber record.Timestamp)
            record.Sender record.SenderOtherChain = record.GetSwapID d
        swap
        · unfold ClaimAtomicSwap at h
          simp [hg, ho, hh, hsec] at h
        unfold ClaimAtomicSwap at h
        simp only [hg, ho, hh, hsec, hamt, ne_eq, not_true_eq_false, if_false] at h
        rcases hinc : IncrementAssetSupply p s amount0 with ⟨e1, s1⟩
        rw [hinc] at h
        cases e1 with
        | none =>
          simp only [SendCoinsFromModuleToAccount] at h
          cases hsend : sendCoins s1.bank .module (.account record.Recipient)
              (amount0 :: rest) with
          | none => simp [hsend] at h
          | some b => simp [hsend] at h
        | some e =>
          simp only [Option.some.injEq] at h
          subst h
          unfold IncrementAssetSupply at hinc
          cases h1 : GetAssetSupply s amount0.Denom with
          | none => simp [h1] at hinc
          | some cur =>
            simp only [h1] at hinc
            cases h2 : ValidateProposedIncrease p s amount0 with
            | none => simp [h2] at hinc
            | some e2 =>
              simp only [h2, Ret.mk.injEq, Option.some.injEq] at hinc
              obtain ⟨he2, -⟩ := hinc
              subst he2
              unfold ValidateProposedIncrease at h2
              simp only [h1] at h2
              split at h2
              · simp at h2
              · split_ifs at h2
                simp at h2
      · rcases hrest with ⟨-, he, -⟩ | ⟨b, -, he, -⟩
        · rw [he] at h; cases h
        · rw [he] at h; cases h

/-- C23. With the ledger a balance map with atomic transfers: in every state reached from
an empty state whose module account holds nothing, by any sequence of `CreateAtomicSwap`,
`ClaimAtomicSwap` and `RefundAtomicSwap` calls, every stored record holds exactly one coin
and, for every denom, the balance of the module account is the sum of the amounts of the
records whose status is `Open` (the registry has no key twice).  Hence `Amount[0]` in
`ClaimAtomicSwap` is always in range, the escrow transfer of an `Open` record to any account
succeeds, and neither `ClaimAtomicSwap` nor `RefundAtomicSwap` returns the error of the
transfer. -/
theorem escrow_equals_open_swaps (d : Deps) (p : Params) (bank : Bank) (calls : List Call)
    (hempty : ∀ dn : String, bank .module dn = 0) :
    (∀ (k : Bytes) (r : AtomicSwap),
      GetAtomicSwap (runCalls d p (State.initial bank) calls) k = some r →
      ∃ c : Coin, r.Amount = [c]) ∧
    (∀ dn : String,
      (runCalls d p (State.initial bank) calls).bank .module dn
        = openAmount dn (runCalls d p (State.initial bank) calls).swaps) ∧
    ((runCalls d p (State.initial bank) calls).swaps.map Prod.fst).Nodup ∧
    (∀ (height : Int) (from_ swapID randomNumber : Bytes),
      (ClaimAtomicSwap d p height (runCalls d p (State.initial bank) calls) from_ swapID
        randomNumber).err ≠ some .PanicIndexOutOfRange ∧
      (ClaimAtomicSwap d p height (runCalls d p (State.initial bank) calls) from_ swapID
        randomNumber).err ≠ some .TransferFailed) ∧
    (∀ (height : Int) (from_ swapID : Bytes),
      (RefundAtomicSwap d height (runCalls d p (State.initial bank) calls) from_ swapID).err
        ≠ some .TransferFailed) ∧
    (∀ (k : Bytes) (r : AtomicSwap) (recipient : Bytes),
      GetAtomicSwap (runCalls d p (State.initial bank) calls) k = some r →
      r.Status = .Open →
      (SendCoinsFromModuleToAccount (runCalls d p (State.initial bank) calls) recipient
        r.Amount).err = none) := by
  have hinv := runCalls_fundInv d p calls (State.initial bank) (fundInv_initial d bank hempty)
  generalize runCalls d p (State.initial bank) calls = s at hinv
  have hcover := fundInv_escrow_covers d s hinv
  obtain ⟨h1, h2, h3, h4⟩ := hinv
  refine ⟨?_, h4, h1, ?_, ?_, ?_⟩
  · intro k r hget
    obtain ⟨c, hc, -⟩ := h3 (k, r) (kvGet_mem _ _ _ hget)
    exact ⟨c, hc⟩
  · intro height from_ swapID randomNumber
    constructor
    · intro hp
      obtain ⟨record, hget, hnil⟩ := ClaimAtomicSwap_panic d p height s from_ swapID
        randomNumber hp
      obtain ⟨c, hc, -⟩ := h3 (swapID, record) (kvGet_mem _ _ _ hget)
      simp only at hc
      rw [hnil] at hc
      cases hc
    · intro ht
      rcases ClaimAtomicSwap_cases d p height s from_ swapID randomNumber with
        ⟨-, hne, -⟩ | ⟨record, amount0, rest, hget, hopen, -, -, -, -, hrest⟩
      · exact hne ht
      · rcases hrest with ⟨hsend, -, -⟩ | ⟨b, -, he, -⟩
        · obtain ⟨b, hb⟩ := hcover swapID record hget hopen (.account record.Recipient)
          rw [hb] at hsend
          cases hsend
        · rw [he] at ht; cases ht
  · intro height from_ swapID ht
    cases hg : GetAtomicSwap s swapID with
    | none =>
      unfold RefundAtomicSwap at ht
      simp [hg] at ht
    | some record =>
      by_cases ho : record.Status = .Open
      swap
      · unfold RefundAtomicSwap at ht
        simp [hg, ho] at ht
      by_cases hh : height ≤ record.ExpireHeight
      · unfold RefundAtomicSwap at ht
        simp [hg, ho, hh] at ht
      obtain ⟨b, hb⟩ := hcover swapID record hg ho (.account record.Sender)
      unfold RefundAtomicSwap at ht
      simp [hg, ho, hh, SendCoinsFromModuleToAccount, hb] at ht
  · intro k r recipient hget hopen
    obtain ⟨b, hb⟩ := hcover k r hget hopen (.account recipient)
    simp [SendCoinsFromModuleToAccount, hb]

theorem escrow_equals_open_swaps_witness :
    (∀ dn : String, exBank0 .module dn = 0) ∧
    ((∀ (k : Bytes) (r : AtomicSwap),
      GetAtomicSwap (runCalls exDeps exParams (State.initial exBank0) (exCalls.take 1)) k
        = some r →
      ∃ c : Coin, r.Amount = [c]) ∧
    (∀ dn : String,
      (runCalls exDeps exParams (State.initial exBank0) (exCalls.take 1)).bank .module dn
        = openAmount dn
            (runCalls exDeps exParams (State.initial exBank0) (exCalls.take 1)).swaps) ∧
    ((runCalls exDeps exParams (State.initial exBank0) (exCalls.take 1)).swaps.map
      Prod.fst).Nodup ∧
    (∀ (height : Int) (from_ swapID randomNumber : Bytes),
      (ClaimAtomicSwap exDeps exParams height
        (runCalls exDeps exParams (State.initial exBank0) (exCalls.take 1)) from_ swapID
        randomNumber).err ≠ some .PanicIndexOutOfRange ∧
      (ClaimAtomicSwap exDeps exParams height
        (runCalls exDeps exParams (State.initial exBank0) (exCalls.take 1)) from_ swapID
        randomNumber).err ≠ some .TransferFailed) ∧
    (∀ (height : Int) (from_ swapID : Bytes),
      (RefundAtomicSwap exDeps height
        (runCalls exDeps exParams (State.initial exBank0) (exCalls.take 1)) from_
        swapID).err ≠ some .TransferFailed) ∧
    (∀ (k : Bytes) (r : AtomicSwap) (recipient : Bytes),
      GetAtomicSwap (runCalls exDeps exParams (State.initial exBank0) (exCalls.take 1)) k
        = some r →
      r.Status = .Open →
      (SendCoinsFromModuleToAccount
        (runCalls exDeps exParams (State.initial exBank0) (exCalls.take 1)) recipient
        r.Amount).err = none)) ∧
    (runCalls exDeps exParams (State.initial exBank0) (exCalls.take 1)).bank .module "bnb"
      = 50000 ∧
    openAmount "bnb" (runCalls exDeps exParams (State.initial exBank0) (exCalls.take 1)).swaps
      = 50000 ∧
    (runCalls exDeps exParams (State.initial exBank0) exCalls).bank .module "bnb" = 0 ∧
    openAmount "bnb" (runCalls exDeps exParams (State.initial exBank0) exCalls).swaps = 0 :=
  ⟨fun dn => by simp [exBank0],
    escrow_equals_open_swaps exDeps exParams exBank0 (exCalls.take 1)
      (fun dn => by simp [exBank0]),
    by decide, by decide, by decide, by decide⟩

/-! ## Claim: a failed call in a reachable state -/

/-- C9. In every state reached from an empty state whose module account holds nothing, by
any sequence of `CreateAtomicSwap`, `ClaimAtomicSwap` and `RefundAtomicSwap` calls: whenever
`ClaimAtomicSwap` returns an error, the state after the call is the state before it, so the
swap record is stored as it was and every asset supply is unchanged.  The case of a failed
transfer from the module account to the recipient is among them: in such a state the
transfer of an `Open` record does not fail, and the error of the transfer is never
returned. -/
theorem claim_error_leaves_reachable_state (d : Deps) (p : Params) (bank : Bank)
    (calls : List Call) (height : Int) (from_ swapID randomNumber : Bytes)
    (hempty : ∀ dn : String, bank .module dn = 0)
    (herr : (ClaimAtomicSwap d p height (runCalls d p (State.initial bank) calls) from_
      swapID randomNumber).err ≠ none) :
    (ClaimAtomicSwap d p height (runCalls d p (State.initial bank) calls) from_ swapID
      randomNumber).st = runCalls d p (State.initial bank) calls ∧
    (∀ record : AtomicSwap,
      GetAtomicSwap (runCalls d p (State.initial bank) calls) swapID = some record →
      GetAtomicSwap (ClaimAtomicSwap d p height (runCalls d p (State.initial bank) calls)
        from_ swapID randomNumber).st swapID = some record) ∧
    (∀ dn : String,
      GetAssetSupply (ClaimAtomicSwap d p height (runCalls d p (State.initial bank) calls)
        from_ swapID randomNumber).st dn
        = GetAssetSupply (runCalls d p (State.initial bank) calls) dn) ∧
    (ClaimAtomicSwap d p height (runCalls d p (State.initial bank) calls) from_ swapID
      randomNumber).err ≠ some .TransferFailed := by
  have hinv := runCalls_fundInv d p calls (State.initial bank) (fundInv_initial d bank hempty)
  generalize runCalls d p (State.initial bank) calls = s at hinv herr ⊢
  rcases ClaimAtomicSwap_cases d p height s from_ swapID randomNumber with
    ⟨-, hne, hst⟩ | ⟨record, amount0, rest, hget, hopen, -, -, -, -, hrest⟩
  · rw [hst]
    exact ⟨rfl, fun record h => h, fun dn => rfl, hne⟩
  · exfalso
    rcases hrest with ⟨hsend, -, -⟩ | ⟨b, -, hok, -⟩
    · obtain ⟨b, hb⟩ := fundInv_escrow_covers d s hinv swapID record hget hopen
        (.account record.Recipient)
      rw [hb] at hsend
      cases hsend
    · exact herr hok

theorem claim_error_leaves_reachable_state_witness :
    ((∀ dn : String, exBank0 .module dn = 0) ∧
      (ClaimAtomicSwap exDeps exParams 110
        (runCalls exDeps exParams (State.initial exBank0) (exCalls.take 1)) [2]
        (CalculateSwapID exDeps (CalculateRandomHash exDeps [15] 1000) [1] "") [16]).err
        ≠ none) ∧
    ((ClaimAtomicSwap exDeps exParams 110
        (runCalls exDeps exParams (State.initial exBank0) (exCalls.take 1)) [2]
        (CalculateSwapID exDeps (CalculateRandomHash exDeps [15] 1000) [1] "") [16]).st
      = runCalls exDeps exParams (State.initial exBank0) (exCalls.take 1) ∧
    (∀ record : AtomicSwap,
      GetAtomicSwap (runCalls exDeps exParams (State.initial exBank0) (exCalls.take 1))
        (CalculateSwapID exDeps (CalculateRandomHash exDeps [15] 1000) [1] "") = some record →
      GetAtomicSwap (ClaimAtomicSwap exDeps exParams 110
        (runCalls exDeps exParams (State.initial exBank0) (exCalls.take 1)) [2]
        (CalculateSwapID exDeps (CalculateRandomHash exDeps [15] 1000) [1] "") [16]).st
        (CalculateSwapID exDeps (CalculateRandomHash exDeps [15] 1000) [1] "")
        = some record) ∧
    (∀ dn : String,
      GetAssetSupply (ClaimAtomicSwap exDeps exParams 110
        (runCalls exDeps exParams (State.initial exBank0) (exCalls.take 1)) [2]
        (CalculateSwapID exDeps (CalculateRandomHash exDeps [15] 1000) [1] "") [16]).st dn
        = GetAssetSupply (runCalls exDeps exParams (State.initial exBank0) (exCalls.take 1))
            dn) ∧
    (ClaimAtomicSwap exDeps exParams 110
        (runCalls exDeps exParams (State.initial exBank0) (exCalls.take 1)) [2]
        (CalculateSwapID exDeps (CalculateRandomHash exDeps [15] 1000) [1] "") [16]).err
      ≠ some .TransferFailed) ∧
    (ClaimAtomicSwap exDeps exParams 110
        (runCalls exDeps exParams (State.initial exBank0) (exCalls.take 1)) [2]
        (CalculateSwapID exDeps (CalculateRandomHash exDeps [15] 1000) [1] "") [16]).err
      = some .InvalidClaimSecret ∧
    (GetAtomicSwap (runCalls exDeps exParams (State.initial exBank0) (exCalls.take 1))
        (CalculateSwapID exDeps (CalculateRandomHash exDeps [15] 1000) [1] "")).map
      (fun r => r.Status) = some .Open :=
  ⟨⟨fun dn => by simp [exBank0], by decide⟩,
    claim_error_leaves_reachable_state exDeps exParams exBank0 (exCalls.take 1) 110 [2]
      (CalculateSwapID exDeps (CalculateRandomHash exDeps [15] 1000) [1] "") [16]
      (fun dn => by simp [exBank0]) (by decide),
    by decide, by decide⟩

/-! ## Create: the expire height at a wrapping sum -/

/-- C10, as it stands, fails: at the block height `2^63 - 1` a `CreateAtomicSwap` with the
height span 20 and the timestamp 0 returns `nil`, and the `ExpireHeight` of the record it
stores is `-9223372036854775789`, the `int64` sum wrapped around, not the sum
`h + heightSpan` of the integers. -/
theorem create_expireHeight_wraps :
    (CreateAtomicSwap exDeps exParams 9223372036854775807 (State.initial exBank0)
      (CalculateRandomHash exDeps [15] 0) 0 20 [1] [2] "" ""
      [{ Denom := "bnb", Amount := 50000 }] "bnb50000").err = none ∧
    (GetAtomicSwap (CreateAtomicSwap exDeps exParams 9223372036854775807
      (State.initial exBank0) (CalculateRandomHash exDeps [15] 0) 0 20 [1] [2] "" ""
      [{ Denom := "bnb", Amount := 50000 }] "bnb50000").st
      (CalculateSwapID exDeps (CalculateRandomHash exDeps [15] 0) [1] "")).map
        (fun r => r.ExpireHeight) = some (-9223372036854775789) ∧
    ¬ (GetAtomicSwap (CreateAtomicSwap exDeps exParams 9223372036854775807
      (State.initial exBank0) (CalculateRandomHash exDeps [15] 0) 0 20 [1] [2] "" ""
      [{ Denom := "bnb", Amount := 50000 }] "bnb50000").st
      (CalculateSwapID exDeps (CalculateRandomHash exDeps [15] 0) [1] "")).map
        (fun r => r.ExpireHeight) = some ((9223372036854775807 : Int) + 20) := by
  refine ⟨by decide, by decide, by decide⟩

end Bep3
